import Mathlib

/-!
# gredu-expressions: the detection pipeline of `src/App.js`

A shallow embedding of `src/App.js`: first its data path (the helper
`getDominantEmotion`, the body of `runDetection`, the session handlers) with
the `averageAge` computation of `src/components/tools/SessionAnalyticsTool.js`,
then the pipeline around it (model loading, device discovery, the camera
stream, the detection timer, capture) with the two controls of
`src/components/Sidebar.js` that gate its handlers.

Conventions of the embedding:

* a JavaScript object used as a string-keyed map is an association list in
  insertion order (the order `Object.entries` and the spread `{...prev}` walk
  for keys that are not array indices);
* expression scores are rationals: every finite, non-NaN number compares under
  `>` as its exact value does;
* numbers that the code computes with (ages, counts) are `JsNum`, which keeps
  NaN and the two infinities apart from the finite values; a sum or quotient
  of finite values is the binary64 number nearest the exact result
  (`roundDouble`), as IEEE 754 arithmetic gives it;
* a property read goes through the prototype chain: a counter object is an
  object literal, so a key it does not hold itself is looked up in
  `Object.prototype`;
* React state is a record, a state setter is a record update, and the setters
  of one callback are applied in program order.
-/

namespace Gredu

/-! ## JavaScript values -/

/-- A JavaScript number: a finite value, NaN, or one of the infinities. -/
inductive JsNum where
  | finite (q : ℚ)
  | nan
  | posInf
  | negInf
  deriving DecidableEq

/-- The global `isNaN` on a number. -/
def JsNum.isNaN : JsNum → Bool
  | .nan => true
  | _ => false

/-- The value of the `age` property of a detection as `runDetection` reads it:
`undefined` when the property is absent, `null`, or a number. -/
inductive JsAge where
  | undefined
  | null
  | number (x : JsNum)
  deriving DecidableEq

/-- The function `Math.round(x)`: the argument is first converted by `ToNumber`
(`undefined` gives NaN, `null` gives `+0`), then rounded to the nearest
integer, halves towards `+∞`; NaN gives NaN, an infinity is returned
unchanged. -/
def mathRound : JsAge → JsNum
  | .undefined => .nan
  | .null => .finite 0
  | .number (.finite q) => .finite ((⌊q + 1 / 2⌋ : ℤ) : ℚ)
  | .number .nan => .nan
  | .number .posInf => .posInf
  | .number .negInf => .negInf

/-- The integer nearest `x`, the even one of two: how IEEE 754 rounds a
significand in its default mode. -/
def roundHalfEven (x : ℚ) : ℤ :=
  if x - ⌊x⌋ < 1 / 2 then ⌊x⌋
  else if 1 / 2 < x - ⌊x⌋ then ⌊x⌋ + 1
  else if ⌊x⌋ % 2 = 0 then ⌊x⌋ else ⌊x⌋ + 1

/-- The Number value for a real `q`, which every arithmetic operation returns
for its exact result: the binary64 number nearest `q`, ties to the even
significand. With `2 ^ e ≤ |q| < 2 ^ (e + 1)` (and `e` at least `-1022`, the
exponent of the subnormal numbers) the numbers near `q` are the multiples of
`2 ^ (e - 52)`; a magnitude that rounds to `2 ^ 1024` is an infinity. -/
def roundDouble (q : ℚ) : JsNum :=
  if q = 0 then .finite 0
  else
    let e : ℤ := max (Int.log 2 |q|) (-1022)
    let ulp : ℚ := (2 : ℚ) ^ (e - 52)
    let r : ℚ := (roundHalfEven (|q| / ulp) : ℚ) * ulp
    if (2 : ℚ) ^ (1024 : ℤ) ≤ r then (if 0 < q then .posInf else .negInf)
    else .finite (if 0 < q then r else -r)

/-- The sum `a + b` of two numbers. -/
def jsAdd : JsNum → JsNum → JsNum
  | .finite a, .finite b => roundDouble (a + b)
  | .nan, _ => .nan
  | _, .nan => .nan
  | .posInf, .negInf => .nan
  | .negInf, .posInf => .nan
  | .posInf, _ => .posInf
  | _, .posInf => .posInf
  | .negInf, _ => .negInf
  | _, .negInf => .negInf

/-- The quotient `x / n` of a number by an array length. -/
def jsDivNat : JsNum → ℕ → JsNum
  | .finite q, n =>
    if n = 0 then
      (if q = 0 then .nan else if 0 < q then .posInf else .negInf)
    else roundDouble (q / (n : ℚ))
  | .nan, _ => .nan
  | .posInf, _ => .posInf
  | .negInf, _ => .negInf

/-- The result of `x.toFixed(1)`: either a sign and the integer `tenths` whose
tenth is nearest to `|x|` (printed as `tenths / 10`, a dot, `tenths % 10`), or
the number handed to `ToString` unchanged (non-finite, or `|x| ≥ 10^21`). -/
inductive Fixed where
  | decimal (neg : Bool) (tenths : ℕ)
  | verbatim (x : JsNum)
  deriving DecidableEq

/-- The method `Number.prototype.toFixed` with one fraction digit: a non-finite number is
printed by `ToString`; otherwise the sign is split off, a magnitude of at least
`10^21` is printed by `ToString`, and else `n` is the integer for which
`n / 10 - x` is closest to zero, the larger one of two. -/
def toFixed1 : JsNum → Fixed
  | .finite q =>
    let x := if q < 0 then -q else q
    if (10 : ℚ) ^ 21 ≤ x then .verbatim (.finite q)
    else .decimal (decide (q < 0)) (⌊x * 10 + 1 / 2⌋).toNat
  | .nan => .verbatim .nan
  | .posInf => .verbatim .posInf
  | .negInf => .verbatim .negInf

/-- The value a `Fixed.decimal` denotes. -/
def Fixed.value : Fixed → Option ℚ
  | .decimal neg t => some ((if neg then -1 else 1) * ((t : ℚ) / 10))
  | .verbatim _ => none

/-- The characters of a `Fixed.decimal`; the non-finite numbers print as
`ToString` prints them. -/
def Fixed.text : Fixed → Option String
  | .decimal neg t =>
    some ((if neg then "-" else "") ++ toString (t / 10) ++ "." ++ toString (t % 10))
  | .verbatim .nan => some "NaN"
  | .verbatim .posInf => some "Infinity"
  | .verbatim .negInf => some "-Infinity"
  | .verbatim (.finite _) => none

/-! ## String-keyed counter objects -/

/-- A value held under a key of a counter object: a number, or the text that
`+ 1` makes when what was read is not a number, namely the text of the member
`member` of `Object.prototype` followed by `ones` characters `1` (the text of
a built-in function is left to the implementation, so it is named, not
spelled). -/
inductive CountVal where
  | number (x : JsNum)
  | text (member : String) (ones : ℕ)
  deriving DecidableEq

/-- A JavaScript object literal used as a counter, its own properties in
insertion order. -/
abbrev CountObj := List (String × CountVal)

/-- The names of the properties of `Object.prototype`, which every object
literal inherits (those of ECMAScript with its annex for browsers). -/
def objectPrototypeKeys : List String :=
  [ "constructor", "__defineGetter__", "__defineSetter__", "hasOwnProperty",
    "__lookupGetter__", "__lookupSetter__", "isPrototypeOf", "propertyIsEnumerable",
    "toString", "valueOf", "__proto__", "toLocaleString" ]

/-- What a property read `obj[k]` gives: `undefined`, the value of an own
property, or the member of `Object.prototype` of that name. -/
inductive PropRead where
  | undefined
  | own (v : CountVal)
  | inherited (member : String)
  deriving DecidableEq

/-- The own property `k` of an object, if it has one. -/
def objOwn : CountObj → String → Option CountVal
  | [], _ => none
  | (k', v) :: rest, k => if k' = k then some v else objOwn rest k

/-- Property read `obj[k]`: the own property, else the inherited one. -/
def objGet (obj : CountObj) (k : String) : PropRead :=
  match objOwn obj k with
  | some v => .own v
  | none => if k ∈ objectPrototypeKeys then .inherited k else .undefined

/-- The expression `(v || 0) + 1` for a value `v` read from a counter object:
`undefined`, `0` and NaN are falsy and give `0 + 1`; another number has `1`
added; a text is truthy (it is never empty) and has the character `1`
appended; a member of `Object.prototype` is a function or an object, truthy,
and `+` turns it into its text and appends `1`. -/
def orZeroPlusOne : PropRead → CountVal
  | .undefined => .number (jsAdd (.finite 0) (.finite 1))
  | .own (.number (.finite q)) => .number (jsAdd (.finite q) (.finite 1))
  | .own (.number .nan) => .number (jsAdd (.finite 0) (.finite 1))
  | .own (.number .posInf) => .number (jsAdd .posInf (.finite 1))
  | .own (.number .negInf) => .number (jsAdd .negInf (.finite 1))
  | .own (.text member ones) => .text member (ones + 1)
  | .inherited member => .text member 1

/-- The object `{ ...obj, [k]: v }`: an existing key keeps its place and takes
the new value, a new key is added last. -/
def objSet : CountObj → String → CountVal → CountObj
  | [], k, v => [(k, v)]
  | (k', v') :: rest, k, v =>
    if k' = k then (k', v) :: rest else (k', v') :: objSet rest k v

/-- The updater `prev => ({ ...prev, [k]: (prev[k] || 0) + 1 })`. -/
def objIncrement (prev : CountObj) (k : String) : CountObj :=
  objSet prev k (orZeroPlusOne (objGet prev k))

/-- The counter object that holds the given counts under the given keys. -/
def countsOf (counts : List (String × ℕ)) : CountObj :=
  counts.map (fun x => (x.1, CountVal.number (.finite (x.2 : ℚ))))

/-! ## Detections -/

/-- An expression object as `Object.entries` lists it: `[label, score]` pairs. -/
abbrev Expressions := List (String × ℚ)

/-- The fields of one face-api detection that `runDetection` reads. For
`expressions` and `gender`, which the code only tests for truthiness, `none`
is a property that is `undefined` or `null`; `age` is handed to `Math.round`,
which tells the two apart. -/
structure FaceObservation where
  expressions : Option Expressions
  age : JsAge
  gender : Option String
  deriving DecidableEq

/-- What `getDominantEmotion` returns: the object literal
`{ emotion, confidence }` of its first line, or the two-element array the
reduction yields. -/
inductive DominantResult where
  | record (emotion : String) (confidence : ℚ)
  | pair (label : String) (score : ℚ)
  deriving DecidableEq

/-- The reducer `(prev, curr) => (prev[1] > curr[1] ? prev : curr)`. -/
def dominantStep (prev curr : String × ℚ) : String × ℚ :=
  if prev.2 > curr.2 then prev else curr

/-- The helper `getDominantEmotion` of `src/App.js`: a falsy argument returns the object
`{ emotion: 'N/A', confidence: 0 }`; otherwise the entries are reduced from the
seed `['N/A', 0]`. -/
def getDominantEmotion (expressions : Option Expressions) : DominantResult :=
  match expressions with
  | none => .record "N/A" 0
  | some entries =>
    let r := entries.foldl dominantStep ("N/A", 0)
    .pair r.1 r.2

/-- The array destructuring `const [emotion, confidence] = v`: an array gives
its first two elements; a plain object is not iterable, so the pattern throws
a `TypeError` (`none`). -/
def destructurePair : DominantResult → Option (String × ℚ)
  | .pair label score => some (label, score)
  | .record _ _ => none

/-! ## Application state -/

/-- One element of `detectionLog`. -/
structure LogEntry where
  timestamp : String
  emotion : String
  confidence : ℚ
  age : JsNum
  gender : Option String
  deriving DecidableEq

/-- The `useState` cells of `App` that the detection results are written to. -/
structure AppState where
  detectedEmotion : String
  emotionConfidence : ℚ
  detectedAge : Option JsNum
  detectedGender : Option String
  detectionsArray : List FaceObservation
  sessionEmotionCounts : CountObj
  sessionAges : List JsNum
  sessionGenders : CountObj
  detectionLog : List LogEntry
  deriving DecidableEq

/-- The initial values given to `useState`. -/
def initialState : AppState where
  detectedEmotion := "N/A"
  emotionConfidence := 0
  detectedAge := none
  detectedGender := none
  detectionsArray := []
  sessionEmotionCounts := []
  sessionAges := []
  sessionGenders := []
  detectionLog := []

/-- The constant `MAX_LOG_ENTRIES`. -/
def MAX_LOG_ENTRIES : ℕ := 100

/-- Truthiness of `gender`: defined and not the empty string. -/
def genderTruthy : Option String → Bool
  | none => false
  | some g => g != ""

/-- The `try` block of `runDetection` from `setDetectionsArray(detections)` on,
for the array `detections` the detector resolved with; `now` is
`new Date().toLocaleTimeString()`. A `TypeError` thrown by the destructuring
is caught by the `catch`, which only logs: the setters called before it keep
their effect, the ones after it are not reached. -/
def applyDetections (now : String) (detections : List FaceObservation) (s : AppState) :
    AppState :=
  let s := { s with detectionsArray := detections }
  match detections with
  | firstDetection :: _ =>
    match destructurePair (getDominantEmotion firstDetection.expressions) with
    | none => s
    | some (emotion, confidence) =>
      let age := mathRound firstDetection.age
      let gender := firstDetection.gender
      let s := { s with
        detectedEmotion := emotion
        emotionConfidence := confidence
        detectedAge := some age
        detectedGender := gender }
      let s :=
        if emotion ≠ "N/A" then
          { s with sessionEmotionCounts := objIncrement s.sessionEmotionCounts emotion }
        else s
      let s :=
        if !age.isNaN then { s with sessionAges := s.sessionAges ++ [age] } else s
      let s :=
        if genderTruthy gender then
          { s with sessionGenders := objIncrement s.sessionGenders (gender.getD "") }
        else s
      let newLogEntry : LogEntry :=
        { timestamp := now, emotion := emotion, confidence := confidence,
          age := age, gender := gender }
      { s with detectionLog := (newLogEntry :: s.detectionLog).take MAX_LOG_ENTRIES }
  | [] =>
    { s with
      detectedEmotion := "N/A"
      emotionConfidence := 0
      detectedAge := none
      detectedGender := none }

/-- The callback `runDetection`: `guard` is the conjunction of the entry conditions (video
and canvas present, video playing with non-zero dimensions, models loaded,
webcam ready, live tool active); `outcome` is what the awaited detector call
gave, `none` when it rejected (the `catch` logs and changes nothing). -/
def runDetection (guard : Bool) (now : String) (outcome : Option (List FaceObservation))
    (s : AppState) : AppState :=
  if guard then
    match outcome with
    | some detections => applyDetections now detections s
    | none => s
  else s

/-- The state writes of `stopStreamAndClearDetections`. -/
def stopStreamAndClearDetections (s : AppState) : AppState :=
  { s with
    detectionsArray := []
    detectedEmotion := "N/A"
    emotionConfidence := 0
    detectedAge := none
    detectedGender := none }

/-- The handler `resetSessionData`: the three session cells are set to empty. -/
def resetSessionData (s : AppState) : AppState :=
  { s with sessionEmotionCounts := [], sessionAges := [], sessionGenders := [] }

/-- The handler `clearDetectionLogHandler`: the log is set to the empty array. -/
def clearDetectionLogHandler (s : AppState) : AppState :=
  { s with detectionLog := [] }

/-- The callbacks that write the state cells of `AppState`. -/
inductive Event where
  | tick (guard : Bool) (now : String) (outcome : Option (List FaceObservation))
  | clearLog
  | resetSession
  | stopStream

/-- One callback run to completion. -/
def step (s : AppState) : Event → AppState
  | .tick guard now outcome => runDetection guard now outcome s
  | .clearLog => clearDetectionLogHandler s
  | .resetSession => resetSessionData s
  | .stopStream => stopStreamAndClearDetections s

/-- A sequence of callbacks, first to last. -/
def run (events : List Event) (s : AppState) : AppState :=
  events.foldl step s

/-- The frames of successive ticks applied in order, each with its clock
reading. -/
def applyAll (ticks : List (String × List FaceObservation)) (s : AppState) : AppState :=
  ticks.foldl (fun st t => applyDetections t.1 t.2 st) s

/-- The log entry `applyDetections` builds from a frame, when it builds one. -/
def frameEntry (t : String × List FaceObservation) : Option LogEntry :=
  match t.2 with
  | [] => none
  | firstDetection :: _ =>
    match destructurePair (getDominantEmotion firstDetection.expressions) with
    | none => none
    | some (emotion, confidence) =>
      some { timestamp := t.1, emotion := emotion, confidence := confidence,
             age := mathRound firstDetection.age, gender := firstDetection.gender }

/-- The value `averageAge` of `SessionAnalyticsTool`:
`sessionAges.length > 0 ? (sum / length).toFixed(1) : 'N/A'`; `none` is the
string `'N/A'`. -/
def averageAge (sessionAges : List JsNum) : Option Fixed :=
  if sessionAges.length > 0 then
    some (toFixed1 (jsDivNat (sessionAges.foldl jsAdd (.finite 0)) sessionAges.length))
  else none

/-! ## The pipeline: tools, camera streams and the detection timer

The rest of `App` is embedded as a record of its state cells, its refs and the
browser resources it drives, with one function per callback. Conventions:

* a callback runs to completion; an `await` splits a function into the part up
  to the call and the part resumed when the promise settles;
* an effect or handler reads the cells as the record has them when it runs;
* the effects are functions that may be run in any order: which of them React
  runs after a render, and when the live view's elements are mounted, is not
  fixed by the model, so an invariant of all event sequences is an invariant of
  every schedule, and a scenario spells out the order it follows;
* `loadingMessage`, console output and the drawing effect are left out: no
  modelled callback reads them. -/

/-- The values of `activeTool`. -/
inductive Tool where
  | live
  | analytics
  | log
  deriving DecidableEq

/-- The fields of a `MediaDeviceInfo` that discovery reads. -/
structure DeviceInfo where
  kind : String
  label : String
  deviceId : String
  deriving DecidableEq

/-- The `<video>` element of `LiveAnalysisTool`, as far as `App` reads it;
`srcObject` names the attached stream. -/
structure VideoElement where
  srcObject : Option ℕ
  paused : Bool
  ended : Bool
  videoWidth : ℕ
  videoHeight : ℕ
  deriving DecidableEq

/-- The calls `App` makes on browser resources, in the order made:
`getUserMedia` (with `{ video: true }` for `none`, with an exact device id
otherwise), stopping every track of a stream, writing `srcObject` (to `null`
or to a stream), `setInterval`, `clearInterval`, a detector call, `alert`, and
the download of a composed image. -/
inductive Op where
  | getUserMedia (deviceId : Option String)
  | stopTracks (stream : ℕ)
  | detach
  | attach (stream : ℕ)
  | setInterval (timer : ℕ)
  | clearInterval (timer : ℕ)
  | detect
  | alert (message : String)
  | download
  deriving DecidableEq

/-- The calls that acquire, release, attach or detach a camera stream. -/
def Op.isStreamOp : Op → Bool
  | .getUserMedia _ => true
  | .stopTracks _ => true
  | .detach => true
  | .attach _ => true
  | _ => false

/-- The state of `App`: its `useState` cells (`cells` holds the nine of
`AppState`), its refs (`video` and `canvas` are `videoRef.current` and
`canvasRef.current`, absent while the live view is not mounted), and the
environment: the streams `getUserMedia` has resolved with whose tracks have
not been stopped, the interval timers set and not cleared, the promises being
awaited, and the calls made so far. -/
structure Pipeline where
  activeTool : Tool
  modelsLoaded : Bool
  isWebcamReady : Bool
  isDetecting : Bool
  error : Option String
  showCameraSelector : Bool
  videoDevices : List DeviceInfo
  selectedDeviceId : String
  cells : AppState
  video : Option VideoElement
  canvas : Bool
  detectionIntervalRef : Option ℕ
  liveStreams : List ℕ
  streamCount : ℕ
  timers : List ℕ
  timerCount : ℕ
  loadPending : Bool
  probing : ℕ
  enumerating : ℕ
  acquiring : List String
  outstanding : ℕ
  ops : List Op
  deriving DecidableEq

/-- The state after the first render and its effects: the live view is mounted
with a fresh video element, `loadModels` awaits its four loads, and the stream
and interval effects found nothing to do. -/
def pipelineInit : Pipeline where
  activeTool := .live
  modelsLoaded := false
  isWebcamReady := false
  isDetecting := false
  error := none
  showCameraSelector := false
  videoDevices := []
  selectedDeviceId := ""
  cells := initialState
  video := some ⟨none, true, false, 0, 0⟩
  canvas := true
  detectionIntervalRef := none
  liveStreams := []
  streamCount := 0
  timers := []
  timerCount := 0
  loadPending := true
  probing := 0
  enumerating := 0
  acquiring := []
  outstanding := 0
  ops := []

/-- The resumption of `loadModels` when `Promise.all` of the four loads has
settled: all fulfilled sets `modelsLoaded`, a rejection (with message
`message`) sets the error. -/
def loadModelsResume (detector landmarks expression ageGender : Bool) (message : String)
    (p : Pipeline) : Pipeline :=
  if detector && landmarks && expression && ageGender then
    { p with loadPending := false, modelsLoaded := true }
  else
    { p with
      loadPending := false
      error := some ("Failed to load AI models: " ++ message ++ ". Check public/models.") }

/-- The test `haystack.includes(needle)` on the characters of two strings. -/
def charsInclude : List Char → List Char → Bool
  | [], needle => needle.isEmpty
  | c :: cs, needle => needle.isPrefixOf (c :: cs) || charsInclude cs needle

/-- The test `d.label.toLowerCase().includes('iphone')`. Only the letters
`A` to `Z` lower-case to a letter of `iphone`, directly followed by the rest of
the original text, so lower-casing these alone decides the test. -/
def labelMatches (label : String) : Bool :=
  charsInclude (label.data.map Char.toLower) "iphone".data

/-- The second effect and `getVideoDevices` up to its first `await`: with the
models loaded, `getUserMedia({ video: true, audio: false })` is called. -/
def getVideoDevices (p : Pipeline) : Pipeline :=
  if p.modelsLoaded then
    { p with probing := p.probing + 1, ops := p.ops ++ [.getUserMedia none] }
  else p

/-- The resumption of `getVideoDevices` when the permission probe has settled:
granted, the browser has opened a stream (which the function drops) and
`enumerateDevices()` is awaited; denied, the `catch` sets the error. -/
def getVideoDevicesProbed (granted : Bool) (p : Pipeline) : Pipeline :=
  if granted then
    { p with
      probing := p.probing - 1
      liveStreams := p.liveStreams ++ [p.streamCount]
      streamCount := p.streamCount + 1
      enumerating := p.enumerating + 1 }
  else
    { p with
      probing := p.probing - 1
      error := some "Could not access camera list. Please grant permission." }

/-- The resumption of `getVideoDevices` when `enumerateDevices()` has settled
(`none`: rejected): the video inputs are kept, and the preferred one, or the
first, is selected. -/
def getVideoDevicesEnumerated (devices : Option (List DeviceInfo)) (p : Pipeline) : Pipeline :=
  let p := { p with enumerating := p.enumerating - 1 }
  match devices with
  | some devices =>
    let videoInputs := devices.filter (fun device => device.kind = "videoinput")
    let p := { p with videoDevices := videoInputs }
    match videoInputs with
    | first :: _ =>
      let preferredCamera := (videoInputs.find? (fun d => labelMatches d.label)).getD first
      { p with selectedDeviceId := preferredCamera.deviceId, showCameraSelector := true }
    | [] => { p with error := some "No video input devices found." }
  | none => { p with error := some "Could not access camera list. Please grant permission." }

/-- The statement `stream.getTracks().forEach(track => track.stop())`. -/
def stopTracks (stream : ℕ) (p : Pipeline) : Pipeline :=
  { p with
    liveStreams := p.liveStreams.filter (fun live => live ≠ stream)
    ops := p.ops ++ [.stopTracks stream] }

/-- The block `if (detectionIntervalRef.current) { clearInterval(...);
detectionIntervalRef.current = null; }`, which the source has four times. -/
def clearDetectionInterval (p : Pipeline) : Pipeline :=
  match p.detectionIntervalRef with
  | some timer =>
    { p with
      timers := p.timers.filter (fun set => set ≠ timer)
      detectionIntervalRef := none
      ops := p.ops ++ [.clearInterval timer] }
  | none => p

/-- The helper `stopStreamAndClearDetections` on the whole state: a stream
attached to the mounted video element has its tracks stopped and is detached,
the timer is cleared, `isWebcamReady` is reset and so are the overlay and the
snapshot. -/
def Pipeline.stopStreamAndClearDetections (p : Pipeline) : Pipeline :=
  let p :=
    match p.video with
    | some element =>
      match element.srcObject with
      | some stream =>
        let p := stopTracks stream p
        { p with video := some { element with srcObject := none }, ops := p.ops ++ [.detach] }
      | none => p
    | none => p
  let p := clearDetectionInterval p
  { p with isWebcamReady := false, cells := Gredu.stopStreamAndClearDetections p.cells }

/-- The condition of the third effect:
`activeTool === 'live' && selectedDeviceId && modelsLoaded`. -/
def shouldStream (p : Pipeline) : Bool :=
  decide (p.activeTool = .live) && decide (p.selectedDeviceId ≠ "") && p.modelsLoaded

/-- The body of the third effect, with `startVideoStream` up to its `await`:
when the stream should be active, the tracks of an attached stream are stopped
(it stays attached), the timer is cleared, `isWebcamReady` is reset and
`getUserMedia` is called with the selected device's exact id; otherwise
`stopStreamAndClearDetections` runs. -/
def streamEffect (p : Pipeline) : Pipeline :=
  if shouldStream p then
    let p :=
      match p.video with
      | some element =>
        match element.srcObject with
        | some stream => stopTracks stream p
        | none => p
      | none => p
    let p := clearDetectionInterval p
    { p with
      isWebcamReady := false
      error := none
      acquiring := p.acquiring ++ [p.selectedDeviceId]
      ops := p.ops ++ [.getUserMedia (some p.selectedDeviceId)] }
  else p.stopStreamAndClearDetections

/-- The resumption of `startVideoStream` when its `getUserMedia` has settled:
resolved (`failure = none`), the browser has opened a stream and it is written
to `srcObject` if the video element is mounted; rejected, the `catch` sets the
error and resets `isWebcamReady`. -/
def startVideoStreamResume (failure : Option String) (p : Pipeline) : Pipeline :=
  match failure with
  | none =>
    let stream := p.streamCount
    let p := { p with liveStreams := p.liveStreams ++ [stream], streamCount := stream + 1 }
    match p.video with
    | some element =>
      { p with video := some { element with srcObject := some stream },
               ops := p.ops ++ [.attach stream] }
    | none => p
  | some message =>
    { p with error := some ("Error starting webcam: " ++ message), isWebcamReady := false }

/-- The composite guard of the sixth effect:
`activeTool === 'live' && isWebcamReady && modelsLoaded`. -/
def shouldBeDetecting (p : Pipeline) : Bool :=
  decide (p.activeTool = .live) && p.isWebcamReady && p.modelsLoaded

/-- The body of the sixth effect: with the guard, a timer is set unless the
handle holds one, and `isDetecting` is raised; without it, the timer is cleared
and `isDetecting` lowered. -/
def intervalEffect (p : Pipeline) : Pipeline :=
  if shouldBeDetecting p then
    let p :=
      match p.detectionIntervalRef with
      | none =>
        let timer := p.timerCount + 1
        { p with
          timerCount := timer
          timers := p.timers ++ [timer]
          detectionIntervalRef := some timer
          ops := p.ops ++ [.setInterval timer] }
      | some _ => p
    if !p.isDetecting then { p with isDetecting := true } else p
  else
    let p := clearDetectionInterval p
    if p.isDetecting then { p with isDetecting := false } else p

/-- The handler `handleVideoCanPlay`. -/
def handleVideoCanPlay (p : Pipeline) : Pipeline :=
  if p.video.isNone || decide (p.activeTool ≠ .live) then p
  else { p with isWebcamReady := true, error := none }

/-- The handler `handleCameraChange` for the chosen option's value. -/
def handleCameraChange (newDeviceId : String) (p : Pipeline) : Pipeline :=
  if newDeviceId ≠ p.selectedDeviceId then
    { p with isWebcamReady := false, selectedDeviceId := newDeviceId }
  else p

/-- The camera `<select>` of `Sidebar`: rendered with `showCameraSelector` and
at least one device, disabled with
`!modelsLoaded || (isDetecting && activeTool === 'live')`; the chosen value is
one of its options. -/
def cameraSelectEnabled (newDeviceId : String) (p : Pipeline) : Bool :=
  p.showCameraSelector && decide (p.videoDevices.length > 0)
    && !(!p.modelsLoaded || (p.isDetecting && decide (p.activeTool = .live)))
    && decide (newDeviceId ∈ p.videoDevices.map (fun d => d.deviceId))

/-- The entry test of `handleCapture`, negated: the live tool is active, the
video and canvas elements are mounted and `detectionsArray` is not empty. -/
def captureGuard (p : Pipeline) : Bool :=
  decide (p.activeTool = .live) && p.video.isSome && p.canvas
    && decide (p.cells.detectionsArray.length ≠ 0)

/-- The handler `handleCapture`: without the guard it alerts and returns, with
it the frame and the overlay are composed and the image is downloaded. -/
def handleCapture (p : Pipeline) : Pipeline :=
  if captureGuard p then { p with ops := p.ops ++ [.download] }
  else
    { p with
      ops := p.ops ++ [.alert "Capture available only in Live Analysis with active detection."] }

/-- The capture button of `Sidebar`, disabled with
`!isDetecting || detectionsArrayLength === 0 || activeTool !== 'live'`, where
its `isDetecting` is `isDetecting && activeTool === 'live'`. -/
def captureButtonEnabled (p : Pipeline) : Bool :=
  !(!(p.isDetecting && decide (p.activeTool = .live))
      || decide (p.cells.detectionsArray.length = 0)
      || decide (p.activeTool ≠ .live))

/-- The attached stream, when it still has unstopped tracks. -/
def streamActive (p : Pipeline) : Bool :=
  match p.video with
  | some element =>
    match element.srcObject with
    | some stream => decide (stream ∈ p.liveStreams)
    | none => false
  | none => false

/-- The entry conditions of `runDetection`, up to the detector call. -/
def runDetectionGuard (p : Pipeline) : Bool :=
  match p.video with
  | none => false
  | some video =>
    if video.paused || video.ended || !p.canvas || !p.modelsLoaded || !p.isWebcamReady
        || decide (p.activeTool ≠ .live) then false
    else if video.videoWidth = 0 || video.videoHeight = 0 then false
    else true

/-- The callback `runDetection` up to its `await`: past the entry conditions
the detector is called. Nothing records that a call is under way. -/
def runDetectionBegin (p : Pipeline) : Pipeline :=
  if runDetectionGuard p then
    { p with outstanding := p.outstanding + 1, ops := p.ops ++ [.detect] }
  else p

/-- The resumption of `runDetection` when the detector call has settled: the
setters of the `try` block run on the result (`runDetection` on the cells, the
entry conditions having been passed before the call); nothing is tested
again. -/
def runDetectionResume (now : String) (outcome : Option (List FaceObservation))
    (p : Pipeline) : Pipeline :=
  { p with outstanding := p.outstanding - 1, cells := runDetection true now outcome p.cells }

/-- Everything that can happen to the pipeline: a promise settles, an effect
or its cleanup runs, the live view is mounted or unmounted, the video element
changes its playback state or fires `canplay`, the user acts, the timer
fires. -/
inductive PEvent where
  | modelsSettled (detector landmarks expression ageGender : Bool) (message : String)
  | devicesEffect
  | probeSettled (granted : Bool)
  | enumerateSettled (devices : Option (List DeviceInfo))
  | streamCleanup
  | streamEffect
  | streamSettled (deviceId : String) (failure : Option String)
  | intervalCleanup
  | intervalEffect
  | liveViewMounted
  | liveViewUnmounted
  | playback (paused ended : Bool) (videoWidth videoHeight : ℕ)
  | canPlay
  | cameraChange (newDeviceId : String)
  | selectTool (tool : Tool)
  | tick
  | detectionSettled (now : String) (outcome : Option (List FaceObservation))
  | captureClick
  | resetSession
  | clearLog

/-- One event. A settlement needs its promise to be awaited, a tick needs a
set timer, a user action needs its control to be enabled; otherwise nothing
happens. -/
def pstep (p : Pipeline) : PEvent → Pipeline
  | .modelsSettled detector landmarks expression ageGender message =>
    if p.loadPending then loadModelsResume detector landmarks expression ageGender message p
    else p
  | .devicesEffect => getVideoDevices p
  | .probeSettled granted => if p.probing = 0 then p else getVideoDevicesProbed granted p
  | .enumerateSettled devices =>
    if p.enumerating = 0 then p else getVideoDevicesEnumerated devices p
  | .streamCleanup => p.stopStreamAndClearDetections
  | .streamEffect => streamEffect p
  | .streamSettled deviceId failure =>
    if deviceId ∈ p.acquiring then
      startVideoStreamResume failure { p with acquiring := p.acquiring.erase deviceId }
    else p
  | .intervalCleanup => clearDetectionInterval p
  | .intervalEffect => intervalEffect p
  | .liveViewMounted => { p with video := some ⟨none, true, false, 0, 0⟩, canvas := true }
  | .liveViewUnmounted => { p with video := none, canvas := false }
  | .playback paused ended videoWidth videoHeight =>
    match p.video with
    | some element =>
      { p with video := some { element with
          paused := paused, ended := ended,
          videoWidth := videoWidth, videoHeight := videoHeight } }
    | none => p
  | .canPlay => handleVideoCanPlay p
  | .cameraChange newDeviceId =>
    if cameraSelectEnabled newDeviceId p then handleCameraChange newDeviceId p else p
  | .selectTool tool => { p with activeTool := tool }
  | .tick => if p.timers = [] then p else runDetectionBegin p
  | .detectionSettled now outcome =>
    if p.outstanding = 0 then p else runDetectionResume now outcome p
  | .captureClick => if captureButtonEnabled p then handleCapture p else p
  | .resetSession => { p with cells := resetSessionData p.cells }
  | .clearLog => { p with cells := clearDetectionLogHandler p.cells }

/-- A sequence of events, first to last. -/
def prun (events : List PEvent) (p : Pipeline) : Pipeline :=
  events.foldl pstep p

/-! ## Scenarios

Event sequences that follow what React does after each state change: the
cleanups of the effects whose dependencies changed, then their bodies, in
source order, and again after an effect has changed a dependency. The stream
effect depends on `activeTool`, `selectedDeviceId`, `modelsLoaded` and
`videoDevices`; the interval effect on `activeTool`, `isWebcamReady`,
`modelsLoaded` and `isDetecting`; the device effect on `modelsLoaded`. -/

/-- A built-in camera. -/
def cameraA : DeviceInfo := ⟨"videoinput", "FaceTime HD Camera", "A"⟩

/-- A second camera. -/
def cameraB : DeviceInfo := ⟨"videoinput", "USB Camera", "B"⟩

/-- One detected face. -/
def sampleFace : FaceObservation := ⟨some [("happy", 1)], .number (.finite 30), some "male"⟩

/-- From the first render to the request for camera A's stream: the models
load (`modelsLoaded` changes, so all three effects run), the permission probe
is granted, two cameras are enumerated and the first is selected (the stream
effect runs again and calls `getUserMedia`). -/
def toAcquiring : List PEvent :=
  [ .modelsSettled true true true true "",
    .streamCleanup, .intervalCleanup, .devicesEffect, .streamEffect, .intervalEffect,
    .probeSettled true,
    .enumerateSettled (some [cameraA, cameraB]),
    .streamCleanup, .streamEffect ]

/-- Up to the stream of camera A attached to the video element. -/
def toStreaming : List PEvent :=
  toAcquiring ++ [.streamSettled "A" none]

/-- Up to a running detection timer: the video plays and fires `canplay`, the
interval effect sets the timer and raises `isDetecting`, which makes it run
once more. -/
def toDetecting : List PEvent :=
  toStreaming ++
    [ .playback false false 640 480, .canPlay,
      .intervalCleanup, .intervalEffect,
      .intervalCleanup, .intervalEffect ]

/-- The user opens the analytics tool: the live view is unmounted, both
effects run, and the interval effect runs again for the lowered cells. -/
def leaveLiveView : List PEvent :=
  [ .selectTool .analytics, .liveViewUnmounted,
    .streamCleanup, .intervalCleanup, .streamEffect, .intervalEffect,
    .intervalCleanup, .intervalEffect ]

/-- The user returns to the live tool: the live view is mounted with new
elements and both effects run. -/
def enterLiveView : List PEvent :=
  [ .selectTool .live, .liveViewMounted,
    .streamCleanup, .intervalCleanup, .streamEffect, .intervalEffect ]

/-- The user picks another camera while `isWebcamReady` is down: only the
stream effect has a changed dependency. -/
def changeCamera (newDeviceId : String) : List PEvent :=
  [ .cameraChange newDeviceId, .streamCleanup, .streamEffect ]

/-- The user picks another camera in the moment `isWebcamReady` is still up:
the interval effect has a changed dependency too. -/
def changeCameraReady (newDeviceId : String) : List PEvent :=
  [ .cameraChange newDeviceId, .streamCleanup, .intervalCleanup, .streamEffect, .intervalEffect ]

/-- Detection runs on camera A and a tick's detector call is outstanding; the
user opens the analytics tool, returns to the live tool, and the stream
acquired on return is attached: a stream is active, `canplay` has not fired
yet, the camera select is enabled, the call is still outstanding. -/
def toSecondStream : List PEvent :=
  toDetecting ++ [.tick] ++ leaveLiveView ++ enterLiveView ++ [.streamSettled "A" none]

/-- An integrated camera whose label names an iPhone in capitals. -/
def cameraPhone : DeviceInfo := ⟨"videoinput", "Studio IPHONE Camera", "P"⟩

/-- A microphone. -/
def microphone : DeviceInfo := ⟨"audioinput", "iPhone Microphone", "M"⟩

/-! ## Sample sessions -/

/-- Twenty ticks with one face each: seventeen of age 30, then three of age
31. -/
def twentyFaces : List (String × FaceObservation) :=
  List.replicate 17 ("10:00:00", ⟨some [("happy", 1)], .number (.finite ((30 : ℤ) : ℚ)), some "male"⟩)
    ++ List.replicate 3 ("10:00:09", ⟨some [("happy", 1)], .number (.finite ((31 : ℤ) : ℚ)), some "male"⟩)

/-- Two ticks with one face each, of ages `2 ^ 53` and `1`. -/
def twoLargeFaces : List (String × FaceObservation) :=
  [ ("10:00:00", ⟨some [("happy", 1)], .number (.finite (((2 ^ 53 : ℤ)) : ℚ)), some "male"⟩),
    ("10:00:01", ⟨some [("happy", 1)], .number (.finite ((1 : ℤ) : ℚ)), some "male"⟩) ]

/-- A detected face whose `expressions` property is absent. -/
def faceWithoutExpressions : FaceObservation := ⟨none, .number (.finite 30), some "male"⟩

/-! ## What React does with an event

After a handler or a settled promise has written state, React renders, commits
the render (mounting or unmounting the live view, which sets or clears the
refs), and then runs the effects whose dependencies differ from the previous
render: first the cleanups, then the bodies, both in source order. State
written by these effects starts the next render. The guard and the
`isDetecting` an effect body reads are those of the render it belongs to. -/

/-- The body of the sixth effect as run after a render: its guard and its
`isDetecting` are the values of that render (`rendered`), whatever the effects
run before it in the same pass have written since; the timer handle is a ref
and is read as it is. -/
def intervalEffectRendered (rendered p : Pipeline) : Pipeline :=
  if shouldBeDetecting rendered then
    let p :=
      match p.detectionIntervalRef with
      | none =>
        let timer := p.timerCount + 1
        { p with
          timerCount := timer
          timers := p.timers ++ [timer]
          detectionIntervalRef := some timer
          ops := p.ops ++ [.setInterval timer] }
      | some _ => p
    if !rendered.isDetecting then { p with isDetecting := true } else p
  else
    let p := clearDetectionInterval p
    if rendered.isDetecting then { p with isDetecting := false } else p

/-- Whether a dependency of the third effect (`activeTool`, `selectedDeviceId`,
`modelsLoaded`, `videoDevices`) differs between two renders. -/
def streamDepsChanged (previous rendered : Pipeline) : Bool :=
  decide (previous.activeTool ≠ rendered.activeTool)
    || decide (previous.selectedDeviceId ≠ rendered.selectedDeviceId)
    || decide (previous.modelsLoaded ≠ rendered.modelsLoaded)
    || decide (previous.videoDevices ≠ rendered.videoDevices)

/-- Whether a dependency of the sixth effect (`activeTool`, `isWebcamReady`,
`modelsLoaded`, `isDetecting`, and `runDetection`, which changes with the
first three) differs between two renders. -/
def intervalDepsChanged (previous rendered : Pipeline) : Bool :=
  decide (previous.activeTool ≠ rendered.activeTool)
    || decide (previous.isWebcamReady ≠ rendered.isWebcamReady)
    || decide (previous.modelsLoaded ≠ rendered.modelsLoaded)
    || decide (previous.isDetecting ≠ rendered.isDetecting)

/-- The live view as a render of the state `p` leaves it, `previous` being the
state at the render before: unmounted when the live tool is left (the refs
are cleared), mounted with new elements when it is entered. -/
def remount (previous p : Pipeline) : Pipeline :=
  if previous.activeTool = .live ∧ p.activeTool ≠ .live then
    { p with video := none, canvas := false }
  else if previous.activeTool ≠ .live ∧ p.activeTool = .live then
    { p with video := some ⟨none, true, false, 0, 0⟩, canvas := true }
  else p

/-- One render of the state `p` and its effects, `previous` being the state at
the render before: the live view is mounted or unmounted; then the cleanups of the stream
and interval effects run if a dependency changed, then the bodies of the
device, stream and interval effects. `devicesWritten` says that
`setVideoDevices` was called since the render before (with a new array, which
is a changed dependency whatever it holds). -/
def commit (devicesWritten : Bool) (previous p : Pipeline) : Pipeline :=
  let q := remount previous p
  let q := if streamDepsChanged previous p || devicesWritten
    then q.stopStreamAndClearDetections else q
  let q := if intervalDepsChanged previous p then clearDetectionInterval q else q
  let q := if decide (previous.modelsLoaded ≠ p.modelsLoaded) then getVideoDevices q else q
  let q := if streamDepsChanged previous p || devicesWritten then streamEffect q else q
  if intervalDepsChanged previous p then intervalEffectRendered p q else q

/-- Renders and effect passes, at most `passes` of them, each for the state
the previous one left. -/
def settle : ℕ → Bool → Pipeline → Pipeline → Pipeline
  | 0, _, _, p => p
  | passes + 1, devicesWritten, previous, p =>
    settle passes false p (commit devicesWritten previous p)

/-- The events that reach `App` from outside: settled promises, the video
element, the user, the timer. The effects and the mounting of the live view
are what React does in response. -/
def PEvent.isExternal : PEvent → Bool
  | .devicesEffect => false
  | .streamCleanup => false
  | .streamEffect => false
  | .intervalCleanup => false
  | .intervalEffect => false
  | .liveViewMounted => false
  | .liveViewUnmounted => false
  | _ => true

/-- Whether the event can occur: the video element fires `canplay` only while
a stream with unstopped tracks is attached to it. -/
def eventPossible (p : Pipeline) : PEvent → Bool
  | .canPlay => streamActive p
  | _ => true

/-- Whether the event calls `setVideoDevices`. -/
def writesDevices (p : Pipeline) : PEvent → Bool
  | .enumerateSettled (some _) => decide (p.enumerating ≠ 0)
  | _ => false

/-- One external event as React processes it: the handler or resumed function
runs on the rendered state, then the renders and effect passes follow until
nothing changes (three passes suffice: the first can write `isWebcamReady` and
`isDetecting`, the second `isDetecting`, the third nothing). -/
def react (p : Pipeline) (e : PEvent) : Pipeline :=
  if e.isExternal && eventPossible p e then settle 3 (writesDevices p e) p (pstep p e)
  else p

/-- A sequence of external events, first to last. -/
def rrun (events : List PEvent) (p : Pipeline) : Pipeline :=
  events.foldl react p

/-- The external events of `toDetecting`. -/
def detectingEvents : List PEvent :=
  [ .modelsSettled true true true true "", .probeSettled true,
    .enumerateSettled (some [cameraA, cameraB]), .streamSettled "A" none,
    .playback false false 640 480, .canPlay ]

/-- Detection runs on camera A and a frame with one face has arrived. -/
def captureEvents : List PEvent :=
  detectingEvents ++ [.tick, .detectionSettled "10:00:01" (some [sampleFace])]

/-- Detection runs on camera A with a detector call outstanding; the user
opens the analytics tool and returns, and the call settles with one face
before the stream requested on return has resolved. -/
def lateOverlayEvents : List PEvent :=
  detectingEvents ++ [.tick, .selectTool .analytics, .selectTool .live,
    .detectionSettled "10:00:05" (some [sampleFace])]

/-! ## Binary64 rounding -/

/-- An integer is its own rounding. -/
theorem roundHalfEven_intCast (z : ℤ) : roundHalfEven (z : ℚ) = z := by
  simp [roundHalfEven]

/-- Rounding moves a number by at most one half. -/
theorem roundHalfEven_close (x : ℚ) : |((roundHalfEven x : ℤ) : ℚ) - x| ≤ 1 / 2 := by
  have hlo := Int.floor_le x
  have hhi := Int.lt_floor_add_one x
  unfold roundHalfEven
  split_ifs with h1 h2 h3
  · rw [abs_le]; constructor <;> linarith
  · push_cast; rw [abs_le]; constructor <;> linarith
  · rw [abs_le]; constructor <;> linarith
  · push_cast; rw [abs_le]; constructor <;> linarith

/-- A nonnegative number is rounded to a nonnegative integer. -/
theorem roundHalfEven_nonneg (x : ℚ) (hx : 0 ≤ x) : 0 ≤ roundHalfEven x := by
  have h0 : 0 ≤ ⌊x⌋ := Int.floor_nonneg.mpr hx
  unfold roundHalfEven
  split_ifs <;> omega

/-- The shape of a rounded nonzero number: a magnitude `r` with the sign of
`q`. -/
theorem roundDouble_of_log (q : ℚ) (hq : q ≠ 0) (e : ℤ)
    (he : max (Int.log 2 |q|) (-1022) = e) (m : ℤ)
    (hm : roundHalfEven (|q| / (2 : ℚ) ^ (e - 52)) = m)
    (hfin : (m : ℚ) * (2 : ℚ) ^ (e - 52) < (2 : ℚ) ^ (1024 : ℤ)) :
    roundDouble q
      = .finite (if 0 < q then (m : ℚ) * (2 : ℚ) ^ (e - 52) else -((m : ℚ) * (2 : ℚ) ^ (e - 52))) := by
  unfold roundDouble
  rw [if_neg hq]
  simp only [he, hm]
  rw [if_neg (not_le.mpr hfin)]

/-- A number whose magnitude is a natural number below `2 ^ 53` is a Number:
rounding keeps it. -/
theorem roundDouble_exact (q : ℚ) (n : ℕ) (habs : |q| = (n : ℚ)) (hlt : n < 2 ^ 53) :
    roundDouble q = .finite q := by
  by_cases hq : q = 0
  · subst hq; simp [roundDouble]
  have hpos : 0 < n := by
    rcases Nat.eq_zero_or_pos n with h | h
    · subst h
      simp at habs
      exact absurd habs hq
    · exact h
  have hlog : Int.log 2 |q| = (Nat.log 2 n : ℤ) := by
    rw [habs, Int.log_natCast]
  have hk : Nat.log 2 n < 53 :=
    Nat.log_lt_of_lt_pow (Nat.pos_iff_ne_zero.mp hpos) hlt
  generalize Nat.log 2 n = k at hlog hk
  have he : max (Int.log 2 |q|) (-1022) = (k : ℤ) := by
    rw [hlog]; apply max_eq_left; omega
  have hulp : (2 : ℚ) ^ ((k : ℤ) - 52) = 1 / (2 : ℚ) ^ (52 - k) := by
    have : ((k : ℤ) - 52) = -((52 - k : ℕ) : ℤ) := by omega
    rw [this, zpow_neg, zpow_natCast, one_div]
  have hx : |q| / (2 : ℚ) ^ ((k : ℤ) - 52) = (((n * 2 ^ (52 - k) : ℕ) : ℤ) : ℚ) := by
    rw [habs, hulp]
    push_cast
    field_simp
  have hm : roundHalfEven (|q| / (2 : ℚ) ^ ((k : ℤ) - 52)) = ((n * 2 ^ (52 - k) : ℕ) : ℤ) := by
    rw [hx, roundHalfEven_intCast]
  have hr : (((n * 2 ^ (52 - k) : ℕ) : ℤ) : ℚ) * (2 : ℚ) ^ ((k : ℤ) - 52) = |q| := by
    rw [habs, hulp]
    push_cast
    field_simp
  have hfin : (((n * 2 ^ (52 - k) : ℕ) : ℤ) : ℚ) * (2 : ℚ) ^ ((k : ℤ) - 52)
      < (2 : ℚ) ^ (1024 : ℤ) := by
    rw [hr, habs]
    have h1 : ((n : ℕ) : ℚ) < 2 ^ 53 := by exact_mod_cast hlt
    have h2 : (2 : ℚ) ^ 53 < (2 : ℚ) ^ (1024 : ℤ) := by norm_num
    linarith
  rw [roundDouble_of_log q hq (k : ℤ) he _ hm hfin, hr]
  congr 1
  split_ifs with hp
  · exact abs_of_pos hp
  · rw [abs_of_nonpos (not_lt.mp hp)]; ring

/-- An integer of magnitude below `2 ^ 53` is a Number. -/
theorem roundDouble_intCast (z : ℤ) (hz : |z| < 2 ^ 53) : roundDouble (z : ℚ) = .finite (z : ℚ) := by
  apply roundDouble_exact (z : ℚ) z.natAbs
  · rw [Nat.cast_natAbs, Int.cast_abs]
  · have : (z.natAbs : ℤ) < 2 ^ 53 := by rw [← Int.abs_eq_natAbs]; exact hz
    exact_mod_cast this

/-- A nonzero number in the normal range is rounded to a magnitude `r` within
the relative distance `2 ^ (-53)`, with its sign. -/
theorem roundDouble_close (q : ℚ) (hq : q ≠ 0) (hlo : (2 : ℚ) ^ (-1022 : ℤ) ≤ |q|)
    (hhi : |q| < (2 : ℚ) ^ (1023 : ℤ)) :
    ∃ r : ℚ, roundDouble q = .finite (if 0 < q then r else -r)
      ∧ 0 ≤ r ∧ |r - abs q| ≤ abs q / 2 ^ 53 := by
  have hpos : 0 < |q| := abs_pos.mpr hq
  have hle : (-1022 : ℤ) ≤ Int.log 2 |q| :=
    (Int.zpow_le_iff_le_log (by norm_num) hpos).mp (by exact_mod_cast hlo)
  have he : max (Int.log 2 |q|) (-1022) = Int.log 2 |q| := max_eq_left hle
  set e := Int.log 2 |q| with hedef
  have h2e : (2 : ℚ) ^ e ≤ |q| := by
    have := Int.zpow_log_le_self (b := 2) (r := |q|) (by norm_num) hpos
    exact_mod_cast this
  have hulppos : (0 : ℚ) < (2 : ℚ) ^ (e - 52) := by positivity
  have hulp : (2 : ℚ) ^ (e - 52) = (2 : ℚ) ^ e / 2 ^ 52 := by
    rw [zpow_sub₀ (by norm_num : (2 : ℚ) ≠ 0)]
    norm_num
  set m := roundHalfEven (|q| / (2 : ℚ) ^ (e - 52)) with hmdef
  have hclose := roundHalfEven_close (|q| / (2 : ℚ) ^ (e - 52))
  rw [← hmdef] at hclose
  have hmnn : (0 : ℤ) ≤ m := roundHalfEven_nonneg _ (by positivity)
  have herr : |(m : ℚ) * (2 : ℚ) ^ (e - 52) - abs q| ≤ (2 : ℚ) ^ (e - 52) / 2 := by
    have hrew : (m : ℚ) * (2 : ℚ) ^ (e - 52) - |q|
        = ((m : ℚ) - |q| / (2 : ℚ) ^ (e - 52)) * (2 : ℚ) ^ (e - 52) := by
      field_simp
    rw [hrew, abs_mul, abs_of_pos hulppos]
    calc |(m : ℚ) - |q| / (2 : ℚ) ^ (e - 52)| * (2 : ℚ) ^ (e - 52)
        ≤ 1 / 2 * (2 : ℚ) ^ (e - 52) := by
          apply mul_le_mul_of_nonneg_right hclose (le_of_lt hulppos)
      _ = (2 : ℚ) ^ (e - 52) / 2 := by ring
  have herr2 : (2 : ℚ) ^ (e - 52) / 2 ≤ |q| / 2 ^ 53 := by
    rw [hulp]
    have : (2 : ℚ) ^ e / 2 ^ 52 / 2 = (2 : ℚ) ^ e / 2 ^ 53 := by
      rw [div_div]; norm_num
    rw [this]
    apply div_le_div_of_nonneg_right h2e (by positivity)
  have hfin : (m : ℚ) * (2 : ℚ) ^ (e - 52) < (2 : ℚ) ^ (1024 : ℤ) := by
    have h1 := (abs_le.mp (le_trans herr herr2)).2
    have h3 : |q| / 2 ^ 53 ≤ |q| := by
      apply div_le_self (le_of_lt hpos); norm_num
    have h4 : (2 : ℚ) ^ (1024 : ℤ) = 2 * (2 : ℚ) ^ (1023 : ℤ) := by norm_num
    rw [h4]
    linarith
  refine ⟨(m : ℚ) * (2 : ℚ) ^ (e - 52), ?_, ?_, le_trans herr herr2⟩
  · exact roundDouble_of_log q hq e he m hmdef.symm hfin
  · have : (0 : ℚ) ≤ (m : ℚ) := by exact_mod_cast hmnn
    positivity

/-- The binade of a positive number. -/
theorem log_two_eq (a : ℚ) (e : ℤ) (hlo : (2 : ℚ) ^ e ≤ a) (hhi : a < (2 : ℚ) ^ (e + 1)) :
    Int.log 2 a = e := by
  have hpos : 0 < a := lt_of_lt_of_le (by positivity) hlo
  have h1 : e ≤ Int.log 2 a :=
    (Int.zpow_le_iff_le_log (by norm_num) hpos).mp (by exact_mod_cast hlo)
  have h2 : Int.log 2 a < e + 1 :=
    (Int.lt_zpow_iff_log_lt (by norm_num) hpos).mp (by exact_mod_cast hhi)
  omega

/-- A fraction below one half is rounded down. -/
theorem roundHalfEven_of_lt (x : ℚ) (f : ℤ) (h1 : (f : ℚ) ≤ x) (h2 : x < (f : ℚ) + 1 / 2) :
    roundHalfEven x = f := by
  have hf : ⌊x⌋ = f := by
    rw [Int.floor_eq_iff]
    constructor
    · exact h1
    · linarith
  unfold roundHalfEven
  rw [hf, if_pos (by linarith)]

/-- A tie goes to the even neighbour below. -/
theorem roundHalfEven_tie_even (x : ℚ) (f : ℤ) (h1 : x = (f : ℚ) + 1 / 2) (h2 : f % 2 = 0) :
    roundHalfEven x = f := by
  have hf : ⌊x⌋ = f := by
    rw [Int.floor_eq_iff]
    constructor <;> linarith
  unfold roundHalfEven
  rw [hf, if_neg (by linarith), if_neg (by linarith), if_pos h2]

/-- A number of tenths `t` that is nearest to `r`, where `r` is within the
relative distance `2 ^ (-53)` of the quotient `a = A / n` of integers with
`20 * A < 2 ^ 53`, is within a twentieth of `a`: a twentieth can only be
exceeded by at least `1 / (20 * n)`, more than the rounding moved. -/
theorem tenths_close (A t : ℤ) (n : ℕ) (r a : ℚ) (hn : 0 < n)
    (han : a * (n : ℚ) = (A : ℚ)) (hA : 20 * (A : ℚ) < 2 ^ 53)
    (hrlo : -(a / 2 ^ 53) ≤ r - a) (hrhi : r - a ≤ a / 2 ^ 53)
    (hfl : (t : ℚ) ≤ r * 10 + 1 / 2) (hfu : r * 10 + 1 / 2 < (t : ℚ) + 1) :
    |(t : ℚ) / 10 - a| ≤ 1 / 20 := by
  have hnq : (0 : ℚ) < (n : ℚ) := by exact_mod_cast hn
  have hrn_hi : r * (n : ℚ) - (A : ℚ) ≤ (A : ℚ) / 2 ^ 53 := by
    have h := mul_le_mul_of_nonneg_right hrhi (le_of_lt hnq)
    have e1 : (r - a) * (n : ℚ) = r * (n : ℚ) - (A : ℚ) := by rw [sub_mul, han]
    have e2 : a / 2 ^ 53 * (n : ℚ) = (A : ℚ) / 2 ^ 53 := by rw [div_mul_eq_mul_div, han]
    rw [e1, e2] at h
    exact h
  have hrn_lo : -((A : ℚ) / 2 ^ 53) ≤ r * (n : ℚ) - (A : ℚ) := by
    have h := mul_le_mul_of_nonneg_right hrlo (le_of_lt hnq)
    have e1 : (r - a) * (n : ℚ) = r * (n : ℚ) - (A : ℚ) := by rw [sub_mul, han]
    have e2 : -(a / 2 ^ 53) * (n : ℚ) = -((A : ℚ) / 2 ^ 53) := by
      rw [neg_mul, div_mul_eq_mul_div, han]
    rw [e1, e2] at h
    exact h
  have hA53 : (A : ℚ) / 2 ^ 53 < 1 / 20 := by
    rw [div_lt_div_iff₀ (by positivity) (by positivity)]
    linarith
  have hfl_n : (t : ℚ) * (n : ℚ) ≤ (r * 10 + 1 / 2) * (n : ℚ) :=
    mul_le_mul_of_nonneg_right hfl (le_of_lt hnq)
  have hfu_n : (r * 10 + 1 / 2) * (n : ℚ) < ((t : ℚ) + 1) * (n : ℚ) :=
    mul_lt_mul_of_pos_right hfu hnq
  rw [abs_le]
  constructor
  · by_contra hcon
    push_neg at hcon
    have hc := mul_lt_mul_of_pos_right hcon hnq
    rw [sub_mul, han] at hc
    have h1 : (((2 * t + 1) * (n : ℤ) : ℤ) : ℚ) < ((20 * A : ℤ) : ℚ) := by
      push_cast
      linarith
    have h2 : (2 * t + 1) * (n : ℤ) < 20 * A := Int.cast_lt.mp h1
    have h3 : (2 * t + 1) * (n : ℤ) + 1 ≤ 20 * A := by omega
    have h4 : (((2 * t + 1) * (n : ℤ) + 1 : ℤ) : ℚ) ≤ ((20 * A : ℤ) : ℚ) := Int.cast_le.mpr h3
    push_cast at h4
    linarith
  · by_contra hcon
    push_neg at hcon
    have hc := mul_lt_mul_of_pos_right hcon hnq
    rw [sub_mul, han] at hc
    have h1 : ((20 * A : ℤ) : ℚ) < (((2 * t - 1) * (n : ℤ) : ℤ) : ℚ) := by
      push_cast
      linarith
    have h2 : 20 * A < (2 * t - 1) * (n : ℤ) := Int.cast_lt.mp h1
    have h3 : 20 * A + 1 ≤ (2 * t - 1) * (n : ℤ) := by omega
    have h4 : ((20 * A + 1 : ℤ) : ℚ) ≤ (((2 * t - 1) * (n : ℤ) : ℤ) : ℚ) := Int.cast_le.mpr h3
    push_cast at h4
    linarith

/-- The decimal `toFixed(1)` makes of a rounded number of magnitude `r` below
`10 ^ 21`. -/
theorem toFixed1_signed (q r : ℚ) (hq : q ≠ 0) (hr : 0 < r) (hr21 : r < (10 : ℚ) ^ 21) :
    toFixed1 (.finite (if 0 < q then r else -r))
      = .decimal (decide (q < 0)) (⌊r * 10 + 1 / 2⌋).toNat := by
  by_cases hp : 0 < q
  · have h1 : ¬ r < 0 := by linarith
    have h2 : ¬ q < 0 := by linarith
    simp only [toFixed1, hp, if_true, h1, if_false, h2, not_le.mpr hr21]
  · have h2 : q < 0 := lt_of_le_of_ne (not_lt.mp hp) hq
    have h1 : -r < 0 := by linarith
    simp only [toFixed1, hp, if_false, h1, if_true, neg_neg, h2, not_le.mpr hr21]

/-! ## The reduction of `getDominantEmotion` -/

/-- The reducer keeps the accumulator when it scores strictly more. -/
theorem dominantStep_of_gt (prev curr : String × ℚ) (h : prev.2 > curr.2) :
    dominantStep prev curr = prev := by
  unfold dominantStep
  exact if_pos h

/-- The reducer takes the current entry otherwise, a tie included. -/
theorem dominantStep_of_le (prev curr : String × ℚ) (h : prev.2 ≤ curr.2) :
    dominantStep prev curr = curr := by
  unfold dominantStep
  exact if_neg (not_lt.mpr h)

/-- The reduction never ends above a bound that the seed and all entries
respect. -/
theorem foldl_dominantStep_le (b : ℚ) (l : Expressions) (acc : String × ℚ)
    (hacc : acc.2 ≤ b) (hl : ∀ x ∈ l, x.2 ≤ b) : (l.foldl dominantStep acc).2 ≤ b := by
  induction l generalizing acc with
  | nil => simpa using hacc
  | cons c l ih =>
    simp only [List.foldl_cons]
    apply ih
    · by_cases hgt : acc.2 > c.2
      · rw [dominantStep_of_gt acc c hgt]; exact hacc
      · rw [dominantStep_of_le acc c (not_lt.mp hgt)]
        exact hl c (List.mem_cons_self _ _)
    · intro x hx
      exact hl x (List.mem_cons_of_mem _ hx)

/-- Once the accumulator is `e`, entries that score strictly less, or are `e`
again, leave it in place. -/
theorem foldl_dominantStep_keep (e : String × ℚ) (l : Expressions)
    (hl : ∀ x ∈ l, x.2 < e.2 ∨ x = e) : l.foldl dominantStep e = e := by
  induction l with
  | nil => rfl
  | cons c l ih =>
    simp only [List.foldl_cons]
    have hc : dominantStep e c = e := by
      rcases hl c (List.mem_cons_self _ _) with h | h
      · exact dominantStep_of_gt e c h
      · rw [h]; exact dominantStep_of_le e e (le_refl _)
    rw [hc]
    exact ih (fun x hx => hl x (List.mem_cons_of_mem _ hx))

/-- The reduction over `pre ++ e :: post` ends on `e` when nothing before `e`
(the seed included) scores more and everything after it scores less. -/
theorem foldl_dominantStep_eq (e acc : String × ℚ) (pre post : Expressions)
    (hacc : acc.2 ≤ e.2) (hpre : ∀ x ∈ pre, x.2 ≤ e.2)
    (hpost : ∀ x ∈ post, x.2 < e.2 ∨ x = e) :
    (pre ++ e :: post).foldl dominantStep acc = e := by
  rw [List.foldl_append, List.foldl_cons]
  have h1 : (pre.foldl dominantStep acc).2 ≤ e.2 := foldl_dominantStep_le e.2 pre acc hacc hpre
  rw [dominantStep_of_le _ _ h1]
  exact foldl_dominantStep_keep e post hpost

/-- What the reduction returns, positionally: it scores at least as much as the
seed and every entry, and it is the last such element of `acc :: l`. -/
theorem foldl_dominantStep_spec (l : Expressions) (acc : String × ℚ) :
    (∀ x ∈ acc :: l, x.2 ≤ (l.foldl dominantStep acc).2) ∧
    ∃ pre post, acc :: l = pre ++ l.foldl dominantStep acc :: post ∧
      ∀ x ∈ post, x.2 < (l.foldl dominantStep acc).2 := by
  induction l generalizing acc with
  | nil => exact ⟨by simp, [], [], by simp⟩
  | cons c l ih =>
    simp only [List.foldl_cons]
    obtain ⟨hmax, pre, post, hsplit, hpost⟩ := ih (dominantStep acc c)
    by_cases hgt : acc.2 > c.2
    · have hstep : dominantStep acc c = acc := dominantStep_of_gt acc c hgt
      rw [hstep] at hmax hsplit hpost ⊢
      have hacc := hmax acc (List.mem_cons_self _ _)
      refine ⟨?_, ?_⟩
      · intro x hx
        rcases List.mem_cons.mp hx with rfl | hx
        · exact hacc
        · rcases List.mem_cons.mp hx with rfl | hx
          · exact le_of_lt (lt_of_lt_of_le hgt hacc)
          · exact hmax x (List.mem_cons_of_mem _ hx)
      · cases pre with
        | nil =>
          simp only [List.nil_append, List.cons.injEq] at hsplit
          refine ⟨[], c :: l, by rw [List.nil_append, ← hsplit.1], ?_⟩
          intro x hx
          rcases List.mem_cons.mp hx with rfl | hx
          · rw [← hsplit.1]; exact hgt
          · exact hpost x (hsplit.2 ▸ hx)
        | cons a pre2 =>
          simp only [List.cons_append, List.cons.injEq] at hsplit
          exact ⟨acc :: c :: pre2, post, congrArg (fun t => acc :: c :: t) hsplit.2, hpost⟩
    · have hstep : dominantStep acc c = c := dominantStep_of_le acc c (not_lt.mp hgt)
      rw [hstep] at hmax hsplit hpost ⊢
      have hc := hmax c (List.mem_cons_self _ _)
      refine ⟨?_, acc :: pre, post, congrArg (List.cons acc) hsplit, hpost⟩
      intro x hx
      rcases List.mem_cons.mp hx with rfl | hx
      · exact le_trans (not_lt.mp hgt) hc
      · exact hmax x hx

/-! ## Claims on `getDominantEmotion` -/

/-- C2: for an expression map with scores in `[0,1]` in which one entry `e`
scores strictly more than every other entry, `getDominantEmotion` returns the
array `[e.label, e.score]`. -/
theorem getDominantEmotion_unique_max (m : Expressions) (e : String × ℚ) (he : e ∈ m)
    (hrange : ∀ x ∈ m, 0 ≤ x.2 ∧ x.2 ≤ 1) (hmax : ∀ x ∈ m, x ≠ e → x.2 < e.2) :
    getDominantEmotion (some m) = .pair e.1 e.2 := by
  obtain ⟨pre, post, rfl⟩ := List.append_of_mem he
  have hfold : (pre ++ e :: post).foldl dominantStep ("N/A", 0) = e := by
    apply foldl_dominantStep_eq
    · exact (hrange e he).1
    · intro x hx
      by_cases hxe : x = e
      · rw [hxe]
      · exact le_of_lt (hmax x (List.mem_append_left _ hx) hxe)
    · intro x hx
      by_cases hxe : x = e
      · exact Or.inr hxe
      · exact Or.inl (hmax x (List.mem_append_right _ (List.mem_cons_of_mem _ hx)) hxe)
  simp only [getDominantEmotion, hfold]

/-- Witness of C2 on `{sad: 0.1, happy: 0.7, neutral: 0.2}`. -/
theorem getDominantEmotion_unique_max_witness :
    getDominantEmotion (some [("sad", 1 / 10), ("happy", 7 / 10), ("neutral", 1 / 5)])
      = .pair "happy" (7 / 10) :=
  getDominantEmotion_unique_max
    [("sad", 1 / 10), ("happy", 7 / 10), ("neutral", 1 / 5)] ("happy", 7 / 10)
    (by simp)
    (by intro x hx; simp at hx; rcases hx with rfl | rfl | rfl <;> norm_num)
    (by intro x hx hne; simp at hx; rcases hx with rfl | rfl | rfl <;> simp_all <;> norm_num)

/-- C3, as stated, fails: on `{happy: 0.5, neutral: 0.5}` in that order the
reduction returns `['neutral', 0.5]`, the later of the tied entries, not
`['happy', 0.5]`. -/
theorem getDominantEmotion_tie_counterexample :
    getDominantEmotion (some [("happy", 1 / 2), ("neutral", 1 / 2)]) = .pair "neutral" (1 / 2)
      ∧ getDominantEmotion (some [("happy", 1 / 2), ("neutral", 1 / 2)])
          ≠ .pair "happy" (1 / 2) := by
  have h : getDominantEmotion (some [("happy", 1 / 2), ("neutral", 1 / 2)])
      = .pair "neutral" (1 / 2) := by
    norm_num [getDominantEmotion, dominantStep]
  refine ⟨h, ?_⟩
  rw [h]
  decide

/-- C3, amended: when several entries share the maximal score (a score that is
not negative), `getDominantEmotion` returns the last of them in iteration
order: the entry `e` such that no earlier entry scores more and every later
entry scores strictly less. -/
theorem getDominantEmotion_tie_last (pre post : Expressions) (e : String × ℚ)
    (h0 : 0 ≤ e.2) (hpre : ∀ x ∈ pre, x.2 ≤ e.2) (hpost : ∀ x ∈ post, x.2 < e.2) :
    getDominantEmotion (some (pre ++ e :: post)) = .pair e.1 e.2 := by
  have hfold : (pre ++ e :: post).foldl dominantStep ("N/A", 0) = e :=
    foldl_dominantStep_eq e ("N/A", 0) pre post h0 hpre (fun x hx => Or.inl (hpost x hx))
  simp only [getDominantEmotion, hfold]

/-- Witness of the amended C3 on `{happy: 0.5, neutral: 0.5, sad: 0.2}`. -/
theorem getDominantEmotion_tie_last_witness :
    getDominantEmotion (some ([("happy", 1 / 2)] ++ ("neutral", 1 / 2) :: [("sad", 1 / 5)]))
      = .pair "neutral" (1 / 2) :=
  getDominantEmotion_tie_last [("happy", 1 / 2)] [("sad", 1 / 5)] ("neutral", 1 / 2)
    (by norm_num)
    (by intro x hx; simp at hx; subst hx; norm_num)
    (by intro x hx; simp at hx; subst hx; norm_num)

/-- C4: for an absent expression map `getDominantEmotion` returns the object
`{ emotion: 'N/A', confidence: 0 }`, which the callers' array destructuring
cannot read (it throws), whereas for an empty map it returns the array
`['N/A', 0]`, which destructures to `'N/A'` and `0`. -/
theorem getDominantEmotion_absent_is_record :
    getDominantEmotion none = .record "N/A" 0
      ∧ destructurePair (getDominantEmotion none) = none
      ∧ getDominantEmotion (some []) = .pair "N/A" 0
      ∧ destructurePair (getDominantEmotion (some [])) = some ("N/A", 0) := by
  refine ⟨rfl, rfl, rfl, rfl⟩

/-! ## What one applied frame writes, cell by cell -/

/-- A frame whose first observation makes the destructuring throw only
replaces the overlay. -/
theorem applyDetections_throw (now : String) (o : FaceObservation)
    (rest : List FaceObservation) (s : AppState)
    (h : destructurePair (getDominantEmotion o.expressions) = none) :
    applyDetections now (o :: rest) s = { s with detectionsArray := o :: rest } := by
  simp only [applyDetections, h]

/-- The log after a frame whose first observation has dominant emotion
`(emotion, confidence)`. -/
theorem applyDetections_detectionLog (now : String) (o : FaceObservation)
    (rest : List FaceObservation) (s : AppState) (emotion : String) (confidence : ℚ)
    (h : destructurePair (getDominantEmotion o.expressions) = some (emotion, confidence)) :
    (applyDetections now (o :: rest) s).detectionLog
      = (({ timestamp := now, emotion := emotion, confidence := confidence,
            age := mathRound o.age, gender := o.gender } : LogEntry)
          :: s.detectionLog).take MAX_LOG_ENTRIES := by
  simp only [applyDetections, h]
  split_ifs <;> rfl

/-- The age samples after such a frame. -/
theorem applyDetections_sessionAges (now : String) (o : FaceObservation)
    (rest : List FaceObservation) (s : AppState) (emotion : String) (confidence : ℚ)
    (h : destructurePair (getDominantEmotion o.expressions) = some (emotion, confidence)) :
    (applyDetections now (o :: rest) s).sessionAges
      = if (mathRound o.age).isNaN then s.sessionAges
        else s.sessionAges ++ [mathRound o.age] := by
  simp only [applyDetections, h]
  split_ifs <;> simp_all

/-- The emotion counts after such a frame. -/
theorem applyDetections_sessionEmotionCounts (now : String) (o : FaceObservation)
    (rest : List FaceObservation) (s : AppState) (emotion : String) (confidence : ℚ)
    (h : destructurePair (getDominantEmotion o.expressions) = some (emotion, confidence)) :
    (applyDetections now (o :: rest) s).sessionEmotionCounts
      = if emotion = "N/A" then s.sessionEmotionCounts
        else objIncrement s.sessionEmotionCounts emotion := by
  simp only [applyDetections, h]
  split_ifs <;> simp_all

/-- The gender counts after such a frame. -/
theorem applyDetections_sessionGenders (now : String) (o : FaceObservation)
    (rest : List FaceObservation) (s : AppState) (emotion : String) (confidence : ℚ)
    (h : destructurePair (getDominantEmotion o.expressions) = some (emotion, confidence)) :
    (applyDetections now (o :: rest) s).sessionGenders
      = if genderTruthy o.gender then objIncrement s.sessionGenders (o.gender.getD "")
        else s.sessionGenders := by
  simp only [applyDetections, h]
  split_ifs <;> simp_all

/-- The live snapshot and the overlay after such a frame. -/
theorem applyDetections_snapshot (now : String) (o : FaceObservation)
    (rest : List FaceObservation) (s : AppState) (emotion : String) (confidence : ℚ)
    (h : destructurePair (getDominantEmotion o.expressions) = some (emotion, confidence)) :
    (applyDetections now (o :: rest) s).detectionsArray = o :: rest
      ∧ (applyDetections now (o :: rest) s).detectedEmotion = emotion
      ∧ (applyDetections now (o :: rest) s).emotionConfidence = confidence
      ∧ (applyDetections now (o :: rest) s).detectedAge = some (mathRound o.age)
      ∧ (applyDetections now (o :: rest) s).detectedGender = o.gender := by
  simp only [applyDetections, h]
  split_ifs <;> simp_all

/-- A present expression map always gives a result that destructures. -/
theorem destructurePair_present (m : Expressions) :
    destructurePair (getDominantEmotion (some m))
      = some ((m.foldl dominantStep ("N/A", 0)).1, (m.foldl dominantStep ("N/A", 0)).2) := rfl

/-! ## Claims on the fan-out -/

/-- C1: a tick whose frame holds no observation replaces the overlay with the
empty frame, resets the live snapshot (emotion `'N/A'`, confidence `0`, age and
gender `null`) and leaves `sessionEmotionCounts`, `sessionAges`,
`sessionGenders` and `detectionLog` as they were. -/
theorem runDetection_empty_frame (now : String) (s : AppState) :
    (runDetection true now (some []) s).detectionsArray = []
      ∧ (runDetection true now (some []) s).detectedEmotion = "N/A"
      ∧ (runDetection true now (some []) s).emotionConfidence = 0
      ∧ (runDetection true now (some []) s).detectedAge = none
      ∧ (runDetection true now (some []) s).detectedGender = none
      ∧ (runDetection true now (some []) s).sessionEmotionCounts = s.sessionEmotionCounts
      ∧ (runDetection true now (some []) s).sessionAges = s.sessionAges
      ∧ (runDetection true now (some []) s).sessionGenders = s.sessionGenders
      ∧ (runDetection true now (some []) s).detectionLog = s.detectionLog := by
  refine ⟨rfl, rfl, rfl, rfl, rfl, rfl, rfl, rfl, rfl⟩

/-! ## The bounded log -/

/-- The log after a frame, through `frameEntry`: a built entry goes in front
and the result is cut to the cap, otherwise the log is as it was. -/
theorem applyDetections_log_frameEntry (t : String × List FaceObservation) (s : AppState) :
    (applyDetections t.1 t.2 s).detectionLog
      = match frameEntry t with
        | some e => (e :: s.detectionLog).take MAX_LOG_ENTRIES
        | none => s.detectionLog := by
  obtain ⟨now, frame⟩ := t
  cases frame with
  | nil => rfl
  | cons o rest =>
    cases h : destructurePair (getDominantEmotion o.expressions) with
    | none =>
      simp only [frameEntry, h]
      rw [applyDetections_throw now o rest s h]
    | some p =>
      obtain ⟨emotion, confidence⟩ := p
      simp only [frameEntry, h]
      exact applyDetections_detectionLog now o rest s emotion confidence h

/-- One applied frame keeps the log within the cap. -/
theorem applyDetections_log_length (now : String) (frame : List FaceObservation)
    (s : AppState) (h : s.detectionLog.length ≤ MAX_LOG_ENTRIES) :
    (applyDetections now frame s).detectionLog.length ≤ MAX_LOG_ENTRIES := by
  have hlog := applyDetections_log_frameEntry (now, frame) s
  simp only at hlog
  rw [hlog]
  cases frameEntry (now, frame) with
  | none => exact h
  | some e =>
    simp only [List.length_take]
    exact min_le_left _ _

/-- One callback keeps the log within the cap. -/
theorem step_log_length (s : AppState) (ev : Event)
    (h : s.detectionLog.length ≤ MAX_LOG_ENTRIES) :
    (step s ev).detectionLog.length ≤ MAX_LOG_ENTRIES := by
  cases ev with
  | tick guard now outcome =>
    cases guard with
    | false => exact h
    | true =>
      cases outcome with
      | none => exact h
      | some detections => exact applyDetections_log_length now detections s h
  | clearLog => exact Nat.zero_le _
  | resetSession => exact h
  | stopStream => exact h

/-- Any sequence of callbacks keeps the log within the cap. -/
theorem run_log_length (events : List Event) (s : AppState)
    (h : s.detectionLog.length ≤ MAX_LOG_ENTRIES) :
    (run events s).detectionLog.length ≤ MAX_LOG_ENTRIES := by
  induction events generalizing s with
  | nil => exact h
  | cons ev events ih => exact ih (step s ev) (step_log_length s ev h)

/-- Cutting the tail of an append to `k` before cutting the whole to `k`
changes nothing. -/
theorem take_append_take {α : Type} (k : ℕ) (a b : List α) :
    (a ++ b.take k).take k = (a ++ b).take k := by
  rw [List.take_append_eq_append_take, List.take_append_eq_append_take, List.take_take]
  congr 2
  omega

/-- The log after a run of frames: the built entries, newest first, in front
of the old log, cut to the cap. -/
theorem applyAll_detectionLog (ticks : List (String × List FaceObservation)) (s : AppState)
    (h : s.detectionLog.length ≤ MAX_LOG_ENTRIES) :
    (applyAll ticks s).detectionLog
      = ((ticks.filterMap frameEntry).reverse ++ s.detectionLog).take MAX_LOG_ENTRIES := by
  induction ticks generalizing s with
  | nil => simp [applyAll, List.take_of_length_le h]
  | cons t ticks ih =>
    have hstep := applyDetections_log_length t.1 t.2 s h
    have hlog := applyDetections_log_frameEntry t s
    have hrec := ih (applyDetections t.1 t.2 s) hstep
    simp only [applyAll, List.foldl_cons] at hrec ⊢
    rw [hrec, hlog]
    cases hfe : frameEntry t with
    | none => simp [List.filterMap_cons_none hfe]
    | some e =>
      simp only [List.filterMap_cons_some hfe, List.reverse_cons, List.append_assoc,
        List.singleton_append]
      exact take_append_take MAX_LOG_ENTRIES _ _

/-- A frame with a first observation that carries an expression map builds a
log entry. -/
theorem frameEntry_isSome (t : String × List FaceObservation)
    (h : ∃ o rest m, t.2 = o :: rest ∧ o.expressions = some m) :
    ∃ e, frameEntry t = some e := by
  obtain ⟨o, rest, m, hframe, hm⟩ := h
  simp [frameEntry, hframe, hm, destructurePair_present]

/-- Frames that all build an entry build as many entries as there are frames. -/
theorem filterMap_frameEntry_length (ticks : List (String × List FaceObservation))
    (h : ∀ t ∈ ticks, ∃ o rest m, t.2 = o :: rest ∧ o.expressions = some m) :
    (ticks.filterMap frameEntry).length = ticks.length := by
  induction ticks with
  | nil => rfl
  | cons t ticks ih =>
    obtain ⟨e, he⟩ := frameEntry_isSome t (h t (List.mem_cons_self _ _))
    rw [List.filterMap_cons_some he, List.length_cons, List.length_cons,
      ih (fun u hu => h u (List.mem_cons_of_mem _ hu))]

/-- C5: in every state reached from an empty log by any sequence of ticks
(guarded or not, resolved or rejected, with any frame), log clears, session
resets and stream teardowns, `detectionLog` holds at most 100 entries. -/
theorem detectionLog_length_le_cap (events : List Event) (s : AppState)
    (hs : s.detectionLog = []) : (run events s).detectionLog.length ≤ 100 := by
  apply run_log_length events s
  rw [hs]
  exact Nat.zero_le _

/-- Witness of C5: two ticks with a face, a log clear and another tick, from
the initial state. -/
theorem detectionLog_length_le_cap_witness :
    (run
      [ .tick true "10:00:00" (some [⟨some [("happy", 1)], .number (.finite 30), some "male"⟩]),
        .tick true "10:00:01" (some [⟨some [("sad", 1)], .number (.finite 31), some "male"⟩]),
        .clearLog,
        .tick true "10:00:02" (some [⟨none, .undefined, none⟩]) ]
      initialState).detectionLog.length ≤ 100 :=
  detectionLog_length_le_cap _ initialState rfl

/-- C6: when `n` frames, each with a first observation that carries an
expression map, are applied to an empty log, every frame builds one entry and
the log is the last `min n 100` of these entries, newest first; with `n = 101`
the log has 100 entries, its head is the 101st entry, and it is the entries
after the first, reversed (so the first entry is gone, and is no member of the
log when the entries are pairwise distinct). -/
theorem detectionLog_last_entries (ticks : List (String × List FaceObservation))
    (s : AppState) (hs : s.detectionLog = [])
    (h : ∀ t ∈ ticks, ∃ o rest m, t.2 = o :: rest ∧ o.expressions = some m) :
    ticks.map frameEntry = (ticks.filterMap frameEntry).map some
      ∧ (ticks.filterMap frameEntry).length = ticks.length
      ∧ (applyAll ticks s).detectionLog
          = ((ticks.filterMap frameEntry).drop
              (ticks.length - min ticks.length 100)).reverse
      ∧ (applyAll ticks s).detectionLog.length = min ticks.length 100
      ∧ (ticks.length = 101 →
          (applyAll ticks s).detectionLog.length = 100
          ∧ (applyAll ticks s).detectionLog.head? = (ticks.filterMap frameEntry)[100]?
          ∧ (applyAll ticks s).detectionLog = (ticks.filterMap frameEntry).tail.reverse
          ∧ ((ticks.filterMap frameEntry).Nodup →
              ∀ e, (ticks.filterMap frameEntry).head? = some e →
                e ∉ (applyAll ticks s).detectionLog)) := by
  have hlen := filterMap_frameEntry_length ticks h
  have hlog : (applyAll ticks s).detectionLog
      = ((ticks.filterMap frameEntry).drop (ticks.length - min ticks.length 100)).reverse := by
    rw [applyAll_detectionLog ticks s (by rw [hs]; exact Nat.zero_le _), hs, List.append_nil,
      MAX_LOG_ENTRIES, List.take_reverse, hlen]
    congr 2
    omega
  have hmap : ticks.map frameEntry = (ticks.filterMap frameEntry).map some := by
    clear hlog hlen
    induction ticks with
    | nil => rfl
    | cons t ticks ih =>
      obtain ⟨e, he⟩ := frameEntry_isSome t (h t (List.mem_cons_self _ _))
      rw [List.filterMap_cons_some he, List.map_cons, List.map_cons, he,
        ih (fun u hu => h u (List.mem_cons_of_mem _ hu))]
  have hloglen : (applyAll ticks s).detectionLog.length = min ticks.length 100 := by
    rw [hlog, List.length_reverse, List.length_drop, hlen]
    omega
  refine ⟨hmap, hlen, hlog, hloglen, ?_⟩
  intro h101
  have htail : (applyAll ticks s).detectionLog = (ticks.filterMap frameEntry).tail.reverse := by
    rw [hlog, h101]
    simp
  refine ⟨by rw [hloglen, h101]; rfl, ?_, htail, ?_⟩
  · rw [htail, List.head?_reverse, List.getLast?_eq_getElem?]
    generalize hE : ticks.filterMap frameEntry = entries at hlen ⊢
    cases entries with
    | nil => simp at hlen; omega
    | cons e es =>
      simp only [List.length_cons] at hlen
      have : es.length = 100 := by omega
      simp [this]
  · intro hnodup e he
    rw [htail]
    generalize ticks.filterMap frameEntry = entries at hnodup he ⊢
    cases entries with
    | nil => simp at he
    | cons e' es =>
      simp only [List.head?_cons, Option.some.injEq] at he
      subst he
      simp only [List.tail_cons, List.mem_reverse]
      exact (List.nodup_cons.mp hnodup).1

/-- Witness of C6: 101 ticks, each with one face, from the initial state. -/
theorem detectionLog_last_entries_witness :
    (applyAll ((List.range 101).map (fun i =>
        (toString i, [(⟨some [("happy", 1)], .number (.finite 30), some "male"⟩ : FaceObservation)])))
      initialState).detectionLog.length = 100
    ∧ (applyAll ((List.range 101).map (fun i =>
        (toString i, [(⟨some [("happy", 1)], .number (.finite 30), some "male"⟩ : FaceObservation)])))
      initialState).detectionLog
      = (((List.range 101).map (fun i =>
        (toString i, [(⟨some [("happy", 1)], .number (.finite 30), some "male"⟩ : FaceObservation)]))).filterMap
          frameEntry).tail.reverse := by
  have H := detectionLog_last_entries
    ((List.range 101).map (fun i =>
      (toString i, [(⟨some [("happy", 1)], .number (.finite 30), some "male"⟩ : FaceObservation)])))
    initialState rfl
    (by
      intro t ht
      obtain ⟨i, _, rfl⟩ := List.mem_map.mp ht
      exact ⟨_, [], _, rfl, rfl⟩)
  have H101 := H.2.2.2.2 (by simp)
  exact ⟨H101.1, H101.2.2.1⟩

/-! ## Counter objects -/

/-- Reading the own property just written gives the written value. -/
theorem objOwn_objSet_same (o : CountObj) (k : String) (v : CountVal) :
    objOwn (objSet o k v) k = some v := by
  induction o with
  | nil => simp [objSet, objOwn]
  | cons p o ih =>
    obtain ⟨k', v'⟩ := p
    by_cases hk : k' = k
    · simp [objSet, objOwn, hk]
    · simp [objSet, objOwn, hk, ih]

/-- Another own property is not affected by the write. -/
theorem objOwn_objSet_other (o : CountObj) (k k2 : String) (v : CountVal) (h : k2 ≠ k) :
    objOwn (objSet o k v) k2 = objOwn o k2 := by
  induction o with
  | nil => simp [objSet, objOwn, Ne.symm h]
  | cons p o ih =>
    obtain ⟨k', v'⟩ := p
    by_cases hk : k' = k
    · subst hk
      simp [objSet, objOwn, Ne.symm h]
    · by_cases hk2 : k' = k2
      · subst hk2
        simp [objSet, objOwn, hk]
      · simp [objSet, objOwn, hk, hk2, ih]

/-- Reading the key just written gives the written value. -/
theorem objGet_objSet_same (o : CountObj) (k : String) (v : CountVal) :
    objGet (objSet o k v) k = .own v := by
  simp only [objGet, objOwn_objSet_same]

/-- Reading another key is not affected by the write. -/
theorem objGet_objSet_other (o : CountObj) (k k2 : String) (v : CountVal) (h : k2 ≠ k) :
    objGet (objSet o k v) k2 = objGet o k2 := by
  simp only [objGet, objOwn_objSet_other o k k2 v h]

/-- Adding `1` to a count is exact while the result is below `2 ^ 53`. -/
theorem jsAdd_count_one (n : ℕ) (h : n + 1 < 2 ^ 53) :
    jsAdd (.finite (n : ℚ)) (.finite 1) = .finite ((n : ℚ) + 1) := by
  simp only [jsAdd]
  apply roundDouble_exact _ (n + 1)
  · rw [abs_of_nonneg (by positivity)]
    push_cast
    rfl
  · exact h

/-- C7, as stated, fails: a dominant label that names a member of
`Object.prototype` (here `constructor`, absent from the counter object so far)
reads that member, not `undefined`, and what is stored under it is a text, not
the count `1`. -/
theorem sessionEmotionCounts_inherited_counterexample :
    objGet (applyDetections "10:00:00"
        [⟨some [("constructor", 9 / 10), ("sad", 1 / 10)], .number (.finite 30), some "male"⟩]
        initialState).sessionEmotionCounts "constructor"
      = .own (.text "constructor" 1)
    ∧ objGet (applyDetections "10:00:00"
        [⟨some [("constructor", 9 / 10), ("sad", 1 / 10)], .number (.finite 30), some "male"⟩]
        initialState).sessionEmotionCounts "constructor"
      ≠ .own (.number (.finite 1)) := by
  have h : (applyDetections "10:00:00"
      [⟨some [("constructor", 9 / 10), ("sad", 1 / 10)], .number (.finite 30), some "male"⟩]
      initialState).sessionEmotionCounts = [("constructor", .text "constructor" 1)] := by
    rw [applyDetections_sessionEmotionCounts "10:00:00" _ [] initialState "constructor" (9 / 10)
      (by norm_num [getDominantEmotion, destructurePair, dominantStep])]
    rw [if_neg (by decide)]
    decide
  rw [h]
  constructor
  · decide
  · decide

/-- C7, amended: applying a frame whose first observation has a dominant label
`L` other than `'N/A'` that names no member of `Object.prototype` makes
`sessionEmotionCounts[L]` one more than it was (`1` when `L` was absent, `n + 1`
for a count `n` with `n + 1` below `2 ^ 53`, where adding is exact) and leaves
what is read under every other label as it was; when the only label the dominant
emotion can give is `'N/A'`, `sessionEmotionCounts` is unchanged. -/
theorem sessionEmotionCounts_after_frame (now : String) (o : FaceObservation)
    (rest : List FaceObservation) (s : AppState) :
    (∀ L c, destructurePair (getDominantEmotion o.expressions) = some (L, c) → L ≠ "N/A" →
        L ∉ objectPrototypeKeys →
        (objGet s.sessionEmotionCounts L = .undefined →
            objGet (applyDetections now (o :: rest) s).sessionEmotionCounts L
              = .own (.number (.finite 1)))
          ∧ (∀ n : ℕ, n + 1 < 2 ^ 53 →
              objGet s.sessionEmotionCounts L = .own (.number (.finite (n : ℚ))) →
              objGet (applyDetections now (o :: rest) s).sessionEmotionCounts L
                = .own (.number (.finite ((n : ℚ) + 1))))
          ∧ ∀ k, k ≠ L →
              objGet (applyDetections now (o :: rest) s).sessionEmotionCounts k
                = objGet s.sessionEmotionCounts k)
      ∧ ((∀ L c, destructurePair (getDominantEmotion o.expressions) = some (L, c) → L = "N/A") →
          (applyDetections now (o :: rest) s).sessionEmotionCounts = s.sessionEmotionCounts) := by
  constructor
  · intro L c h hL _
    rw [applyDetections_sessionEmotionCounts now o rest s L c h, if_neg hL]
    refine ⟨?_, ?_, fun k hk => objGet_objSet_other _ _ _ _ hk⟩
    · intro hread
      rw [objIncrement, objGet_objSet_same, hread]
      have h1 := jsAdd_count_one 0 (by norm_num)
      simp only [Nat.cast_zero, zero_add] at h1
      simp only [orZeroPlusOne, h1]
    · intro n hn hread
      rw [objIncrement, objGet_objSet_same, hread]
      simp only [orZeroPlusOne, jsAdd_count_one n hn]
  · intro hNA
    cases h : destructurePair (getDominantEmotion o.expressions) with
    | none => rw [applyDetections_throw now o rest s h]
    | some p =>
      obtain ⟨L, c⟩ := p
      rw [applyDetections_sessionEmotionCounts now o rest s L c h, if_pos (hNA L c h)]

/-- Witness of the amended C7: `happy` dominant over a session that has counted
`happy` twice and `sad` once. -/
theorem sessionEmotionCounts_after_frame_witness :
    objGet (applyDetections "10:00:00"
        [⟨some [("happy", 9 / 10), ("sad", 1 / 10)], .number (.finite 30), some "male"⟩]
        { initialState with sessionEmotionCounts := countsOf [("sad", 1), ("happy", 2)] }
      ).sessionEmotionCounts "happy" = .own (.number (.finite 3))
    ∧ objGet (applyDetections "10:00:00"
        [⟨some [("happy", 9 / 10), ("sad", 1 / 10)], .number (.finite 30), some "male"⟩]
        { initialState with sessionEmotionCounts := countsOf [("sad", 1), ("happy", 2)] }
      ).sessionEmotionCounts "sad" = .own (.number (.finite 1)) := by
  have H := (sessionEmotionCounts_after_frame "10:00:00"
    ⟨some [("happy", 9 / 10), ("sad", 1 / 10)], .number (.finite 30), some "male"⟩ []
    { initialState with sessionEmotionCounts := countsOf [("sad", 1), ("happy", 2)] }).1
    "happy" (9 / 10)
    (by norm_num [getDominantEmotion, destructurePair, dominantStep])
    (by decide) (by decide)
  refine ⟨?_, ?_⟩
  · have h2 := H.2.1 2 (by norm_num) (by simp [objGet, objOwn, countsOf])
    rw [h2]
    norm_num
  · rw [H.2.2 "sad" (by decide)]
    simp [objGet, objOwn, countsOf]

/-- C8, as stated, fails: a first observation with age `Infinity` (and an
expression map) has `Infinity` appended to `sessionAges`. -/
theorem sessionAges_infinite_counterexample :
    (applyDetections "10:00:00" [⟨some [("happy", 1)], .number .posInf, some "male"⟩]
        initialState).sessionAges = [.posInf]
      ∧ (applyDetections "10:00:00" [⟨some [("happy", 1)], .number .posInf, some "male"⟩]
          initialState).sessionAges ≠ initialState.sessionAges := by
  have h : (applyDetections "10:00:00" [⟨some [("happy", 1)], .number .posInf, some "male"⟩]
      initialState).sessionAges = [.posInf] := by
    rw [applyDetections_sessionAges "10:00:00" _ [] initialState "happy" 1
      (by norm_num [getDominantEmotion, destructurePair, dominantStep])]
    rfl
  refine ⟨h, ?_⟩
  rw [h]
  simp [initialState]

/-- C8, amended: when a frame whose first observation carries an expression
map is applied, `Math.round` of that observation's age is appended to
`sessionAges` exactly when it is not NaN: a missing (`undefined`) or NaN age
leaves `sessionAges` unchanged, a finite age `q` appends the one sample
`⌊q + 1/2⌋` at the end, an infinite age appends that infinity, and an age
property that is `null` appends `0`, the number `Math.round` makes of it. -/
theorem sessionAges_after_frame (now : String) (o : FaceObservation)
    (rest : List FaceObservation) (s : AppState) (m : Expressions)
    (hm : o.expressions = some m) :
    ((o.age = .undefined ∨ o.age = .number .nan) →
        (applyDetections now (o :: rest) s).sessionAges = s.sessionAges)
      ∧ (∀ q : ℚ, o.age = .number (.finite q) →
          (applyDetections now (o :: rest) s).sessionAges
            = s.sessionAges ++ [.finite ((⌊q + 1 / 2⌋ : ℤ) : ℚ)])
      ∧ (o.age = .number .posInf →
          (applyDetections now (o :: rest) s).sessionAges = s.sessionAges ++ [.posInf])
      ∧ (o.age = .number .negInf →
          (applyDetections now (o :: rest) s).sessionAges = s.sessionAges ++ [.negInf])
      ∧ (o.age = .null →
          (applyDetections now (o :: rest) s).sessionAges = s.sessionAges ++ [.finite 0]) := by
  have h := applyDetections_sessionAges now o rest s _ _ (hm ▸ destructurePair_present m)
  refine ⟨?_, ?_, ?_, ?_, ?_⟩
  · rintro (ha | ha) <;> rw [h, ha] <;> rfl
  · intro q ha
    rw [h, ha]
    rfl
  · intro ha
    rw [h, ha]
    rfl
  · intro ha
    rw [h, ha]
    rfl
  · intro ha
    rw [h, ha]
    rfl

/-- Witness of the amended C8: an age of `30.6` appends the sample `31`. -/
theorem sessionAges_after_frame_witness :
    (applyDetections "10:00:00"
        [⟨some [("happy", 1)], .number (.finite (153 / 5)), some "male"⟩]
        { initialState with sessionAges := [.finite 30] }).sessionAges
      = [.finite 30, .finite 31] := by
  have H := (sessionAges_after_frame "10:00:00"
    ⟨some [("happy", 1)], .number (.finite (153 / 5)), some "male"⟩ []
    { initialState with sessionAges := [.finite 30] } [("happy", 1)] rfl).2.1
    (153 / 5) rfl
  rw [H]
  have hfloor : ⌊(153 / 5 : ℚ) + 1 / 2⌋ = 31 := by
    rw [Int.floor_eq_iff]
    constructor <;> norm_num
  rw [hfloor]
  simp

/-- C9: from every state, `resetSessionData` leaves `sessionEmotionCounts`
the empty object, `sessionAges` the empty array and `sessionGenders` the empty
object. -/
theorem resetSessionData_empties (s : AppState) :
    (resetSessionData s).sessionEmotionCounts = []
      ∧ (resetSessionData s).sessionAges = []
      ∧ (resetSessionData s).sessionGenders = [] :=
  ⟨rfl, rfl, rfl⟩

/-! ## The average age -/

/-- Rounding an integer with `Math.round` gives that integer. -/
theorem mathRound_int (a : ℤ) : mathRound (.number (.finite (a : ℚ))) = .finite (a : ℚ) := by
  have hfloor : ⌊(a : ℚ) + 1 / 2⌋ = a := by
    rw [Int.floor_eq_iff]
    constructor
    · linarith
    · linarith
  simp only [mathRound, hfloor]

/-- Ticks that each report one face with an expression map and an integer age
append exactly these ages, in tick order. -/
theorem applyAll_sessionAges_int (ticks : List (String × FaceObservation)) (ages : List ℤ)
    (s : AppState) (hexpr : ∀ t ∈ ticks, ∃ m, t.2.expressions = some m)
    (hages : ticks.map (fun t => t.2.age) = ages.map (fun a : ℤ => JsAge.number (JsNum.finite (a : ℚ)))) :
    (applyAll (ticks.map (fun t => (t.1, [t.2]))) s).sessionAges
      = s.sessionAges ++ ages.map (fun a : ℤ => JsNum.finite (a : ℚ)) := by
  induction ticks generalizing s ages with
  | nil =>
    cases ages with
    | nil => simp [applyAll]
    | cons a ages => simp at hages
  | cons t ticks ih =>
    cases ages with
    | nil => simp at hages
    | cons a ages =>
      simp only [List.map_cons, List.cons.injEq] at hages
      obtain ⟨m, hm⟩ := hexpr t (List.mem_cons_self _ _)
      have hstep : (applyDetections t.1 [t.2] s).sessionAges
          = s.sessionAges ++ [JsNum.finite (a : ℚ)] := by
        rw [applyDetections_sessionAges t.1 t.2 [] s _ _ (hm ▸ destructurePair_present m),
          hages.1, mathRound_int]
        rfl
      have hrec := ih ages (applyDetections t.1 [t.2] s)
        (fun u hu => hexpr u (List.mem_cons_of_mem _ hu)) hages.2
      simp only [applyAll, List.map_cons, List.foldl_cons] at hrec ⊢
      rw [hrec, hstep]
      simp

/-- The running sum of integer samples is their exact sum while the magnitudes
add up to less than `2 ^ 53`. -/
theorem foldl_jsAdd_int (ages : List ℤ) (acc : ℤ)
    (h : |acc| + ((ages.map Int.natAbs).sum : ℤ) < 2 ^ 53) :
    (ages.map (fun a : ℤ => JsNum.finite (a : ℚ))).foldl jsAdd (.finite (acc : ℚ))
      = .finite (((acc + ages.sum : ℤ)) : ℚ) := by
  induction ages generalizing acc with
  | nil => simp
  | cons a ages ih =>
    simp only [List.map_cons, List.sum_cons, Nat.cast_add, Int.natCast_natAbs] at h
    have hnn : (0 : ℤ) ≤ ((ages.map Int.natAbs).sum : ℤ) := Int.natCast_nonneg _
    have htri : |acc + a| ≤ |acc| + |a| := abs_add _ _
    have hstep : jsAdd (.finite (acc : ℚ)) (.finite (a : ℚ)) = .finite ((acc + a : ℤ) : ℚ) := by
      simp only [jsAdd]
      rw [← Int.cast_add]
      exact roundDouble_intCast _ (by omega)
    simp only [List.map_cons, List.foldl_cons, List.sum_cons]
    rw [hstep, ih (acc + a) (by omega)]
    congr 2
    ring

/-- The magnitude of a sum is at most the sum of the magnitudes. -/
theorem abs_sum_le_natAbs (ages : List ℤ) : |ages.sum| ≤ ((ages.map Int.natAbs).sum : ℤ) := by
  induction ages with
  | nil => simp
  | cons a ages ih =>
    simp only [List.sum_cons, List.map_cons, Nat.cast_add, Int.natCast_natAbs]
    exact le_trans (abs_add _ _) (add_le_add le_rfl ih)

/-- The core of the average: for an integer sum `S` with `20 * |S| < 2 ^ 53`
over `n` samples, `0 < n < 2 ^ 32`, the quotient computed in binary64 and
printed by `toFixed(1)` is a decimal within a twentieth of `S / n`. -/
theorem toFixed1_quotient_close (S : ℤ) (n : ℕ) (hn : 0 < n) (hn32 : n < 2 ^ 32)
    (hS : 20 * |S| < 2 ^ 53) :
    ∃ neg t, toFixed1 (jsDivNat (.finite (S : ℚ)) n) = .decimal neg t
      ∧ |(if neg = true then (-1 : ℚ) else 1) * ((t : ℚ) / 10) - (S : ℚ) / (n : ℚ)| ≤ 1 / 20 := by
  have hnq : (0 : ℚ) < (n : ℚ) := by exact_mod_cast hn
  simp only [jsDivNat, if_neg (Nat.pos_iff_ne_zero.mp hn)]
  by_cases hS0 : S = 0
  · subst hS0
    have hfloor : ⌊(0 : ℚ) * 10 + 1 / 2⌋ = 0 := by
      rw [Int.floor_eq_iff]
      constructor <;> norm_num
    refine ⟨false, 0, ?_, ?_⟩
    · have hz : roundDouble (((0 : ℤ) : ℚ) / (n : ℚ)) = .finite 0 := by simp [roundDouble]
      rw [hz]
      simp only [toFixed1, lt_irrefl, if_false, hfloor]
      norm_num
    · norm_num
  have hSq : (S : ℚ) ≠ 0 := by exact_mod_cast hS0
  have hq : (S : ℚ) / (n : ℚ) ≠ 0 := div_ne_zero hSq (ne_of_gt hnq)
  have hA : (1 : ℚ) ≤ |(S : ℚ)| := by
    have : (1 : ℤ) ≤ |S| := Int.one_le_abs hS0
    exact_mod_cast this
  have hAhi : 20 * |(S : ℚ)| < 2 ^ 53 := by
    have : ((20 * |S| : ℤ) : ℚ) < ((2 ^ 53 : ℤ) : ℚ) := Int.cast_lt.mpr hS
    push_cast at this
    exact this
  have habsq : |(S : ℚ) / (n : ℚ)| = |(S : ℚ)| / (n : ℚ) := by
    rw [abs_div, abs_of_pos hnq]
  generalize (S : ℚ) / (n : ℚ) = q at hq habsq ⊢
  have hqn : |q| * (n : ℚ) = ((|S| : ℤ) : ℚ) := by
    rw [habsq, Int.cast_abs]; field_simp
  have hn32q : (n : ℚ) < 2 ^ 32 := by exact_mod_cast hn32
  have hqpos : 0 < |q| := abs_pos.mpr hq
  have hlo : (2 : ℚ) ^ (-1022 : ℤ) ≤ |q| := by
    have h1 : (1 : ℚ) / 2 ^ 32 ≤ |q| := by
      rw [habsq, div_le_div_iff₀ (by positivity) hnq]
      nlinarith
    have h2 : (2 : ℚ) ^ (-1022 : ℤ) ≤ (2 : ℚ) ^ (-32 : ℤ) :=
      zpow_le_zpow_right₀ (by norm_num) (by norm_num)
    have h3 : (2 : ℚ) ^ (-32 : ℤ) = 1 / 2 ^ 32 := by norm_num
    rw [h3] at h2
    exact le_trans h2 h1
  have hqle : |q| ≤ |(S : ℚ)| := by
    rw [habsq]
    apply div_le_self (abs_nonneg _)
    exact_mod_cast hn
  have h53 : |q| < 2 ^ 53 := by linarith
  have hhi : |q| < (2 : ℚ) ^ (1023 : ℤ) := by
    have h2 : (2 : ℚ) ^ (53 : ℤ) ≤ (2 : ℚ) ^ (1023 : ℤ) :=
      zpow_le_zpow_right₀ (by norm_num) (by norm_num)
    have h3 : (2 : ℚ) ^ (53 : ℤ) = 2 ^ 53 := by norm_num
    rw [h3] at h2
    exact lt_of_lt_of_le h53 h2
  obtain ⟨r, hr, hr0, hrclose⟩ := roundDouble_close q hq hlo hhi
  have hrlo := (abs_le.mp hrclose).1
  have hrhi := (abs_le.mp hrclose).2
  have hsmall : |q| / 2 ^ 53 < |q| := by
    apply div_lt_self hqpos; norm_num
  have hrpos : 0 < r := by linarith
  have hr21 : r < (10 : ℚ) ^ 21 := by
    have : (2 : ℚ) ^ 54 ≤ (10 : ℚ) ^ 21 := by norm_num
    linarith
  have htnn : (0 : ℤ) ≤ ⌊r * 10 + 1 / 2⌋ := Int.floor_nonneg.mpr (by linarith)
  have hcast : ((⌊r * 10 + 1 / 2⌋.toNat : ℕ) : ℚ) = ((⌊r * 10 + 1 / 2⌋ : ℤ) : ℚ) := by
    have := Int.toNat_of_nonneg htnn
    exact_mod_cast this
  have hcore := tenths_close |S| ⌊r * 10 + 1 / 2⌋ n r |q| hn hqn
    (by rw [Int.cast_abs]; exact hAhi) hrlo hrhi
    (Int.floor_le _) (Int.lt_floor_add_one _)
  refine ⟨decide (q < 0), ⌊r * 10 + 1 / 2⌋.toNat, ?_, ?_⟩
  · rw [hr]
    exact toFixed1_signed q r hq hrpos hr21
  · rw [hcast]
    generalize ((⌊r * 10 + 1 / 2⌋ : ℤ) : ℚ) = tq at hcore ⊢
    clear hr hrclose hrlo hrhi hcast htnn hr21 hsmall hlo hhi h53 hqle hqn habsq hAhi hA
    by_cases hp : q < 0
    · simp only [hp, decide_True, if_true]
      rw [abs_of_neg hp] at hcore
      rw [abs_le] at hcore ⊢
      constructor <;> linarith [hcore.1, hcore.2]
    · simp only [hp, decide_False, Bool.false_eq_true, if_false]
      rw [abs_of_nonneg (not_lt.mp hp)] at hcore
      rw [abs_le] at hcore ⊢
      constructor <;> linarith [hcore.1, hcore.2]


/-- The sum of two finite numbers is the rounded exact sum. -/
theorem jsAdd_finite (a b : ℚ) : jsAdd (.finite a) (.finite b) = roundDouble (a + b) := rfl

/-- The sum `603` divided by `20` in binary64: the number just below `30.15`. -/
theorem roundDouble_603_20 :
    roundDouble ((603 : ℚ) / 20) = .finite ((8486470547826278 : ℚ) / 2 ^ 48) := by
  have hpos : (0 : ℚ) < 603 / 20 := by norm_num
  have habs : |(603 : ℚ) / 20| = 603 / 20 := abs_of_pos hpos
  have hlog : Int.log 2 |(603 : ℚ) / 20| = 4 := by
    rw [habs]
    exact log_two_eq _ 4 (by norm_num) (by norm_num)
  have he : max (Int.log 2 |(603 : ℚ) / 20|) (-1022) = 4 := by rw [hlog]; rfl
  have hm : roundHalfEven (|(603 : ℚ) / 20| / (2 : ℚ) ^ ((4 : ℤ) - 52)) = 8486470547826278 := by
    rw [habs]
    apply roundHalfEven_of_lt <;> norm_num
  rw [roundDouble_of_log _ (ne_of_gt hpos) 4 he 8486470547826278 hm (by norm_num), if_pos hpos]
  norm_num

/-- The sum `2 ^ 53 + 1` in binary64: a tie between `2 ^ 53` and `2 ^ 53 + 2`,
which goes to `2 ^ 53`. -/
theorem roundDouble_two_pow_53_add_one :
    roundDouble ((2 : ℚ) ^ 53 + 1) = .finite ((2 : ℚ) ^ 53) := by
  have hpos : (0 : ℚ) < 2 ^ 53 + 1 := by positivity
  have habs : |(2 : ℚ) ^ 53 + 1| = 2 ^ 53 + 1 := abs_of_pos hpos
  have hlog : Int.log 2 |(2 : ℚ) ^ 53 + 1| = 53 := by
    rw [habs]
    exact log_two_eq _ 53 (by norm_num) (by norm_num)
  have he : max (Int.log 2 |(2 : ℚ) ^ 53 + 1|) (-1022) = 53 := by rw [hlog]; rfl
  have hm : roundHalfEven (|(2 : ℚ) ^ 53 + 1| / (2 : ℚ) ^ ((53 : ℤ) - 52)) = 2 ^ 52 := by
    rw [habs]
    apply roundHalfEven_tie_even
    · norm_num
    · norm_num
  rw [roundDouble_of_log _ (ne_of_gt hpos) 53 he (2 ^ 52) hm (by norm_num), if_pos hpos]
  norm_num

/-- The number `2 ^ 53` in binary64 is itself. -/
theorem roundDouble_two_pow_53 : roundDouble ((2 : ℚ) ^ 53) = .finite ((2 : ℚ) ^ 53) := by
  have hpos : (0 : ℚ) < 2 ^ 53 := by positivity
  have habs : |(2 : ℚ) ^ 53| = 2 ^ 53 := abs_of_pos hpos
  have hlog : Int.log 2 |(2 : ℚ) ^ 53| = 53 := by
    rw [habs]
    exact log_two_eq _ 53 (by norm_num) (by norm_num)
  have he : max (Int.log 2 |(2 : ℚ) ^ 53|) (-1022) = 53 := by rw [hlog]; rfl
  have hm : roundHalfEven (|(2 : ℚ) ^ 53| / (2 : ℚ) ^ ((53 : ℤ) - 52)) = 2 ^ 52 := by
    rw [habs]
    have : (2 : ℚ) ^ 53 / (2 : ℚ) ^ ((53 : ℤ) - 52) = (((2 ^ 52 : ℤ)) : ℚ) := by norm_num
    rw [this, roundHalfEven_intCast]
  rw [roundDouble_of_log _ (ne_of_gt hpos) 53 he (2 ^ 52) hm (by norm_num), if_pos hpos]
  norm_num

/-- C10, as stated, fails, because the sum and the quotient are computed in
binary64. Seventeen faces of age 30 and three of age 31 have the mean `30.15`,
whose nearest tenth (halves up, as `toFixed` rounds) is `30.2`; the quotient
`603 / 20` is the binary64 number just below `30.15`, and the average shown is
`30.1`. Two faces of ages `2 ^ 53` and `1` have the mean `2 ^ 52 + 1/2`; their
sum is `2 ^ 53` in binary64 and the average shown is `2 ^ 52`, half a unit
away. -/
theorem averageAge_binary64_counterexample :
    (applyAll (twentyFaces.map (fun t => (t.1, [t.2]))) (resetSessionData initialState)).sessionAges
        = (List.replicate 17 (30 : ℤ) ++ List.replicate 3 31).map
            (fun a : ℤ => JsNum.finite (a : ℚ))
      ∧ (averageAge (applyAll (twentyFaces.map (fun t => (t.1, [t.2])))
            (resetSessionData initialState)).sessionAges).bind Fixed.text = some "30.1"
      ∧ (((List.replicate 17 (30 : ℤ) ++ List.replicate 3 31).sum : ℤ) : ℚ) / 20 = 603 / 20
      ∧ ⌊(603 / 20 : ℚ) * 10 + 1 / 2⌋ = 302
      ∧ (applyAll (twoLargeFaces.map (fun t => (t.1, [t.2])))
            (resetSessionData initialState)).sessionAges
          = [.finite ((2 : ℚ) ^ 53), .finite 1]
      ∧ (averageAge (applyAll (twoLargeFaces.map (fun t => (t.1, [t.2])))
            (resetSessionData initialState)).sessionAges).bind Fixed.value = some ((2 : ℚ) ^ 52)
      ∧ (1 : ℚ) / 20 < |(2 : ℚ) ^ 52 - ((2 : ℚ) ^ 53 + 1) / 2| := by
  have hages : (applyAll (twentyFaces.map (fun t => (t.1, [t.2])))
      (resetSessionData initialState)).sessionAges
        = (List.replicate 17 (30 : ℤ) ++ List.replicate 3 31).map
            (fun a : ℤ => JsNum.finite (a : ℚ)) := by
    rw [applyAll_sessionAges_int twentyFaces (List.replicate 17 (30 : ℤ) ++ List.replicate 3 31)
      (resetSessionData initialState)
      (by intro t ht; simp [twentyFaces] at ht; rcases ht with ⟨_, rfl⟩ | ⟨_, rfl⟩ <;> exact ⟨_, rfl⟩)
      (by simp [twentyFaces])]
    rfl
  have hlarge : (applyAll (twoLargeFaces.map (fun t => (t.1, [t.2])))
      (resetSessionData initialState)).sessionAges = [.finite ((2 : ℚ) ^ 53), .finite 1] := by
    have h := applyAll_sessionAges_int twoLargeFaces [2 ^ 53, 1] (resetSessionData initialState)
      (by intro t ht; simp [twoLargeFaces] at ht; rcases ht with rfl | rfl <;> exact ⟨_, rfl⟩)
      (by simp [twoLargeFaces])
    rw [h]
    simp [resetSessionData]
    norm_num
  refine ⟨hages, ?_, ?_, ?_, hlarge, ?_, ?_⟩
  · rw [hages]
    have hsum := foldl_jsAdd_int (List.replicate 17 (30 : ℤ) ++ List.replicate 3 31) 0
      (by norm_num [List.replicate])
    have hsumv : ((0 + (List.replicate 17 (30 : ℤ) ++ List.replicate 3 31).sum : ℤ) : ℚ) = 603 := by
      norm_num
    rw [hsumv] at hsum
    simp only [Int.cast_zero] at hsum
    unfold averageAge
    rw [if_pos (by simp), hsum]
    have hlen : ((List.replicate 17 (30 : ℤ) ++ List.replicate 3 31).map
        (fun a : ℤ => JsNum.finite (a : ℚ))).length = 20 := by simp
    rw [hlen]
    simp only [jsDivNat]
    rw [if_neg (by norm_num)]
    have hq : ((603 : ℚ) / ((20 : ℕ) : ℚ)) = 603 / 20 := by norm_num
    rw [hq, roundDouble_603_20]
    have hfloor : ⌊((8486470547826278 : ℚ) / 2 ^ 48) * 10 + 1 / 2⌋ = ((301 : ℕ) : ℤ) := by
      rw [Int.floor_eq_iff]
      constructor <;> norm_num
    have hfix : toFixed1 (.finite ((8486470547826278 : ℚ) / 2 ^ 48)) = .decimal false 301 := by
      simp only [toFixed1]
      rw [if_neg (by norm_num), if_neg (by norm_num), hfloor, Int.toNat_ofNat]
      norm_num
    rw [hfix]
    decide
  · norm_num
  · rw [Int.floor_eq_iff]
    constructor <;> norm_num
  · rw [hlarge]
    unfold averageAge
    rw [if_pos (by simp)]
    have hsum : ([JsNum.finite ((2 : ℚ) ^ 53), JsNum.finite 1]).foldl jsAdd (.finite 0)
        = .finite ((2 : ℚ) ^ 53) := by
      rw [List.foldl_cons, List.foldl_cons, List.foldl_nil, jsAdd_finite, zero_add,
        roundDouble_two_pow_53, jsAdd_finite, roundDouble_two_pow_53_add_one]
    rw [hsum]
    simp only [List.length_cons, List.length_nil, jsDivNat]
    rw [if_neg (by norm_num)]
    have hq : ((2 : ℚ) ^ 53 / ((0 + 1 + 1 : ℕ) : ℚ)) = (((2 ^ 52 : ℕ) : ℤ) : ℚ) := by norm_num
    rw [hq, roundDouble_intCast _ (by norm_num)]
    have hfloor : ⌊((((2 ^ 52 : ℕ) : ℤ) : ℚ)) * 10 + 1 / 2⌋ = ((10 * 2 ^ 52 : ℕ) : ℤ) := by
      rw [Int.floor_eq_iff]
      constructor <;> norm_num
    simp only [toFixed1]
    rw [if_neg (by norm_num), if_neg (by norm_num), hfloor, Int.toNat_ofNat]
    simp only [Option.bind_some, Fixed.value]
    norm_num
  · have hdiff : (2 : ℚ) ^ 52 - ((2 : ℚ) ^ 53 + 1) / 2 = -(1 / 2) := by norm_num
    rw [hdiff, abs_neg, abs_of_pos (by norm_num)]
    norm_num

/-- C10, amended: after a reset, `n ≥ 1` ticks (`n` below `2 ^ 32`, the most an
array holds) that each report one face (with an expression map) of integer age
`a₁ … aₙ`, the magnitudes adding up to less than `2 ^ 53 / 20`, leave
`sessionAges` equal to `[a₁, …, aₙ]` in tick order, and `averageAge` is
`toFixed(1)` of the binary64 quotient of their sum by `n`: a sign and a number
of tenths within `1/20` of their arithmetic mean. -/
theorem averageAge_integer_ages (ticks : List (String × FaceObservation)) (ages : List ℤ)
    (s : AppState) (hne : ticks ≠ [])
    (hexpr : ∀ t ∈ ticks, ∃ m, t.2.expressions = some m)
    (hages : ticks.map (fun t => t.2.age) = ages.map (fun a : ℤ => JsAge.number (JsNum.finite (a : ℚ))))
    (hlen : ages.length < 2 ^ 32)
    (hbound : 20 * ((ages.map Int.natAbs).sum : ℤ) < 2 ^ 53) :
    (applyAll (ticks.map (fun t => (t.1, [t.2]))) (resetSessionData s)).sessionAges
        = ages.map (fun a : ℤ => JsNum.finite (a : ℚ))
      ∧ averageAge
          (applyAll (ticks.map (fun t => (t.1, [t.2]))) (resetSessionData s)).sessionAges
        = some (toFixed1 (roundDouble (((ages.sum : ℤ) : ℚ) / (ages.length : ℚ))))
      ∧ ∃ neg t,
          averageAge
            (applyAll (ticks.map (fun t => (t.1, [t.2]))) (resetSessionData s)).sessionAges
              = some (.decimal neg t)
          ∧ |(if neg = true then (-1 : ℚ) else 1) * ((t : ℚ) / 10)
              - ((ages.sum : ℤ) : ℚ) / (ages.length : ℚ)| ≤ 1 / 20 := by
  have hsamples : (applyAll (ticks.map (fun t => (t.1, [t.2]))) (resetSessionData s)).sessionAges
      = ages.map (fun a : ℤ => JsNum.finite (a : ℚ)) := by
    rw [applyAll_sessionAges_int ticks ages (resetSessionData s) hexpr hages]
    rfl
  have hagesne : ages ≠ [] := by
    intro h0
    rw [h0] at hages
    simp at hages
    exact hne hages
  have hpos : 0 < ages.length := List.length_pos.mpr hagesne
  have hnn : (0 : ℤ) ≤ ((ages.map Int.natAbs).sum : ℤ) := Int.natCast_nonneg _
  have hsum := foldl_jsAdd_int ages 0 (by simp only [abs_zero, zero_add]; omega)
  simp only [Int.cast_zero, zero_add] at hsum
  have havg : averageAge (ages.map (fun a : ℤ => JsNum.finite (a : ℚ)))
      = some (toFixed1 (jsDivNat (.finite ((ages.sum : ℤ) : ℚ)) ages.length)) := by
    unfold averageAge
    rw [if_pos (by simpa using hpos), hsum, List.length_map]
  have hdiv : jsDivNat (.finite ((ages.sum : ℤ) : ℚ)) ages.length
      = roundDouble (((ages.sum : ℤ) : ℚ) / (ages.length : ℚ)) := by
    simp only [jsDivNat, if_neg (Nat.pos_iff_ne_zero.mp hpos)]
  have hS : 20 * |ages.sum| < 2 ^ 53 := by
    have := abs_sum_le_natAbs ages
    omega
  obtain ⟨neg, t, hfix, hclose⟩ := toFixed1_quotient_close ages.sum ages.length hpos hlen hS
  rw [hsamples, havg]
  refine ⟨rfl, by rw [hdiv], neg, t, by rw [hfix], hclose⟩

/-- Witness of the amended C10: three ticks with one face each, ages 30, 32
and 34, after a reset of a session that held other samples: `sessionAges` has
length 3 and the average prints as `32.0`. -/
theorem averageAge_integer_ages_witness :
    (applyAll
        ([("10:00:00", ⟨some [("happy", 1)], .number (.finite ((30 : ℤ) : ℚ)), some "male"⟩),
          ("10:00:01", ⟨some [("happy", 1)], .number (.finite ((32 : ℤ) : ℚ)), some "male"⟩),
          ("10:00:02", ⟨some [("sad", 1)], .number (.finite ((34 : ℤ) : ℚ)), some "male"⟩)].map
            (fun t => (t.1, [t.2])))
        (resetSessionData { initialState with sessionAges := [.finite 51] })).sessionAges.length
        = 3
      ∧ (averageAge
          (applyAll
            ([("10:00:00", ⟨some [("happy", 1)], .number (.finite ((30 : ℤ) : ℚ)), some "male"⟩),
              ("10:00:01", ⟨some [("happy", 1)], .number (.finite ((32 : ℤ) : ℚ)), some "male"⟩),
              ("10:00:02", ⟨some [("sad", 1)], .number (.finite ((34 : ℤ) : ℚ)), some "male"⟩)].map
                (fun t => (t.1, [t.2])))
            (resetSessionData { initialState with sessionAges := [.finite 51] })).sessionAges).bind
          Fixed.text = some "32.0" := by
  have H := averageAge_integer_ages
    [("10:00:00", ⟨some [("happy", 1)], .number (.finite ((30 : ℤ) : ℚ)), some "male"⟩),
      ("10:00:01", ⟨some [("happy", 1)], .number (.finite ((32 : ℤ) : ℚ)), some "male"⟩),
      ("10:00:02", ⟨some [("sad", 1)], .number (.finite ((34 : ℤ) : ℚ)), some "male"⟩)]
    [30, 32, 34] { initialState with sessionAges := [.finite 51] }
    (by simp)
    (by intro t ht; simp at ht; rcases ht with rfl | rfl | rfl <;> exact ⟨_, rfl⟩)
    rfl
    (by simp)
    (by norm_num)
  refine ⟨?_, ?_⟩
  · rw [H.1]; rfl
  · rw [H.2.1]
    have hmean : (((([30, 32, 34] : List ℤ).sum : ℤ) : ℚ) / (([30, 32, 34] : List ℤ).length : ℚ))
        = (((32 : ℤ)) : ℚ) := by norm_num
    rw [hmean, roundDouble_intCast 32 (by norm_num)]
    have hfloor : ⌊(((32 : ℤ) : ℚ)) * 10 + 1 / 2⌋ = 320 := by
      rw [Int.floor_eq_iff]
      constructor <;> norm_num
    simp only [toFixed1]
    rw [if_neg (by norm_num), if_neg (by norm_num), hfloor]
    have hneg : decide ((((32 : ℤ)) : ℚ) < 0) = false := by norm_num
    rw [hneg]
    decide

/-! ## The pipeline: detector calls -/

set_option maxRecDepth 8000

/-- Running a sequence and then another is running their concatenation. -/
theorem prun_append (a b : List PEvent) (p : Pipeline) :
    prun (a ++ b) p = prun b (prun a p) := by
  simp [prun, List.foldl_append]

/-- The overlay after an applied frame is that frame, whatever else the frame
causes. -/
theorem applyDetections_detectionsArray (now : String) (detections : List FaceObservation)
    (s : AppState) : (applyDetections now detections s).detectionsArray = detections := by
  cases detections with
  | nil => rfl
  | cons o rest =>
    cases h : destructurePair (getDominantEmotion o.expressions) with
    | none => rw [applyDetections_throw now o rest s h]
    | some r =>
      obtain ⟨emotion, confidence⟩ := r
      exact (applyDetections_snapshot now o rest s emotion confidence h).1

/-- C11, as stated, fails: with the timer running and the video playing, two
ticks that fire before any detector call has settled leave two calls
outstanding; the second tick was not skipped, it issued a call of its own. -/
theorem detector_calls_overlap_counterexample :
    (prun (toDetecting ++ [.tick]) pipelineInit).outstanding = 1
      ∧ (prun (toDetecting ++ [.tick, .tick]) pipelineInit).outstanding = 2
      ∧ (prun (toDetecting ++ [.tick, .tick]) pipelineInit).ops
          = (prun toDetecting pipelineInit).ops ++ [.detect, .detect] := by
  refine ⟨by decide, by decide, by decide⟩

/-- C11, amended: `runDetection` keeps no busy flag. A tick that passes the
entry conditions issues one detector call, whatever the number of calls
already outstanding; so at most one call is outstanding exactly as long as
each call settles before the next tick fires: from no outstanding call a tick
leaves at most one, and its settlement leaves none. -/
theorem runDetectionBegin_issues_call (p : Pipeline) :
    (runDetectionGuard p = true →
        (runDetectionBegin p).outstanding = p.outstanding + 1
          ∧ (runDetectionBegin p).ops = p.ops ++ [.detect])
      ∧ (runDetectionGuard p = false → runDetectionBegin p = p)
      ∧ (p.outstanding = 0 →
          (runDetectionBegin p).outstanding ≤ 1
            ∧ ∀ now outcome,
                (runDetectionResume now outcome (runDetectionBegin p)).outstanding = 0) := by
  refine ⟨?_, ?_, ?_⟩
  · intro h
    simp [runDetectionBegin, h]
  · intro h
    simp [runDetectionBegin, h]
  · intro h0
    by_cases h : runDetectionGuard p = true
    · simp [runDetectionBegin, runDetectionResume, h, h0]
    · simp [runDetectionBegin, runDetectionResume, h, h0]

/-- Witness of the amended C11: in the detecting state with one call
outstanding, the next tick's `runDetection` issues a second call. -/
theorem runDetectionBegin_issues_call_witness :
    (runDetectionBegin (prun (toDetecting ++ [.tick]) pipelineInit)).outstanding = 2 := by
  have H := (runDetectionBegin_issues_call (prun (toDetecting ++ [.tick]) pipelineInit)).1
    (by decide)
  rw [H.1]
  decide

/-! ## The pipeline: camera streams -/

/-- C12: evaluation at the failing inputs. After the permission probe and the
acquisition of camera A, two streams obtained from `getUserMedia` have
unstopped tracks (the probe's stream 0 and the attached stream 1), and no
track was ever stopped. When the camera is changed to B while A's acquisition
is pending, both acquisitions are attached in turn and three streams are open:
stream 2 is attached, stream 1 is attached to nothing and never stopped. When
the user leaves the live tool, the video element is unmounted before the
effects run, so the release finds no element and stream 1 stays open; on
return a third stream is opened. -/
theorem camera_streams_left_open :
    (prun toStreaming pipelineInit).liveStreams = [0, 1]
      ∧ (prun toStreaming pipelineInit).ops
          = [.getUserMedia none, .getUserMedia (some "A"), .attach 1]
      ∧ (prun (toAcquiring ++ changeCamera "B"
            ++ [.streamSettled "A" none, .streamSettled "B" none]) pipelineInit).liveStreams
          = [0, 1, 2]
      ∧ (prun (toAcquiring ++ changeCamera "B"
            ++ [.streamSettled "A" none, .streamSettled "B" none]) pipelineInit).ops
          = [.getUserMedia none, .getUserMedia (some "A"), .getUserMedia (some "B"),
              .attach 1, .attach 2]
      ∧ (prun (toDetecting ++ leaveLiveView) pipelineInit).liveStreams = [0, 1]
      ∧ (prun (toDetecting ++ leaveLiveView ++ enterLiveView
            ++ [.streamSettled "A" none]) pipelineInit).liveStreams = [0, 1, 2] := by
  refine ⟨by decide, by decide, by decide, by decide, by decide, by decide⟩

/-! ## The pipeline: results that arrive after a teardown -/

/-- The teardown leaves the count of outstanding detector calls alone. -/
theorem stopStream_outstanding (p : Pipeline) :
    p.stopStreamAndClearDetections.outstanding = p.outstanding := by
  unfold Pipeline.stopStreamAndClearDetections clearDetectionInterval stopTracks
  dsimp only
  repeat' split
  all_goals rfl

/-- The cells after a detector call has settled with a frame: the frame is
applied. -/
theorem pstep_detectionSettled_cells (p : Pipeline) (now : String)
    (frame : List FaceObservation) (h : p.outstanding ≠ 0) :
    (pstep p (.detectionSettled now (some frame))).cells
      = applyDetections now frame p.cells := by
  simp only [pstep, if_neg h, runDetectionResume, runDetection]
  rfl

/-- C13, as stated, fails: a detector call is outstanding when the user leaves
the live tool; the teardown empties the overlay, and the result that settles
afterwards is written to the overlay, the snapshot, the session cells and the
log. -/
theorem late_result_applied_counterexample :
    (prun (toDetecting ++ [.tick] ++ leaveLiveView) pipelineInit).outstanding = 1
      ∧ (prun (toDetecting ++ [.tick] ++ leaveLiveView) pipelineInit).cells = initialState
      ∧ (pstep (prun (toDetecting ++ [.tick] ++ leaveLiveView) pipelineInit)
            (.detectionSettled "10:00:05" (some [sampleFace]))).cells.detectionsArray
          = [sampleFace]
      ∧ (pstep (prun (toDetecting ++ [.tick] ++ leaveLiveView) pipelineInit)
            (.detectionSettled "10:00:05" (some [sampleFace]))).cells
          ≠ (prun (toDetecting ++ [.tick] ++ leaveLiveView) pipelineInit).cells := by
  have h1 : (prun (toDetecting ++ [.tick] ++ leaveLiveView) pipelineInit).outstanding = 1 := by
    decide
  have h2 : (prun (toDetecting ++ [.tick] ++ leaveLiveView) pipelineInit).cells
      = initialState := by decide
  have h3 : (pstep (prun (toDetecting ++ [.tick] ++ leaveLiveView) pipelineInit)
      (.detectionSettled "10:00:05" (some [sampleFace]))).cells.detectionsArray
        = [sampleFace] := by
    rw [pstep_detectionSettled_cells _ _ _ (by rw [h1]; decide)]
    exact applyDetections_detectionsArray _ _ _
  refine ⟨h1, h2, h3, ?_⟩
  intro hEq
  rw [hEq, h2] at h3
  exact absurd h3 (by decide)

/-- C13, amended: `runDetection` tests nothing after its `await`. When a call
is outstanding at a teardown (`stopStreamAndClearDetections`, run on a tool
switch and on a device change), the teardown leaves it outstanding, and the
result that settles afterwards is applied to the cells as any result is: the
overlay becomes the late frame. -/
theorem late_result_applied (p : Pipeline) (now : String) (frame : List FaceObservation)
    (h : p.outstanding ≠ 0) :
    p.stopStreamAndClearDetections.outstanding = p.outstanding
      ∧ (pstep p.stopStreamAndClearDetections (.detectionSettled now (some frame))).cells
          = applyDetections now frame p.stopStreamAndClearDetections.cells
      ∧ (pstep p.stopStreamAndClearDetections
            (.detectionSettled now (some frame))).cells.detectionsArray = frame := by
  have hout := stopStream_outstanding p
  have hcells : (pstep p.stopStreamAndClearDetections (.detectionSettled now (some frame))).cells
      = applyDetections now frame p.stopStreamAndClearDetections.cells :=
    pstep_detectionSettled_cells _ _ _ (by rw [hout]; exact h)
  refine ⟨hout, hcells, ?_⟩
  rw [hcells]
  exact applyDetections_detectionsArray _ _ _

/-- Witness of the amended C13: the teardown of the detecting state with one
call outstanding, then a late frame with one face. -/
theorem late_result_applied_witness :
    (pstep (prun (toDetecting ++ [.tick]) pipelineInit).stopStreamAndClearDetections
        (.detectionSettled "10:00:05" (some [sampleFace]))).cells.detectionsArray
      = [sampleFace] := by
  have H := late_result_applied (prun (toDetecting ++ [.tick]) pipelineInit) "10:00:05"
    [sampleFace] (by decide)
  exact H.2.2

/-! ## The pipeline: a camera change -/

/-- While `isWebcamReady` is down and no timer is set, no event other than
`canplay` raises the one or sets the other, and none issues a detector call. -/
theorem quiet_step (p : Pipeline) (e : PEvent) (he : e ≠ .canPlay)
    (h1 : p.isWebcamReady = false) (h2 : p.timers = []) :
    (pstep p e).isWebcamReady = false ∧ (pstep p e).timers = []
      ∧ (pstep p e).ops.count .detect = p.ops.count .detect := by
  cases e
  case canPlay => exact absurd rfl he
  all_goals
    simp only [pstep, loadModelsResume, getVideoDevices, getVideoDevicesProbed,
      getVideoDevicesEnumerated, Pipeline.stopStreamAndClearDetections, streamEffect,
      startVideoStreamResume, clearDetectionInterval, stopTracks, intervalEffect,
      shouldBeDetecting, handleCameraChange, handleCapture, runDetectionResume]
    repeat' split
    all_goals simp_all

/-- The same over a sequence of events without `canplay`. -/
theorem quiet_run (events : List PEvent) (p : Pipeline) (he : ∀ e ∈ events, e ≠ .canPlay)
    (h1 : p.isWebcamReady = false) (h2 : p.timers = []) :
    (prun events p).isWebcamReady = false ∧ (prun events p).timers = []
      ∧ (prun events p).ops.count .detect = p.ops.count .detect := by
  induction events generalizing p with
  | nil => exact ⟨h1, h2, rfl⟩
  | cons e events ih =>
    obtain ⟨s1, s2, s3⟩ := quiet_step p e (he e (List.mem_cons_self _ _)) h1 h2
    obtain ⟨r1, r2, r3⟩ := ih (pstep p e) (fun x hx => he x (List.mem_cons_of_mem _ hx)) s1 s2
    exact ⟨r1, r2, r3.trans s3⟩

/-- The stream effect's cleanup and body on a state with an attached stream,
the live tool, a selected device and loaded models, with or without the
interval effect running along: the stream calls are one release and one
acquire. -/
theorem release_then_acquire (p : Pipeline) (element : VideoElement) (stream : ℕ)
    (hvideo : p.video = some element) (hsrc : element.srcObject = some stream)
    (hlive : p.activeTool = .live) (hid : p.selectedDeviceId ≠ "")
    (hmodels : p.modelsLoaded = true) (hready : p.isWebcamReady = false)
    (htimers : p.timers = p.detectionIntervalRef.toList)
    (q : Pipeline)
    (hq : q = streamEffect p.stopStreamAndClearDetections
      ∨ q = intervalEffect (streamEffect (clearDetectionInterval p.stopStreamAndClearDetections))) :
    (q.ops.drop p.ops.length).filter Op.isStreamOp
        = [.stopTracks stream, .detach, .getUserMedia (some p.selectedDeviceId)]
      ∧ stream ∉ q.liveStreams
      ∧ q.video = some { element with srcObject := none }
      ∧ q.isWebcamReady = false
      ∧ q.timers = []
      ∧ q.ops.count .detect = p.ops.count .detect := by
  obtain ⟨activeTool, modelsLoaded, isWebcamReady, isDetecting, error, showCameraSelector,
    videoDevices, selectedDeviceId, cells, video, canvas, detectionIntervalRef, liveStreams,
    streamCount, timers, timerCount, loadPending, probing, enumerating, acquiring,
    outstanding, ops⟩ := p
  obtain ⟨srcObject, paused, ended, videoWidth, videoHeight⟩ := element
  simp only at hvideo hsrc hlive hid hmodels hready htimers
  subst hvideo hsrc hlive hmodels hready htimers
  rcases hq with rfl | rfl
  · cases detectionIntervalRef <;>
    simp [Pipeline.stopStreamAndClearDetections, stopTracks, clearDetectionInterval, streamEffect,
      shouldStream, hid, Op.isStreamOp, List.filter, List.count_append]
  · cases detectionIntervalRef <;> cases isDetecting <;>
    simp [Pipeline.stopStreamAndClearDetections, stopTracks, clearDetectionInterval, streamEffect,
      shouldStream, hid, Op.isStreamOp, List.filter, List.count_append, intervalEffect,
      shouldBeDetecting]

/-- C14, as stated, fails: a stream is active, the camera select is enabled and
a detector call is outstanding; the camera is changed to B, the old stream is
released and B's stream requested, and before B's stream exists the
outstanding call settles and its frame is written to the cells. -/
theorem camera_change_late_result_counterexample :
    streamActive (prun toSecondStream pipelineInit) = true
      ∧ cameraSelectEnabled "B" (prun toSecondStream pipelineInit) = true
      ∧ (prun toSecondStream pipelineInit).outstanding = 1
      ∧ (prun (toSecondStream ++ changeCamera "B") pipelineInit).ops
          = (prun toSecondStream pipelineInit).ops
              ++ [.stopTracks 2, .detach, .getUserMedia (some "B")]
      ∧ (prun (toSecondStream ++ changeCamera "B") pipelineInit).acquiring = ["B"]
      ∧ (prun (toSecondStream ++ changeCamera "B") pipelineInit).isWebcamReady = false
      ∧ (prun (toSecondStream ++ changeCamera "B") pipelineInit).cells.detectionsArray = []
      ∧ (prun (toSecondStream ++ changeCamera "B"
            ++ [.detectionSettled "10:00:09" (some [sampleFace])])
            pipelineInit).cells.detectionsArray = [sampleFace] := by
  refine ⟨by decide, by decide, by decide, by decide, by decide, by decide, by decide,
    by decide⟩

/-- C14, amended: when the camera select is used to change to a different
device while a stream is attached under the live tool, the stream calls that
follow (in the pass React runs, with or without the interval effect) are
exactly: every track of the old stream stopped, the stream detached, then one
`getUserMedia` with the new exact id; the old stream is no longer open, and
until the video element fires `canplay` no tick issues a detector call
(`isWebcamReady` stays down and no timer is set). The result of a call that
was outstanding at the change is not covered: it is applied when it settles. -/
theorem camera_change_release_then_acquire (p : Pipeline) (element : VideoElement)
    (stream : ℕ) (newDeviceId : String) (pass : List PEvent)
    (hpass : pass = changeCamera newDeviceId ∨ pass = changeCameraReady newDeviceId)
    (hvideo : p.video = some element) (hsrc : element.srcObject = some stream)
    (hlive : p.activeTool = .live) (hnew : newDeviceId ≠ p.selectedDeviceId)
    (hid : newDeviceId ≠ "") (henabled : cameraSelectEnabled newDeviceId p = true)
    (htimers : p.timers = p.detectionIntervalRef.toList) :
    ((prun pass p).ops.drop p.ops.length).filter Op.isStreamOp
        = [.stopTracks stream, .detach, .getUserMedia (some newDeviceId)]
      ∧ stream ∉ (prun pass p).liveStreams
      ∧ (prun pass p).video = some { element with srcObject := none }
      ∧ (prun pass p).isWebcamReady = false
      ∧ (prun pass p).timers = []
      ∧ ∀ events : List PEvent, (∀ e ∈ events, e ≠ .canPlay) →
          (prun events (prun pass p)).ops.count .detect = p.ops.count .detect
            ∧ (prun events (prun pass p)).isWebcamReady = false := by
  have hmodels : p.modelsLoaded = true := by
    simp [cameraSelectEnabled] at henabled
    exact henabled.1.2.1
  have hstep : pstep p (.cameraChange newDeviceId)
      = { p with isWebcamReady := false, selectedDeviceId := newDeviceId } := by
    simp only [pstep, henabled, if_true, handleCameraChange, if_pos hnew]
  have hmain := release_then_acquire
    { p with isWebcamReady := false, selectedDeviceId := newDeviceId } element stream
    hvideo hsrc hlive hid hmodels rfl htimers (prun pass p)
    (by
      rcases hpass with rfl | rfl
      · left
        simp only [prun, changeCamera, List.foldl_cons, List.foldl_nil, hstep]
        rfl
      · right
        simp only [prun, changeCameraReady, List.foldl_cons, List.foldl_nil, hstep]
        rfl)
  obtain ⟨h1, h2, h3, h4, h5, h6⟩ := hmain
  refine ⟨h1, h2, h3, h4, h5, ?_⟩
  intro events hev
  obtain ⟨r1, _, r3⟩ := quiet_run events (prun pass p) hev h4 h5
  exact ⟨r3.trans h6, r1⟩

/-- Witness of the amended C14: the change to camera B in the state of the
counterexample, followed by a tick, a run of the interval effect and the late
settlement: stream 2 is released, B requested, and no detector call is
issued. -/
theorem camera_change_release_then_acquire_witness :
    ((prun (changeCamera "B") (prun toSecondStream pipelineInit)).ops.drop
        (prun toSecondStream pipelineInit).ops.length).filter Op.isStreamOp
      = [.stopTracks 2, .detach, .getUserMedia (some "B")]
    ∧ (prun [.tick, .intervalCleanup, .intervalEffect,
          .detectionSettled "10:00:09" (some [sampleFace])]
        (prun (changeCamera "B") (prun toSecondStream pipelineInit))).ops.count .detect
      = (prun toSecondStream pipelineInit).ops.count .detect := by
  have H := camera_change_release_then_acquire (prun toSecondStream pipelineInit)
    ⟨some 2, true, false, 0, 0⟩ 2 "B" (changeCamera "B") (Or.inl rfl)
    (by decide) rfl (by decide) (by decide) (by decide) (by decide) (by decide)
  refine ⟨H.1, (H.2.2.2.2.2 _ ?_).1⟩
  intro e he
  simp only [List.mem_cons, List.mem_singleton, List.not_mem_nil, or_false] at he
  rcases he with rfl | rfl | rfl | rfl <;> exact fun h => PEvent.noConfusion h

/-! ## The pipeline: release when the stream should not be active -/

/-- The release the stream effect makes while the video element is mounted:
from every state in which the live tool is not active, or no device is
selected, or the models are not loaded, every track of the stream attached to
the mounted video element is stopped (it is no longer among the open streams)
and the stream is detached, in that order; `isWebcamReady` is false; the timer
handle is empty and the timer it held is cleared. A stream that is not
attached to a mounted element is not reached. -/
theorem streamEffect_releases (p : Pipeline)
    (h : ¬(p.activeTool = .live ∧ p.selectedDeviceId ≠ "" ∧ p.modelsLoaded = true)) :
    (∀ element stream, p.video = some element → element.srcObject = some stream →
        stream ∉ (streamEffect p).liveStreams
          ∧ (streamEffect p).video = some { element with srcObject := none }
          ∧ ((streamEffect p).ops.drop p.ops.length).filter Op.isStreamOp
              = [.stopTracks stream, .detach])
      ∧ (∀ element, (streamEffect p).video = some element → element.srcObject = none)
      ∧ (streamEffect p).isWebcamReady = false
      ∧ (streamEffect p).detectionIntervalRef = none
      ∧ (∀ timer, p.detectionIntervalRef = some timer →
          timer ∉ (streamEffect p).timers
            ∧ .clearInterval timer ∈ (streamEffect p).ops) := by
  have hs : shouldStream p = false := by
    simp only [shouldStream, Bool.and_eq_false_iff, decide_eq_false_iff_not]
    by_contra hc
    push_neg at hc
    exact h ⟨hc.1.1, by simpa using hc.1.2, by simpa using hc.2⟩
  obtain ⟨activeTool, modelsLoaded, isWebcamReady, isDetecting, error, showCameraSelector,
    videoDevices, selectedDeviceId, cells, video, canvas, detectionIntervalRef, liveStreams,
    streamCount, timers, timerCount, loadPending, probing, enumerating, acquiring,
    outstanding, ops⟩ := p
  simp only [streamEffect, hs]
  clear h hs
  cases video with
  | none =>
    cases detectionIntervalRef <;>
    simp [Pipeline.stopStreamAndClearDetections, stopTracks, clearDetectionInterval]
  | some element =>
    obtain ⟨srcObject, paused, ended, videoWidth, videoHeight⟩ := element
    cases srcObject <;> cases detectionIntervalRef <;>
    simp [Pipeline.stopStreamAndClearDetections, stopTracks, clearDetectionInterval,
      Op.isStreamOp, List.filter] <;>
    (try (rintro element stream rfl; simp)) <;>
    (try (rintro rfl; simp))

/-- C15: evaluation at the failing input. Detection runs on camera A, whose
stream 1 is attached to the video element of the live view, and the user opens
the analytics tool. The live view is unmounted when the render is committed,
before the effects run, so `videoRef.current` is `null` when the cleanup of
the stream effect and then its body (the predicate is false: the live tool is
not active) call `stopStreamAndClearDetections`: `isWebcamReady` is lowered
and the timer cleared, but no track is stopped and nothing is detached, by
either call, and stream 1 is still open after all effects have run, in the
scenario and equally when the effects are scheduled by `react`. -/
theorem tool_switch_keeps_stream_open :
    shouldStream (prun (toDetecting ++ [.selectTool .analytics, .liveViewUnmounted])
        pipelineInit) = false
      ∧ (prun (toDetecting ++ [.selectTool .analytics, .liveViewUnmounted])
          pipelineInit).liveStreams = [0, 1]
      ∧ (prun (toDetecting ++ [.selectTool .analytics, .liveViewUnmounted])
          pipelineInit).video = none
      ∧ (Pipeline.stopStreamAndClearDetections
          (prun (toDetecting ++ [.selectTool .analytics, .liveViewUnmounted])
            pipelineInit)).liveStreams = [0, 1]
      ∧ (streamEffect (prun (toDetecting ++ [.selectTool .analytics, .liveViewUnmounted])
          pipelineInit)).liveStreams = [0, 1]
      ∧ (streamEffect (prun (toDetecting ++ [.selectTool .analytics, .liveViewUnmounted])
          pipelineInit)).isWebcamReady = false
      ∧ (streamEffect (prun (toDetecting ++ [.selectTool .analytics, .liveViewUnmounted])
          pipelineInit)).detectionIntervalRef = none
      ∧ (streamEffect (prun (toDetecting ++ [.selectTool .analytics, .liveViewUnmounted])
          pipelineInit)).timers = []
      ∧ (prun (toDetecting ++ leaveLiveView) pipelineInit).ops.filter Op.isStreamOp
          = [.getUserMedia none, .getUserMedia (some "A"), .attach 1]
      ∧ (rrun (detectingEvents ++ [.selectTool .analytics]) pipelineInit).liveStreams = [0, 1]
      ∧ (rrun (detectingEvents ++ [.selectTool .analytics]) pipelineInit).video = none := by
  refine ⟨by decide, by decide, by decide, by decide, by decide, by decide, by decide,
    by decide, by decide, by decide, by decide⟩

/-! ## The pipeline: the detection timer -/

/-- Every event keeps the set timers equal to what the handle holds. -/
theorem timers_step (p : Pipeline) (e : PEvent)
    (h : p.timers = p.detectionIntervalRef.toList) :
    (pstep p e).timers = (pstep p e).detectionIntervalRef.toList := by
  cases e
  all_goals
    simp only [pstep, loadModelsResume, getVideoDevices, getVideoDevicesProbed,
      getVideoDevicesEnumerated, Pipeline.stopStreamAndClearDetections, streamEffect,
      startVideoStreamResume, clearDetectionInterval, stopTracks, intervalEffect,
      handleVideoCanPlay, handleCameraChange, handleCapture, runDetectionBegin,
      runDetectionResume]
    repeat' split
    all_goals simp_all

/-- In every reachable state the set timers are what the handle holds. -/
theorem timers_run (events : List PEvent) (p : Pipeline)
    (h : p.timers = p.detectionIntervalRef.toList) :
    (prun events p).timers = (prun events p).detectionIntervalRef.toList := by
  induction events generalizing p with
  | nil => exact h
  | cons e events ih => exact ih (pstep p e) (timers_step p e h)

/-- The interval effect on a state whose timers are what the handle holds. -/
theorem intervalEffect_timer (p : Pipeline) (h : p.timers = p.detectionIntervalRef.toList) :
    ((intervalEffect p).detectionIntervalRef.isSome = shouldBeDetecting p)
      ∧ (intervalEffect p).timers = (intervalEffect p).detectionIntervalRef.toList
      ∧ shouldBeDetecting (intervalEffect p) = shouldBeDetecting p
      ∧ (intervalEffect p).isDetecting = shouldBeDetecting p := by
  obtain ⟨activeTool, modelsLoaded, isWebcamReady, isDetecting, error, showCameraSelector,
    videoDevices, selectedDeviceId, cells, video, canvas, detectionIntervalRef, liveStreams,
    streamCount, timers, timerCount, loadPending, probing, enumerating, acquiring,
    outstanding, ops⟩ := p
  simp only at h
  subst h
  cases hg : (decide (activeTool = Tool.live) && isWebcamReady && modelsLoaded) <;>
  cases detectionIntervalRef <;> cases isDetecting <;>
  simp [intervalEffect, shouldBeDetecting, hg, clearDetectionInterval]

/-- C16: in every reachable state at most one timer is set, and after the
interval effect has run the timer is set exactly when the composite guard
holds (live tool, webcam ready, models loaded): with the guard false the
effect leaves no timer, with the guard true it leaves exactly one, and it
leaves `isDetecting` equal to the guard. -/
theorem interval_timer_iff_guard (events : List PEvent) :
    (prun events pipelineInit).timers.length ≤ 1
      ∧ ((intervalEffect (prun events pipelineInit)).detectionIntervalRef.isSome
          = shouldBeDetecting (prun events pipelineInit))
      ∧ (shouldBeDetecting (prun events pipelineInit) = false →
          (intervalEffect (prun events pipelineInit)).timers = [])
      ∧ (shouldBeDetecting (prun events pipelineInit) = true →
          ∃ timer, (intervalEffect (prun events pipelineInit)).timers = [timer]
            ∧ (intervalEffect (prun events pipelineInit)).detectionIntervalRef = some timer)
      ∧ (intervalEffect (prun events pipelineInit)).timers.length ≤ 1
      ∧ (intervalEffect (prun events pipelineInit)).isDetecting
          = shouldBeDetecting (prun events pipelineInit) := by
  have hinv := timers_run events pipelineInit rfl
  obtain ⟨h1, h2, _, h4⟩ := intervalEffect_timer (prun events pipelineInit) hinv
  have hlen : ∀ o : Option ℕ, o.toList.length ≤ 1 := by
    intro o
    cases o <;> simp
  refine ⟨by rw [hinv]; exact hlen _, h1, ?_, ?_, by rw [h2]; exact hlen _, h4⟩
  · intro hg
    rw [hg] at h1
    rw [h2]
    cases hr : (intervalEffect (prun events pipelineInit)).detectionIntervalRef with
    | none => rfl
    | some t => rw [hr] at h1; simp at h1
  · intro hg
    rw [hg] at h1
    cases hr : (intervalEffect (prun events pipelineInit)).detectionIntervalRef with
    | none => rw [hr] at h1; simp at h1
    | some t => exact ⟨t, by rw [h2, hr]; rfl, rfl⟩

/-- C17: stopping the schedule twice is stopping it once, for each of the ways
the code stops it: the clearing block, the interval effect with its guard
false, and `stopStreamAndClearDetections`. The second stop changes nothing
(it calls no `clearInterval`) and the handle is absent. -/
theorem stop_schedule_idempotent (p : Pipeline) :
    clearDetectionInterval (clearDetectionInterval p) = clearDetectionInterval p
      ∧ (clearDetectionInterval p).detectionIntervalRef = none
      ∧ (shouldBeDetecting p = false →
          intervalEffect (intervalEffect p) = intervalEffect p
            ∧ (intervalEffect p).detectionIntervalRef = none)
      ∧ p.stopStreamAndClearDetections.stopStreamAndClearDetections
          = p.stopStreamAndClearDetections
      ∧ p.stopStreamAndClearDetections.detectionIntervalRef = none := by
  obtain ⟨activeTool, modelsLoaded, isWebcamReady, isDetecting, error, showCameraSelector,
    videoDevices, selectedDeviceId, cells, video, canvas, detectionIntervalRef, liveStreams,
    streamCount, timers, timerCount, loadPending, probing, enumerating, acquiring,
    outstanding, ops⟩ := p
  refine ⟨?_, ?_, ?_, ?_, ?_⟩
  · cases detectionIntervalRef <;> simp [clearDetectionInterval]
  · cases detectionIntervalRef <;> simp [clearDetectionInterval]
  · intro hg
    have hg2 : (decide (activeTool = Tool.live) && isWebcamReady && modelsLoaded) = false := by
      simpa [shouldBeDetecting] using hg
    cases detectionIntervalRef <;> cases isDetecting <;>
    simp [intervalEffect, shouldBeDetecting, hg2, clearDetectionInterval]
  · cases video with
    | none =>
      cases detectionIntervalRef <;>
      simp [Pipeline.stopStreamAndClearDetections, stopTracks, clearDetectionInterval,
        Gredu.stopStreamAndClearDetections]
    | some element =>
      obtain ⟨srcObject, paused, ended, videoWidth, videoHeight⟩ := element
      cases srcObject <;> cases detectionIntervalRef <;>
      simp [Pipeline.stopStreamAndClearDetections, stopTracks, clearDetectionInterval,
        Gredu.stopStreamAndClearDetections]
  · cases video with
    | none =>
      cases detectionIntervalRef <;>
      simp [Pipeline.stopStreamAndClearDetections, stopTracks, clearDetectionInterval]
    | some element =>
      obtain ⟨srcObject, paused, ended, videoWidth, videoHeight⟩ := element
      cases srcObject <;> cases detectionIntervalRef <;>
      simp [Pipeline.stopStreamAndClearDetections, stopTracks, clearDetectionInterval]

/-- Witness of C17: in the detecting state with the tool set to analytics the
interval effect clears timer 2, and running it again calls no further
`clearInterval`. -/
theorem stop_schedule_idempotent_witness :
    (intervalEffect (intervalEffect
        (pstep (prun toDetecting pipelineInit) (.selectTool .analytics)))).ops
      = (prun toDetecting pipelineInit).ops ++ [.clearInterval 2] := by
  have H := (stop_schedule_idempotent
    (pstep (prun toDetecting pipelineInit) (.selectTool .analytics))).2.2.1 (by decide)
  rw [H.1]
  decide

/-! ## The pipeline: device discovery -/

/-- The character test is containment as a contiguous run. -/
theorem charsInclude_iff (haystack needle : List Char) :
    charsInclude haystack needle = true ↔ needle <:+: haystack := by
  induction haystack with
  | nil => simp [charsInclude, List.isEmpty_iff]
  | cons c cs ih =>
    simp only [charsInclude, Bool.or_eq_true, List.isPrefixOf_iff_prefix, ih,
      List.infix_cons_iff]

/-- The first video input whose label matches is what `find` returns. -/
theorem find_first_match (pre post : List DeviceInfo) (d : DeviceInfo)
    (hpre : ∀ x ∈ pre, labelMatches x.label = false) (hd : labelMatches d.label = true) :
    (pre ++ d :: post).find? (fun x => labelMatches x.label) = some d := by
  induction pre with
  | nil => simp [hd]
  | cons a pre ih =>
    have ha : labelMatches a.label = false := hpre a (List.mem_cons_self _ _)
    simp only [List.cons_append, List.find?_cons, ha]
    exact ih (fun x hx => hpre x (List.mem_cons_of_mem _ hx))

/-- C18: for every enumerated device list, discovery keeps exactly the
devices of kind `videoinput`, in enumeration order; it selects the first of
them whose lower-cased label contains `iphone`, or the first video input when
no label does; with no video input it leaves the selection as it was and sets
the error `No video input devices found.`. -/
theorem discovery_selects (devices : List DeviceInfo) (p : Pipeline) :
    (getVideoDevicesEnumerated (some devices) p).videoDevices
        = devices.filter (fun d => d.kind = "videoinput")
      ∧ (∀ label, labelMatches label = true
          ↔ "iphone".data <:+: label.data.map Char.toLower)
      ∧ (∀ pre d post, devices.filter (fun d => d.kind = "videoinput") = pre ++ d :: post →
          (∀ x ∈ pre, labelMatches x.label = false) → labelMatches d.label = true →
          (getVideoDevicesEnumerated (some devices) p).selectedDeviceId = d.deviceId
            ∧ (getVideoDevicesEnumerated (some devices) p).showCameraSelector = true
            ∧ (getVideoDevicesEnumerated (some devices) p).error = p.error)
      ∧ (∀ d rest, devices.filter (fun d => d.kind = "videoinput") = d :: rest →
          (∀ x ∈ d :: rest, labelMatches x.label = false) →
          (getVideoDevicesEnumerated (some devices) p).selectedDeviceId = d.deviceId
            ∧ (getVideoDevicesEnumerated (some devices) p).showCameraSelector = true
            ∧ (getVideoDevicesEnumerated (some devices) p).error = p.error)
      ∧ (devices.filter (fun d => d.kind = "videoinput") = [] →
          (getVideoDevicesEnumerated (some devices) p).selectedDeviceId = p.selectedDeviceId
            ∧ (getVideoDevicesEnumerated (some devices) p).showCameraSelector
                = p.showCameraSelector
            ∧ (getVideoDevicesEnumerated (some devices) p).error
                = some "No video input devices found.") := by
  refine ⟨?_, ?_, ?_, ?_, ?_⟩
  · simp only [getVideoDevicesEnumerated]
    split <;> rfl
  · intro label
    exact charsInclude_iff _ _
  · intro pre d post hsplit hpre hd
    have hfind := find_first_match pre post d hpre hd
    simp only [getVideoDevicesEnumerated, hsplit]
    cases pre with
    | nil => simp [hd]
    | cons a pre =>
      simp only [List.cons_append] at hfind ⊢
      simp [hfind]
  · intro d rest hsplit hnone
    have hfind : (d :: rest).find? (fun x => labelMatches x.label) = none := by
      rw [List.find?_eq_none]
      intro x hx
      simp [hnone x hx]
    simp only [getVideoDevicesEnumerated, hsplit]
    simp [hfind]
  · intro hnil
    simp [getVideoDevicesEnumerated, hnil]

/-- Witness of C18: a microphone, camera A and a camera labelled
`Studio IPHONE Camera` are enumerated; the two cameras are kept and the
second is selected. -/
theorem discovery_selects_witness :
    (getVideoDevicesEnumerated (some [microphone, cameraA, cameraPhone])
        pipelineInit).videoDevices = [cameraA, cameraPhone]
      ∧ (getVideoDevicesEnumerated (some [microphone, cameraA, cameraPhone])
          pipelineInit).selectedDeviceId = "P" := by
  have H := discovery_selects [microphone, cameraA, cameraPhone] pipelineInit
  refine ⟨?_, ?_⟩
  · rw [H.1]; decide
  · exact (H.2.2.1 [cameraA] cameraPhone [] (by decide)
      (by intro x hx; simp at hx; subst hx; decide) (by decide)).1

/-! ## The pipeline: model loading -/

/-- Once `loadModels` has settled, no event changes `modelsLoaded`. -/
theorem settled_step (p : Pipeline) (e : PEvent) (h : p.loadPending = false) :
    (pstep p e).loadPending = false ∧ (pstep p e).modelsLoaded = p.modelsLoaded := by
  cases e
  all_goals
    simp only [pstep, loadModelsResume, getVideoDevices, getVideoDevicesProbed,
      getVideoDevicesEnumerated, Pipeline.stopStreamAndClearDetections, streamEffect,
      startVideoStreamResume, clearDetectionInterval, stopTracks, intervalEffect,
      handleVideoCanPlay, handleCameraChange, handleCapture, runDetectionBegin,
      runDetectionResume]
    repeat' split
    all_goals simp_all

/-- The same over a sequence of events. -/
theorem settled_run (events : List PEvent) (p : Pipeline) (h : p.loadPending = false) :
    (prun events p).loadPending = false ∧ (prun events p).modelsLoaded = p.modelsLoaded := by
  induction events generalizing p with
  | nil => exact ⟨h, rfl⟩
  | cons e events ih =>
    obtain ⟨s1, s2⟩ := settled_step p e h
    obtain ⟨r1, r2⟩ := ih (pstep p e) s1
    exact ⟨r1, r2.trans s2⟩

/-- An event other than the settlement of `loadModels` changes neither
`modelsLoaded` nor the pending load. -/
theorem pending_step (p : Pipeline) (e : PEvent)
    (he : ∀ d l x a m, e ≠ .modelsSettled d l x a m) :
    (pstep p e).loadPending = p.loadPending ∧ (pstep p e).modelsLoaded = p.modelsLoaded := by
  cases e
  case modelsSettled d l x a m => exact absurd rfl (he d l x a m)
  all_goals
    simp only [pstep, getVideoDevices, getVideoDevicesProbed,
      getVideoDevicesEnumerated, Pipeline.stopStreamAndClearDetections, streamEffect,
      startVideoStreamResume, clearDetectionInterval, stopTracks, intervalEffect,
      handleVideoCanPlay, handleCameraChange, handleCapture, runDetectionBegin,
      runDetectionResume]
    repeat' split
    all_goals simp_all

/-- The same over a sequence of events. -/
theorem pending_run (events : List PEvent) (p : Pipeline)
    (he : ∀ e ∈ events, ∀ d l x a m, e ≠ .modelsSettled d l x a m) :
    (prun events p).loadPending = p.loadPending
      ∧ (prun events p).modelsLoaded = p.modelsLoaded := by
  induction events generalizing p with
  | nil => exact ⟨rfl, rfl⟩
  | cons e events ih =>
    obtain ⟨s1, s2⟩ := pending_step p e (he e (List.mem_cons_self _ _))
    obtain ⟨r1, r2⟩ := ih (pstep p e) (fun x hx => he x (List.mem_cons_of_mem _ hx))
    exact ⟨r1.trans s1, r2.trans s2⟩

/-- C19: `modelsLoaded` is false until `loadModels` settles; at the settlement
it becomes true exactly when all four loads were fulfilled; after a rejection
it is false and the error is set to the load-failure message; and whatever
happens afterwards, further settlements included, `modelsLoaded` keeps the
value the settlement gave it (nothing loads again). -/
theorem modelsLoaded_iff_all_loads (pre : List PEvent)
    (detector landmarks expression ageGender : Bool) (message : String)
    (hpre : ∀ e ∈ pre, ∀ d l x a m, e ≠ .modelsSettled d l x a m) :
    (prun pre pipelineInit).modelsLoaded = false
      ∧ ((pstep (prun pre pipelineInit)
            (.modelsSettled detector landmarks expression ageGender message)).modelsLoaded = true
          ↔ detector = true ∧ landmarks = true ∧ expression = true ∧ ageGender = true)
      ∧ (¬(detector = true ∧ landmarks = true ∧ expression = true ∧ ageGender = true) →
          (pstep (prun pre pipelineInit)
            (.modelsSettled detector landmarks expression ageGender message)).error
              = some ("Failed to load AI models: " ++ message ++ ". Check public/models."))
      ∧ ∀ post : List PEvent,
          (prun post (pstep (prun pre pipelineInit)
            (.modelsSettled detector landmarks expression ageGender message))).modelsLoaded
          = (pstep (prun pre pipelineInit)
            (.modelsSettled detector landmarks expression ageGender message)).modelsLoaded := by
  obtain ⟨hpend, hfalse⟩ := pending_run pre pipelineInit hpre
  have hpend2 : (prun pre pipelineInit).loadPending = true := hpend
  have hfalse2 : (prun pre pipelineInit).modelsLoaded = false := hfalse
  have hstep : pstep (prun pre pipelineInit)
      (.modelsSettled detector landmarks expression ageGender message)
      = loadModelsResume detector landmarks expression ageGender message
          (prun pre pipelineInit) := by
    simp only [pstep, hpend2, if_true]
  refine ⟨hfalse2, ?_, ?_, ?_⟩
  · rw [hstep]
    cases detector <;> cases landmarks <;> cases expression <;> cases ageGender <;>
    simp [loadModelsResume, hfalse2]
  · intro hnot
    rw [hstep]
    cases detector <;> cases landmarks <;> cases expression <;> cases ageGender <;>
    simp_all [loadModelsResume]
  · intro post
    have hdone : (pstep (prun pre pipelineInit)
        (.modelsSettled detector landmarks expression ageGender message)).loadPending
          = false := by
      rw [hstep]
      simp only [loadModelsResume]
      split <;> rfl
    exact (settled_run post _ hdone).2

/-- Witness of C19: the expression model fails to load at the first
settlement; `modelsLoaded` is false then and after a later, fully successful
settlement event. -/
theorem modelsLoaded_iff_all_loads_witness :
    (pstep (prun [.streamEffect, .intervalEffect] pipelineInit)
        (.modelsSettled true true false true "404")).modelsLoaded = false
      ∧ (prun [.devicesEffect, .modelsSettled true true true true ""]
          (pstep (prun [.streamEffect, .intervalEffect] pipelineInit)
            (.modelsSettled true true false true "404"))).modelsLoaded = false := by
  have H := modelsLoaded_iff_all_loads [.streamEffect, .intervalEffect] true true false true
    "404" (by
      intro e he
      simp only [List.mem_cons, List.mem_singleton, List.not_mem_nil, or_false] at he
      rcases he with rfl | rfl <;> intro d l x a m h <;> exact PEvent.noConfusion h)
  have hfalse : (pstep (prun [.streamEffect, .intervalEffect] pipelineInit)
      (.modelsSettled true true false true "404")).modelsLoaded = false := by decide
  exact ⟨hfalse, (H.2.2.2 _).trans hfalse⟩

/-! ## The pipeline: capture -/

/-- The release touches neither the tool, the flags of the models and of
detection, the selection, nor whether the elements are mounted; it lowers
`isWebcamReady`. -/
theorem stopStream_fields (p : Pipeline) :
    p.stopStreamAndClearDetections.activeTool = p.activeTool
      ∧ p.stopStreamAndClearDetections.modelsLoaded = p.modelsLoaded
      ∧ p.stopStreamAndClearDetections.selectedDeviceId = p.selectedDeviceId
      ∧ p.stopStreamAndClearDetections.videoDevices = p.videoDevices
      ∧ p.stopStreamAndClearDetections.video.isSome = p.video.isSome
      ∧ p.stopStreamAndClearDetections.canvas = p.canvas
      ∧ p.stopStreamAndClearDetections.isDetecting = p.isDetecting
      ∧ p.stopStreamAndClearDetections.isWebcamReady = false := by
  unfold Pipeline.stopStreamAndClearDetections clearDetectionInterval stopTracks
  dsimp only
  repeat' split
  all_goals simp_all

/-- Clearing the timer touches only the timer. -/
theorem clearDetectionInterval_fields (p : Pipeline) :
    (clearDetectionInterval p).activeTool = p.activeTool
      ∧ (clearDetectionInterval p).modelsLoaded = p.modelsLoaded
      ∧ (clearDetectionInterval p).selectedDeviceId = p.selectedDeviceId
      ∧ (clearDetectionInterval p).videoDevices = p.videoDevices
      ∧ (clearDetectionInterval p).video = p.video
      ∧ (clearDetectionInterval p).canvas = p.canvas
      ∧ (clearDetectionInterval p).isDetecting = p.isDetecting
      ∧ (clearDetectionInterval p).isWebcamReady = p.isWebcamReady
      ∧ (clearDetectionInterval p).liveStreams = p.liveStreams
      ∧ (clearDetectionInterval p).cells = p.cells := by
  unfold clearDetectionInterval
  split <;> simp

/-- The device effect touches only the probe. -/
theorem getVideoDevices_fields (p : Pipeline) :
    (getVideoDevices p).activeTool = p.activeTool
      ∧ (getVideoDevices p).modelsLoaded = p.modelsLoaded
      ∧ (getVideoDevices p).selectedDeviceId = p.selectedDeviceId
      ∧ (getVideoDevices p).videoDevices = p.videoDevices
      ∧ (getVideoDevices p).video = p.video
      ∧ (getVideoDevices p).canvas = p.canvas
      ∧ (getVideoDevices p).isDetecting = p.isDetecting
      ∧ (getVideoDevices p).isWebcamReady = p.isWebcamReady
      ∧ (getVideoDevices p).liveStreams = p.liveStreams
      ∧ (getVideoDevices p).cells = p.cells := by
  unfold getVideoDevices
  split <;> simp

/-- The stream effect touches neither the tool, the flags of the models and of
detection, the selection, nor whether the elements are mounted; it lowers
`isWebcamReady`. -/
theorem streamEffect_fields (p : Pipeline) :
    (streamEffect p).activeTool = p.activeTool
      ∧ (streamEffect p).modelsLoaded = p.modelsLoaded
      ∧ (streamEffect p).selectedDeviceId = p.selectedDeviceId
      ∧ (streamEffect p).videoDevices = p.videoDevices
      ∧ (streamEffect p).video.isSome = p.video.isSome
      ∧ (streamEffect p).canvas = p.canvas
      ∧ (streamEffect p).isDetecting = p.isDetecting
      ∧ (streamEffect p).isWebcamReady = false := by
  unfold streamEffect
  split
  · unfold clearDetectionInterval stopTracks
    dsimp only
    repeat' split
    all_goals simp_all
  · exact stopStream_fields p

/-- The interval effect touches only the timer and `isDetecting`, which it
sets to the guard of the render. -/
theorem intervalEffectRendered_fields (rendered p : Pipeline)
    (h : p.isDetecting = rendered.isDetecting) :
    (intervalEffectRendered rendered p).activeTool = p.activeTool
      ∧ (intervalEffectRendered rendered p).modelsLoaded = p.modelsLoaded
      ∧ (intervalEffectRendered rendered p).selectedDeviceId = p.selectedDeviceId
      ∧ (intervalEffectRendered rendered p).videoDevices = p.videoDevices
      ∧ (intervalEffectRendered rendered p).video = p.video
      ∧ (intervalEffectRendered rendered p).canvas = p.canvas
      ∧ (intervalEffectRendered rendered p).isDetecting = shouldBeDetecting rendered
      ∧ (intervalEffectRendered rendered p).isWebcamReady = p.isWebcamReady
      ∧ (intervalEffectRendered rendered p).liveStreams = p.liveStreams
      ∧ (intervalEffectRendered rendered p).cells = p.cells := by
  unfold intervalEffectRendered clearDetectionInterval
  dsimp only
  repeat' split
  all_goals simp_all

/-- Mounting or unmounting touches only the two elements. -/
theorem remount_fields (r p : Pipeline) :
    (remount r p).activeTool = p.activeTool
      ∧ (remount r p).modelsLoaded = p.modelsLoaded
      ∧ (remount r p).selectedDeviceId = p.selectedDeviceId
      ∧ (remount r p).videoDevices = p.videoDevices
      ∧ (remount r p).isDetecting = p.isDetecting
      ∧ (remount r p).isWebcamReady = p.isWebcamReady
      ∧ (remount r p).liveStreams = p.liveStreams
      ∧ (remount r p).cells = p.cells
      ∧ (remount r p).video.isSome
          = (if r.activeTool = .live ∧ p.activeTool ≠ .live then false
              else if r.activeTool ≠ .live ∧ p.activeTool = .live then true
              else p.video.isSome)
      ∧ (remount r p).canvas
          = (if r.activeTool = .live ∧ p.activeTool ≠ .live then false
              else if r.activeTool ≠ .live ∧ p.activeTool = .live then true
              else p.canvas) := by
  unfold remount
  split_ifs <;> simp

/-- With the tool unchanged, nothing is mounted or unmounted. -/
theorem remount_same (r p : Pipeline) (h : r.activeTool = p.activeTool) : remount r p = p := by
  unfold remount
  rw [h]
  split_ifs with h1 h2
  · exact absurd h1.1 h1.2
  · exact absurd h2.2 h2.1
  · rfl

/-- What one render and its effects do to the cells the interval effect
guards on and to the elements. -/
theorem commit_fields (f : Bool) (r p : Pipeline) :
    (commit f r p).activeTool = p.activeTool
      ∧ (commit f r p).modelsLoaded = p.modelsLoaded
      ∧ (commit f r p).selectedDeviceId = p.selectedDeviceId
      ∧ (commit f r p).videoDevices = p.videoDevices
      ∧ (commit f r p).isWebcamReady
          = (if (streamDepsChanged r p || f) = true then false else p.isWebcamReady)
      ∧ (commit f r p).isDetecting
          = (if intervalDepsChanged r p = true then shouldBeDetecting p else p.isDetecting)
      ∧ (commit f r p).video.isSome
          = (if r.activeTool = .live ∧ p.activeTool ≠ .live then false
              else if r.activeTool ≠ .live ∧ p.activeTool = .live then true
              else p.video.isSome)
      ∧ (commit f r p).canvas
          = (if r.activeTool = .live ∧ p.activeTool ≠ .live then false
              else if r.activeTool ≠ .live ∧ p.activeTool = .live then true
              else p.canvas) := by
  have hr := remount_fields r p
  obtain ⟨r1, r2, r3, r4, r5, r6, r7, r8, r9, r10⟩ := hr
  rw [← r9, ← r10]
  unfold commit
  generalize (streamDepsChanged r p || f) = sc
  generalize intervalDepsChanged r p = ic
  generalize decide (r.modelsLoaded ≠ p.modelsLoaded) = dc
  cases sc <;> cases ic <;> cases dc <;>
    simp [stopStream_fields, clearDetectionInterval_fields,
      getVideoDevices_fields, streamEffect_fields, intervalEffectRendered_fields,
      r1, r2, r3, r4, r5, r6]

/-- A render after which no dependency of the stream effect has changed leaves
the elements, the streams and the data cells alone; if no dependency of the
interval effect has changed either, it leaves everything alone. -/
theorem commit_quiet (r p : Pipeline) (h : streamDepsChanged r p = false) :
    (commit false r p).video = p.video ∧ (commit false r p).liveStreams = p.liveStreams
      ∧ (commit false r p).cells = p.cells
      ∧ (intervalDepsChanged r p = false → commit false r p = p) := by
  have h0 := h
  simp only [streamDepsChanged, Bool.or_eq_false_iff, decide_eq_false_iff_not, not_not] at h0
  obtain ⟨⟨⟨ht, _⟩, hm⟩, _⟩ := h0
  have hdc : decide (r.modelsLoaded ≠ p.modelsLoaded) = false := by simp [hm]
  unfold commit
  simp only [h, hdc, remount_same r p ht, Bool.or_false, if_false, Bool.false_eq_true]
  generalize intervalDepsChanged r p = ic
  cases ic <;> simp [clearDetectionInterval_fields, intervalEffectRendered_fields]

/-- The stream predicate reads only the video element and the open streams. -/
theorem streamActive_congr (p q : Pipeline) (hv : q.video = p.video)
    (hl : q.liveStreams = p.liveStreams) : streamActive q = streamActive p := by
  unfold streamActive
  rw [hv, hl]

/-- The guard of the interval effect reads only three cells. -/
theorem shouldBeDetecting_congr (p q : Pipeline) (ha : q.activeTool = p.activeTool)
    (hw : q.isWebcamReady = p.isWebcamReady) (hm : q.modelsLoaded = p.modelsLoaded) :
    shouldBeDetecting q = shouldBeDetecting p := by
  unfold shouldBeDetecting
  rw [ha, hw, hm]

/-- After the renders and effect passes that follow a handler, the state is
consistent again: the elements are mounted exactly in the live tool,
`isWebcamReady` implies an attached stream with unstopped tracks, and
`isDetecting` equals the guard of the interval effect. Here `r` is the
consistent state the handler ran in and `p` the state it left, in which it has
neither mounted an element nor written `isDetecting`. -/
theorem settle_consistent (f : Bool) (r p : Pipeline)
    (hr1 : r.video.isSome = decide (r.activeTool = .live))
    (hr2 : r.canvas = decide (r.activeTool = .live))
    (hr3 : r.isDetecting = shouldBeDetecting r)
    (hp1 : p.video.isSome = r.video.isSome) (hp2 : p.canvas = r.canvas)
    (hp3 : p.isDetecting = r.isDetecting)
    (hp4 : p.isWebcamReady = true → streamActive p = true) :
    (settle 3 f r p).video.isSome = decide ((settle 3 f r p).activeTool = .live)
      ∧ (settle 3 f r p).canvas = decide ((settle 3 f r p).activeTool = .live)
      ∧ ((settle 3 f r p).isWebcamReady = true → streamActive (settle 3 f r p) = true)
      ∧ (settle 3 f r p).isDetecting = shouldBeDetecting (settle 3 f r p) := by
  have hq : settle 3 f r p
      = commit false (commit f r p) (commit false p (commit f r p)) := rfl
  rw [hq]
  obtain ⟨a1, m1, s1, v1, w1, d1, e1, n1⟩ := commit_fields f r p
  have sd2 : streamDepsChanged p (commit f r p) = false := by
    simp [streamDepsChanged, a1, m1, s1, v1]
  obtain ⟨kv2, kl2, _, kq2⟩ := commit_quiet p (commit f r p) sd2
  obtain ⟨a2, m2, s2, v2, w2, d2, e2, n2⟩ := commit_fields false p (commit f r p)
  have sd3 : streamDepsChanged (commit f r p) (commit false p (commit f r p)) = false := by
    simp [streamDepsChanged, a2, m2, s2, v2]
  obtain ⟨kv3, kl3, _, kq3⟩ := commit_quiet (commit f r p) (commit false p (commit f r p)) sd3
  obtain ⟨a3, m3, s3, v3, w3, d3, e3, n3⟩ :=
    commit_fields false (commit f r p) (commit false p (commit f r p))
  simp only [sd2, Bool.or_false, Bool.false_eq_true, if_false] at w2
  simp only [sd3, Bool.or_false, Bool.false_eq_true, if_false] at w3
  have hact : streamActive (commit false (commit f r p) (commit false p (commit f r p)))
      = streamActive (commit f r p) := by
    rw [streamActive_congr _ _ kv3 kl3, streamActive_congr _ _ kv2 kl2]
  have hguard3 : shouldBeDetecting (commit false (commit f r p) (commit false p (commit f r p)))
      = shouldBeDetecting (commit f r p) := by
    rw [shouldBeDetecting_congr _ _ a3 w3 m3, shouldBeDetecting_congr _ _ a2 w2 m2]
  have hguard2 : shouldBeDetecting (commit false p (commit f r p))
      = shouldBeDetecting (commit f r p) := shouldBeDetecting_congr _ _ a2 w2 m2
  refine ⟨?_, ?_, ?_, ?_⟩
  · rw [kv3, kv2, a3, a2, a1, e1, hp1, hr1]
    cases hra : r.activeTool <;> cases hpa : p.activeTool <;> simp
  · rw [n3, n2, a3, a2, a1, n1, hp2, hr2]
    cases hra : r.activeTool <;> cases hpa : p.activeTool <;> simp [a1, a2, hpa]
  · rw [hact, w3, w2, w1]
    intro hw
    cases hsc : (streamDepsChanged r p || f) with
    | true => simp [hsc] at hw
    | false =>
      simp only [hsc, Bool.false_eq_true, if_false] at hw
      have hf : f = false := by
        cases f
        · rfl
        · simp at hsc
      have hs : streamDepsChanged r p = false := by
        cases hx : streamDepsChanged r p
        · rfl
        · simp [hx] at hsc
      subst hf
      obtain ⟨kv1, kl1, _, _⟩ := commit_quiet r p hs
      rw [streamActive_congr _ _ kv1 kl1]
      exact hp4 hw
  · rw [hguard3, d3, hguard2, d2]
    by_cases hi3 : intervalDepsChanged (commit f r p) (commit false p (commit f r p)) = true
    · rw [if_pos hi3]
    · rw [if_neg hi3]
      by_cases hi2 : intervalDepsChanged p (commit f r p) = true
      · rw [if_pos hi2]
      · rw [if_neg hi2]
        simp only [intervalDepsChanged, Bool.or_eq_true, decide_eq_true_eq, not_or, not_not]
          at hi2
        obtain ⟨⟨⟨_, hw12⟩, _⟩, hd12⟩ := hi2
        rw [d1]
        by_cases hi1 : intervalDepsChanged r p = true
        · rw [if_pos hi1]
          exact shouldBeDetecting_congr _ _ a1.symm hw12 m1.symm
        · rw [if_neg hi1]
          simp only [intervalDepsChanged, Bool.or_eq_true, decide_eq_true_eq, not_or, not_not]
            at hi1
          obtain ⟨⟨⟨ha01, hw01⟩, hm01⟩, _⟩ := hi1
          rw [hp3, hr3]
          exact shouldBeDetecting_congr _ _ (ha01.trans a1.symm) (hw01.trans hw12)
            (hm01.trans m1.symm)

/-- A fourth pass changes nothing: after three passes no dependency of an
effect differs from the render before. -/
theorem settle_stable (f : Bool) (r p : Pipeline) : settle 4 f r p = settle 3 f r p := by
  have hq3 : settle 3 f r p
      = commit false (commit f r p) (commit false p (commit f r p)) := rfl
  have hq4 : settle 4 f r p
      = commit false (commit false p (commit f r p))
          (commit false (commit f r p) (commit false p (commit f r p))) := rfl
  rw [hq4, hq3]
  obtain ⟨a1, m1, s1, v1, w1, d1, e1, n1⟩ := commit_fields f r p
  have sd2 : streamDepsChanged p (commit f r p) = false := by
    simp [streamDepsChanged, a1, m1, s1, v1]
  obtain ⟨a2, m2, s2, v2, w2, d2, e2, n2⟩ := commit_fields false p (commit f r p)
  have sd3 : streamDepsChanged (commit f r p) (commit false p (commit f r p)) = false := by
    simp [streamDepsChanged, a2, m2, s2, v2]
  obtain ⟨a3, m3, s3, v3, w3, d3, e3, n3⟩ :=
    commit_fields false (commit f r p) (commit false p (commit f r p))
  simp only [sd2, Bool.or_false, Bool.false_eq_true, if_false] at w2
  simp only [sd3, Bool.or_false, Bool.false_eq_true, if_false] at w3
  have sd4 : streamDepsChanged (commit false p (commit f r p))
      (commit false (commit f r p) (commit false p (commit f r p))) = false := by
    simp [streamDepsChanged, a3, m3, s3, v3]
  have hd : (commit false (commit f r p) (commit false p (commit f r p))).isDetecting
      = (commit false p (commit f r p)).isDetecting := by
    rw [d3]
    by_cases hi3 : intervalDepsChanged (commit f r p) (commit false p (commit f r p)) = true
    · rw [if_pos hi3, d2]
      have hne : (commit f r p).isDetecting ≠ (commit false p (commit f r p)).isDetecting := by
        intro heq
        simp [intervalDepsChanged, a2, w2, m2, heq] at hi3
      by_cases hi2 : intervalDepsChanged p (commit f r p) = true
      · rw [if_pos hi2]
        exact shouldBeDetecting_congr _ _ a2 w2 m2
      · rw [d2, if_neg hi2] at hne
        exact absurd rfl hne
    · rw [if_neg hi3]
  have id4 : intervalDepsChanged (commit false p (commit f r p))
      (commit false (commit f r p) (commit false p (commit f r p))) = false := by
    simp [intervalDepsChanged, a3, m3, w3, hd]
  exact (commit_quiet _ _ sd4).2.2.2 id4

/-- A handler that changes no dependency of an effect is followed by no
effect. -/
theorem settle_quiet (r p : Pipeline) (hs : streamDepsChanged r p = false)
    (hi : intervalDepsChanged r p = false) : settle 3 false r p = p := by
  have hq : settle 3 false r p
      = commit false (commit false r p) (commit false p (commit false r p)) := rfl
  have h1 : commit false r p = p := (commit_quiet r p hs).2.2.2 hi
  have hs0 : streamDepsChanged p p = false := by simp [streamDepsChanged]
  have hi0 : intervalDepsChanged p p = false := by simp [intervalDepsChanged]
  have h2 : commit false p p = p := (commit_quiet p p hs0).2.2.2 hi0
  rw [hq, h1, h2, h2]


/-- A stream that is attached and open stays so when the element keeps its
stream and no open stream is closed. -/
theorem streamActive_mono (p q : Pipeline) (hv : q.video = p.video)
    (hl : ∀ s ∈ p.liveStreams, s ∈ q.liveStreams) (h : streamActive p = true) :
    streamActive q = true := by
  unfold streamActive at h ⊢
  rw [hv]
  cases hvid : p.video with
  | none => rw [hvid] at h; exact absurd h (by simp)
  | some element =>
    rw [hvid] at h
    simp only at h ⊢
    cases hsrc : element.srcObject with
    | none => rw [hsrc] at h; exact absurd h (by simp)
    | some stream =>
      rw [hsrc] at h
      simp only [decide_eq_true_eq] at h ⊢
      exact hl stream h

/-- A handler or resumed function mounts no element and does not write
`isDetecting`, and it leaves `isWebcamReady` raised only with an open stream
attached. -/
theorem handler_keeps (r : Pipeline) (e : PEvent) (hposs : eventPossible r e = true)
    (hext : e.isExternal = true)
    (hr4 : r.isWebcamReady = true → streamActive r = true) :
    (pstep r e).video.isSome = r.video.isSome
      ∧ (pstep r e).canvas = r.canvas
      ∧ (pstep r e).isDetecting = r.isDetecting
      ∧ ((pstep r e).isWebcamReady = true → streamActive (pstep r e) = true) := by
  cases e with
  | modelsSettled a b c d m =>
    simp only [pstep, loadModelsResume]
    repeat' split
    all_goals simp_all [streamActive]
  | probeSettled g =>
    simp only [pstep]
    split
    · exact ⟨rfl, rfl, rfl, hr4⟩
    · cases g with
      | false => exact ⟨rfl, rfl, rfl, hr4⟩
      | true =>
        refine ⟨rfl, rfl, rfl, fun h => ?_⟩
        exact streamActive_mono r _ rfl
          (fun s hs => by simp [getVideoDevicesProbed, hs]) (hr4 h)
  | enumerateSettled ds =>
    simp only [pstep, getVideoDevicesEnumerated]
    repeat' split
    all_goals simp_all [streamActive]
  | streamSettled dev f =>
    simp only [pstep, startVideoStreamResume]
    repeat' split
    all_goals simp_all [streamActive]
  | playback a b w h =>
    simp only [pstep]
    repeat' split
    all_goals simp_all [streamActive]
  | canPlay =>
    have hact : streamActive r = true := hposs
    simp only [pstep, handleVideoCanPlay]
    split
    · exact ⟨rfl, rfl, rfl, hr4⟩
    · exact ⟨rfl, rfl, rfl, fun _ => streamActive_mono r _ rfl (fun s hs => hs) hact⟩
  | cameraChange dev =>
    simp only [pstep, handleCameraChange]
    repeat' split
    all_goals simp_all [streamActive]
  | selectTool t =>
    simp only [pstep]
    all_goals simp_all [streamActive]
  | tick =>
    simp only [pstep, runDetectionBegin]
    repeat' split
    all_goals simp_all [streamActive]
  | detectionSettled now o =>
    simp only [pstep, runDetectionResume]
    repeat' split
    all_goals simp_all [streamActive]
  | captureClick =>
    simp only [pstep, handleCapture]
    repeat' split
    all_goals simp_all [streamActive]
  | resetSession =>
    simp only [pstep]
    all_goals simp_all [streamActive]
  | clearLog =>
    simp only [pstep]
    all_goals simp_all [streamActive]
  | devicesEffect => exact absurd hext (by decide)
  | streamCleanup => exact absurd hext (by decide)
  | streamEffect => exact absurd hext (by decide)
  | intervalCleanup => exact absurd hext (by decide)
  | intervalEffect => exact absurd hext (by decide)
  | liveViewMounted => exact absurd hext (by decide)
  | liveViewUnmounted => exact absurd hext (by decide)

/-- One event and the renders it causes keep the elements mounted exactly
under the live tool, `isWebcamReady` raised only with an open stream attached,
and `isDetecting` equal to the composite guard. -/
theorem react_consistent (p : Pipeline) (e : PEvent)
    (h1 : p.video.isSome = decide (p.activeTool = .live))
    (h2 : p.canvas = decide (p.activeTool = .live))
    (h3 : p.isWebcamReady = true → streamActive p = true)
    (h4 : p.isDetecting = shouldBeDetecting p) :
    (react p e).video.isSome = decide ((react p e).activeTool = .live)
      ∧ (react p e).canvas = decide ((react p e).activeTool = .live)
      ∧ ((react p e).isWebcamReady = true → streamActive (react p e) = true)
      ∧ (react p e).isDetecting = shouldBeDetecting (react p e) := by
  unfold react
  split
  · rename_i hcond
    rw [Bool.and_eq_true] at hcond
    obtain ⟨k1, k2, k3, k4⟩ := handler_keeps p e hcond.2 hcond.1 h3
    exact settle_consistent _ p (pstep p e) h1 h2 h4 k1 k2 k3 k4
  · exact ⟨h1, h2, h3, h4⟩

/-- The same after any sequence of events. -/
theorem rrun_consistent (events : List PEvent) (p : Pipeline)
    (h1 : p.video.isSome = decide (p.activeTool = .live))
    (h2 : p.canvas = decide (p.activeTool = .live))
    (h3 : p.isWebcamReady = true → streamActive p = true)
    (h4 : p.isDetecting = shouldBeDetecting p) :
    (rrun events p).video.isSome = decide ((rrun events p).activeTool = .live)
      ∧ (rrun events p).canvas = decide ((rrun events p).activeTool = .live)
      ∧ ((rrun events p).isWebcamReady = true → streamActive (rrun events p) = true)
      ∧ (rrun events p).isDetecting = shouldBeDetecting (rrun events p) := by
  induction events generalizing p with
  | nil => exact ⟨h1, h2, h3, h4⟩
  | cons e rest ih =>
    obtain ⟨k1, k2, k3, k4⟩ := react_consistent p e h1 h2 h3 h4
    exact ih (react p e) k1 k2 k3 k4

/-- The scheduled effects are those of the scenarios: up to a running
detection timer, and after the analytics tool has been opened, `rrun` on the
external events and `prun` on the scenario leave the same element, streams,
timers and flags. -/
theorem rrun_follows_scenarios :
    (rrun detectingEvents pipelineInit).video = (prun toDetecting pipelineInit).video
      ∧ (rrun detectingEvents pipelineInit).liveStreams
          = (prun toDetecting pipelineInit).liveStreams
      ∧ (rrun detectingEvents pipelineInit).timers = (prun toDetecting pipelineInit).timers
      ∧ (rrun detectingEvents pipelineInit).isWebcamReady
          = (prun toDetecting pipelineInit).isWebcamReady
      ∧ (rrun detectingEvents pipelineInit).isDetecting
          = (prun toDetecting pipelineInit).isDetecting
      ∧ (rrun (detectingEvents ++ [.selectTool .analytics]) pipelineInit).video
          = (prun (toDetecting ++ leaveLiveView) pipelineInit).video
      ∧ (rrun (detectingEvents ++ [.selectTool .analytics]) pipelineInit).liveStreams
          = (prun (toDetecting ++ leaveLiveView) pipelineInit).liveStreams
      ∧ (rrun (detectingEvents ++ [.selectTool .analytics]) pipelineInit).timers
          = (prun (toDetecting ++ leaveLiveView) pipelineInit).timers
      ∧ (rrun (detectingEvents ++ [.selectTool .analytics]) pipelineInit).isWebcamReady
          = (prun (toDetecting ++ leaveLiveView) pipelineInit).isWebcamReady
      ∧ (rrun (detectingEvents ++ [.selectTool .analytics]) pipelineInit).isDetecting
          = (prun (toDetecting ++ leaveLiveView) pipelineInit).isDetecting := by
  refine ⟨by decide, by decide, by decide, by decide, by decide, by decide, by decide,
    by decide, by decide, by decide⟩

/-- The handler `handleCapture` composes and downloads exactly under its
guard and alerts otherwise; the call made is the only difference to the
state. -/
theorem handleCapture_guarded (p : Pipeline) :
    (captureGuard p = true
        ↔ p.activeTool = .live ∧ p.video.isSome = true ∧ p.canvas = true
            ∧ p.cells.detectionsArray ≠ [])
      ∧ (captureGuard p = true → handleCapture p = { p with ops := p.ops ++ [.download] })
      ∧ (captureGuard p = false →
          handleCapture p = { p with ops := p.ops ++
            [.alert "Capture available only in Live Analysis with active detection."] }) := by
  refine ⟨?_, ?_, ?_⟩
  · simp [captureGuard, and_assoc]
  · intro h
    simp [handleCapture, h]
  · intro h
    simp [handleCapture, h]

/-- C20: in every state the application reaches from its first render, a
click on the capture button composes and downloads an image only when a stream
with unstopped tracks is attached (and `isWebcamReady` is up) and the overlay
holds at least one observation: there the handler passes its guard and the
download is the only difference to the state. Where the button is disabled the
click produces no image and changes nothing. Whenever the handler fails its
guard, in any state, it alerts and returns: no image, no state change. -/
theorem capture_requires_active_stream (events : List PEvent) :
    (captureButtonEnabled (rrun events pipelineInit) = true →
        react (rrun events pipelineInit) .captureClick
            = { rrun events pipelineInit with
                ops := (rrun events pipelineInit).ops ++ [.download] }
          ∧ streamActive (rrun events pipelineInit) = true
          ∧ (rrun events pipelineInit).isWebcamReady = true
          ∧ (rrun events pipelineInit).cells.detectionsArray ≠ [])
      ∧ (captureButtonEnabled (rrun events pipelineInit) = false →
          react (rrun events pipelineInit) .captureClick = rrun events pipelineInit)
      ∧ (∀ q : Pipeline, captureGuard q = false →
          handleCapture q = { q with ops := q.ops ++
            [.alert "Capture available only in Live Analysis with active detection."] }) := by
  obtain ⟨i1, i2, i3, i4⟩ := rrun_consistent events pipelineInit
    (by decide) (by decide) (by decide) (by decide)
  generalize rrun events pipelineInit = p at i1 i2 i3 i4 ⊢
  refine ⟨fun hb => ?_, fun hb => ?_, fun q hq => (handleCapture_guarded q).2.2 hq⟩
  · have hparts := hb
    simp [captureButtonEnabled, and_assoc] at hparts
    obtain ⟨hd, hlive, hframe, -⟩ := hparts
    have hready : p.isWebcamReady = true := by
      have hguard : shouldBeDetecting p = true := by rw [← i4]; exact hd
      simp only [shouldBeDetecting, Bool.and_eq_true] at hguard
      exact hguard.1.2
    have hguard : captureGuard p = true := by
      apply (handleCapture_guarded p).1.2
      refine ⟨hlive, ?_, ?_, hframe⟩
      · rw [i1]; simp [hlive]
      · rw [i2]; simp [hlive]
    have hstep : pstep p .captureClick = { p with ops := p.ops ++ [.download] } := by
      simp only [pstep, hb, if_true]
      exact (handleCapture_guarded p).2.1 hguard
    refine ⟨?_, i3 hready, hready, hframe⟩
    have hreact : react p .captureClick = settle 3 false p (pstep p .captureClick) := by
      simp [react, PEvent.isExternal, eventPossible, writesDevices]
    rw [hreact, hstep]
    exact settle_quiet p _ (by simp [streamDepsChanged]) (by simp [intervalDepsChanged])
  · have hstep : pstep p .captureClick = p := by
      simp [pstep, hb]
    have hreact : react p .captureClick = settle 3 false p (pstep p .captureClick) := by
      simp [react, PEvent.isExternal, eventPossible, writesDevices]
    rw [hreact, hstep]
    exact settle_quiet p p (by simp [streamDepsChanged]) (by simp [intervalDepsChanged])

/-- Witness of C20: while detection runs and a frame with one face is on the
overlay the button is enabled and the click downloads, with camera A's stream
attached and open; after a late result has arrived on the new video element,
before any stream is attached, the button is disabled and the click changes
nothing. -/
theorem capture_requires_active_stream_witness :
    captureButtonEnabled (rrun captureEvents pipelineInit) = true
      ∧ react (rrun captureEvents pipelineInit) .captureClick
          = { rrun captureEvents pipelineInit with
              ops := (rrun captureEvents pipelineInit).ops ++ [.download] }
      ∧ streamActive (rrun captureEvents pipelineInit) = true
      ∧ (rrun captureEvents pipelineInit).cells.detectionsArray = [sampleFace]
      ∧ captureButtonEnabled (rrun lateOverlayEvents pipelineInit) = false
      ∧ captureGuard (rrun lateOverlayEvents pipelineInit) = true
      ∧ streamActive (rrun lateOverlayEvents pipelineInit) = false
      ∧ react (rrun lateOverlayEvents pipelineInit) .captureClick
          = rrun lateOverlayEvents pipelineInit :=
  ⟨by decide,
    ((capture_requires_active_stream captureEvents).1 (by decide)).1,
    ((capture_requires_active_stream captureEvents).1 (by decide)).2.1,
    by decide, by decide, by decide, by decide,
    (capture_requires_active_stream lateOverlayEvents).2.1 (by decide)⟩

/-! ## A failed detector call -/

/-- C21: when the detector call of a tick rejects, the `catch` absorbs it:
the state after the settlement is the state before with one call fewer
outstanding, so overlay, snapshot, session cells, log, the timer and its
handle are unchanged, and a later tick that passes the entry conditions
issues a detector call again. -/
theorem detector_failure_changes_nothing (p : Pipeline) (now : String)
    (h : p.outstanding ≠ 0) :
    pstep p (.detectionSettled now none) = { p with outstanding := p.outstanding - 1 }
      ∧ (pstep p (.detectionSettled now none)).cells = p.cells
      ∧ (pstep p (.detectionSettled now none)).timers = p.timers
      ∧ (pstep p (.detectionSettled now none)).detectionIntervalRef = p.detectionIntervalRef
      ∧ (p.timers ≠ [] → runDetectionGuard p = true →
          (pstep (pstep p (.detectionSettled now none)) .tick).outstanding = p.outstanding
            ∧ (pstep (pstep p (.detectionSettled now none)) .tick).ops
                = p.ops ++ [.detect]) := by
  have hstep : pstep p (.detectionSettled now none)
      = { p with outstanding := p.outstanding - 1 } := by
    simp only [pstep, if_neg h, runDetectionResume, runDetection]
    rfl
  refine ⟨hstep, by rw [hstep], by rw [hstep], by rw [hstep], ?_⟩
  intro htimers hguard
  rw [hstep]
  have hguard2 : runDetectionGuard { p with outstanding := p.outstanding - 1 } = true := hguard
  simp only [pstep, htimers, if_false, runDetectionBegin, hguard2, if_true]
  exact ⟨by omega, trivial⟩

/-- Witness of C21: in the detecting state a tick's call rejects; the cells
are the initial ones, timer 2 stays set, and the next tick issues a call. -/
theorem detector_failure_changes_nothing_witness :
    (pstep (prun (toDetecting ++ [.tick]) pipelineInit)
        (.detectionSettled "10:00:01" none)).cells = initialState
      ∧ (pstep (prun (toDetecting ++ [.tick]) pipelineInit)
          (.detectionSettled "10:00:01" none)).timers = [2]
      ∧ (pstep (pstep (prun (toDetecting ++ [.tick]) pipelineInit)
          (.detectionSettled "10:00:01" none)) .tick).outstanding = 1 := by
  have H := detector_failure_changes_nothing (prun (toDetecting ++ [.tick]) pipelineInit)
    "10:00:01" (by decide)
  refine ⟨?_, ?_, ?_⟩
  · rw [H.2.1]; decide
  · rw [H.2.2.1]; decide
  · rw [(H.2.2.2.2 (by decide) (by decide)).1]; decide

/-! ## A first observation without an expression map -/

/-- C22: evaluation at the failing input. For a frame whose first observation
has no `expressions`, `getDominantEmotion` returns the object, the array
destructuring throws and the `catch` absorbs it: only the overlay is replaced.
The snapshot keeps its earlier values, no age is appended, no gender is
counted and no log entry is added. -/
theorem absent_expressions_only_overlay :
    applyDetections "10:00:00" [faceWithoutExpressions]
        { initialState with detectedEmotion := "happy", detectedAge := some (.finite 41) }
      = { initialState with
          detectedEmotion := "happy", detectedAge := some (.finite 41),
          detectionsArray := [faceWithoutExpressions] }
      ∧ (applyDetections "10:00:00" [faceWithoutExpressions]
          { initialState with detectedEmotion := "happy",
                              detectedAge := some (.finite 41) }).sessionAges = []
      ∧ (applyDetections "10:00:00" [faceWithoutExpressions]
          { initialState with detectedEmotion := "happy",
                              detectedAge := some (.finite 41) }).sessionGenders = []
      ∧ (applyDetections "10:00:00" [faceWithoutExpressions]
          { initialState with detectedEmotion := "happy",
                              detectedAge := some (.finite 41) }).detectionLog = [] := by
  have h := applyDetections_throw "10:00:00" faceWithoutExpressions []
    { initialState with detectedEmotion := "happy", detectedAge := some (.finite 41) } rfl
  refine ⟨h, by rw [h]; rfl, by rw [h]; rfl, by rw [h]; rfl⟩

/-! ## The dominant emotion of a map without negative scores -/

/-- On a non-empty map without negative scores the reduction ends on an entry
of the map, and on one that no entry outscores. -/
theorem foldl_dominantStep_mem (m : Expressions) (hne : m ≠ [])
    (hnn : ∀ x ∈ m, 0 ≤ x.2) :
    m.foldl dominantStep ("N/A", 0) ∈ m
      ∧ ∀ x ∈ m, x.2 ≤ (m.foldl dominantStep ("N/A", 0)).2 := by
  obtain ⟨hmax, pre, post, hsplit, hpost⟩ := foldl_dominantStep_spec m ("N/A", 0)
  refine ⟨?_, fun x hx => hmax x (List.mem_cons_of_mem _ hx)⟩
  generalize m.foldl dominantStep ("N/A", 0) = r at hsplit hpost ⊢
  cases pre with
  | nil =>
    simp only [List.nil_append, List.cons.injEq] at hsplit
    obtain ⟨hseed, hm⟩ := hsplit
    cases m with
    | nil => exact absurd rfl hne
    | cons a rest =>
      have ha : a ∈ post := hm ▸ List.mem_cons_self a rest
      have hlt := hpost a ha
      rw [← hseed] at hlt
      have h0 := hnn a (List.mem_cons_self _ _)
      exact absurd hlt (not_lt.mpr h0)
  | cons a pre2 =>
    simp only [List.cons_append, List.cons.injEq] at hsplit
    rw [hsplit.2]
    exact List.mem_append_right _ (List.mem_cons_self _ _)

/-- The label the reduction ends on is counted when no key is `'N/A'`. -/
theorem getDominantEmotion_entry_label (m : Expressions) (hne : m ≠ [])
    (hnn : ∀ x ∈ m, 0 ≤ x.2) :
    ∃ label : String, ∃ e ∈ m, e.1 = label ∧ (∀ x ∈ m, x.2 ≤ e.2)
      ∧ ((∀ x ∈ m, x.1 ≠ "N/A") →
          ∀ (now : String) (o : FaceObservation) (rest : List FaceObservation)
            (s : AppState), o.expressions = some m →
            (applyDetections now (o :: rest) s).sessionEmotionCounts
              = objIncrement s.sessionEmotionCounts label) := by
  obtain ⟨hmem, hmax⟩ := foldl_dominantStep_mem m hne hnn
  refine ⟨(m.foldl dominantStep ("N/A", 0)).1, m.foldl dominantStep ("N/A", 0), hmem, rfl,
    hmax, ?_⟩
  intro hkeys now o rest s hm
  rw [applyDetections_sessionEmotionCounts now o rest s _ _ (hm ▸ destructurePair_present m),
    if_neg (hkeys _ hmem)]

/-- C23: for every non-empty expression map whose scores are all non-negative,
`getDominantEmotion` returns an entry of the map (never the seed, also when
every score is 0) that no entry outscores; hence, when no key of the map is
`'N/A'`, a frame with such a first observation always increments the count of
the returned label. -/
theorem getDominantEmotion_entry_of_map (m : Expressions) (hne : m ≠ [])
    (hnn : ∀ x ∈ m, 0 ≤ x.2) :
    ∃ e ∈ m, getDominantEmotion (some m) = .pair e.1 e.2
      ∧ (∀ x ∈ m, x.2 ≤ e.2)
      ∧ ((∀ x ∈ m, x.1 ≠ "N/A") →
          e.1 ≠ "N/A"
            ∧ ∀ (now : String) (o : FaceObservation) (rest : List FaceObservation)
                (s : AppState), o.expressions = some m →
                (applyDetections now (o :: rest) s).sessionEmotionCounts
                  = objIncrement s.sessionEmotionCounts e.1) := by
  obtain ⟨hmem, hmax⟩ := foldl_dominantStep_mem m hne hnn
  refine ⟨m.foldl dominantStep ("N/A", 0), hmem, rfl, hmax, ?_⟩
  intro hkeys
  have hlabel := hkeys _ hmem
  refine ⟨hlabel, ?_⟩
  intro now o rest s hm
  rw [applyDetections_sessionEmotionCounts now o rest s _ _ (hm ▸ destructurePair_present m),
    if_neg hlabel]

/-- Witness of C23: a map whose scores are all 0 returns its last entry, not
the seed. -/
theorem getDominantEmotion_entry_of_map_witness :
    ∃ e ∈ [("happy", (0 : ℚ)), ("sad", (0 : ℚ))],
      getDominantEmotion (some [("happy", 0), ("sad", 0)]) = .pair e.1 e.2
        ∧ e.1 ≠ "N/A" := by
  obtain ⟨e, he, hres, _, hkeys⟩ := getDominantEmotion_entry_of_map
    [("happy", 0), ("sad", 0)] (by simp)
    (by intro x hx; simp at hx; rcases hx with rfl | rfl <;> simp)
  refine ⟨e, he, hres, (hkeys ?_).1⟩
  intro x hx
  simp at hx
  rcases hx with rfl | rfl <;> decide

/-! ## Teardown and the session -/

/-- C25: `stopStreamAndClearDetections` empties the overlay and resets the
snapshot, and leaves `sessionEmotionCounts`, `sessionAges`, `sessionGenders`
and `detectionLog` as they were; so does the whole stream effect, in either
branch. -/
theorem teardown_keeps_session (p : Pipeline) :
    p.stopStreamAndClearDetections.cells.detectionsArray = []
      ∧ p.stopStreamAndClearDetections.cells.detectedEmotion = "N/A"
      ∧ p.stopStreamAndClearDetections.cells.emotionConfidence = 0
      ∧ p.stopStreamAndClearDetections.cells.detectedAge = none
      ∧ p.stopStreamAndClearDetections.cells.detectedGender = none
      ∧ p.stopStreamAndClearDetections.cells.sessionEmotionCounts
          = p.cells.sessionEmotionCounts
      ∧ p.stopStreamAndClearDetections.cells.sessionAges = p.cells.sessionAges
      ∧ p.stopStreamAndClearDetections.cells.sessionGenders = p.cells.sessionGenders
      ∧ p.stopStreamAndClearDetections.cells.detectionLog = p.cells.detectionLog
      ∧ (streamEffect p).cells.sessionEmotionCounts = p.cells.sessionEmotionCounts
      ∧ (streamEffect p).cells.sessionAges = p.cells.sessionAges
      ∧ (streamEffect p).cells.sessionGenders = p.cells.sessionGenders
      ∧ (streamEffect p).cells.detectionLog = p.cells.detectionLog := by
  have hcells : p.stopStreamAndClearDetections.cells
      = Gredu.stopStreamAndClearDetections p.cells := by
    unfold Pipeline.stopStreamAndClearDetections clearDetectionInterval stopTracks
    dsimp only
    repeat' split
    all_goals rfl
  have hstream : (streamEffect p).cells = p.cells
      ∨ (streamEffect p).cells = Gredu.stopStreamAndClearDetections p.cells := by
    by_cases hs : shouldStream p = true
    · left
      simp only [streamEffect, hs, if_true]
      unfold clearDetectionInterval stopTracks
      repeat' split
      all_goals rfl
    · right
      simp only [streamEffect, hs]
      exact hcells
  refine ⟨by rw [hcells]; rfl, by rw [hcells]; rfl, by rw [hcells]; rfl, by rw [hcells]; rfl,
    by rw [hcells]; rfl, by rw [hcells]; rfl, by rw [hcells]; rfl, by rw [hcells]; rfl,
    by rw [hcells]; rfl, ?_, ?_, ?_, ?_⟩ <;>
  rcases hstream with h | h <;> rw [h] <;> rfl

/-! ## The newest log entry and the snapshot -/

/-- What a frame causes beyond the overlay does not depend on the observations
after the first. -/
theorem applyDetections_rest_irrelevant (now : String) (o : FaceObservation)
    (rest rest2 : List FaceObservation) (s : AppState) :
    { applyDetections now (o :: rest2) s with detectionsArray := [] }
      = { applyDetections now (o :: rest) s with detectionsArray := [] } := by
  cases h : destructurePair (getDominantEmotion o.expressions) with
  | none => rw [applyDetections_throw now o rest s h, applyDetections_throw now o rest2 s h]
  | some r =>
    obtain ⟨emotion, confidence⟩ := r
    simp only [applyDetections, h]
    split_ifs <;> rfl

/-- Rounding a finite number with `Math.round` moves it by at most a half. -/
theorem floor_half_close (q : ℚ) : |((⌊q + 1 / 2⌋ : ℤ) : ℚ) - q| ≤ 1 / 2 := by
  have hlo := Int.floor_le (q + 1 / 2)
  have hhi := Int.lt_floor_add_one (q + 1 / 2)
  rw [abs_le]
  constructor <;> linarith

/-- C26: right after a frame whose first observation carries an expression
map has been applied, the log has a head entry whose emotion, confidence, age
and gender are those of the live snapshot; both come from the first
observation (its dominant emotion, `Math.round` of its age, which for a finite
age is an integer within a half of it, and its gender), and the observations
after the first change nothing but the overlay. -/
theorem log_head_matches_snapshot (now : String) (o : FaceObservation)
    (rest : List FaceObservation) (s : AppState) (m : Expressions)
    (hm : o.expressions = some m) :
    ∃ entry : LogEntry,
      (applyDetections now (o :: rest) s).detectionLog.head? = some entry
        ∧ entry.emotion = (applyDetections now (o :: rest) s).detectedEmotion
        ∧ entry.confidence = (applyDetections now (o :: rest) s).emotionConfidence
        ∧ some entry.age = (applyDetections now (o :: rest) s).detectedAge
        ∧ entry.gender = (applyDetections now (o :: rest) s).detectedGender
        ∧ getDominantEmotion o.expressions = .pair entry.emotion entry.confidence
        ∧ entry.age = mathRound o.age
        ∧ entry.gender = o.gender
        ∧ entry.timestamp = now
        ∧ (∀ q : ℚ, o.age = .number (.finite q) →
            ∃ n : ℤ, entry.age = .finite (n : ℚ) ∧ |(n : ℚ) - q| ≤ 1 / 2)
        ∧ ∀ rest2 : List FaceObservation,
            (applyDetections now (o :: rest2) s).detectionsArray = o :: rest2
              ∧ { applyDetections now (o :: rest2) s with detectionsArray := [] }
                  = { applyDetections now (o :: rest) s with detectionsArray := [] } := by
  have hd := hm ▸ destructurePair_present m
  have hlog := applyDetections_detectionLog now o rest s _ _ hd
  obtain ⟨_, h2, h3, h4, h5⟩ := applyDetections_snapshot now o rest s _ _ hd
  refine ⟨{ timestamp := now
            emotion := (m.foldl dominantStep ("N/A", 0)).1
            confidence := (m.foldl dominantStep ("N/A", 0)).2
            age := mathRound o.age
            gender := o.gender },
    ?_, h2.symm, h3.symm, h4.symm, h5.symm, ?_, rfl, rfl, rfl, ?_, ?_⟩
  · rw [hlog]
    rfl
  · rw [hm]
    rfl
  · intro q hq
    refine ⟨⌊q + 1 / 2⌋, ?_, floor_half_close q⟩
    simp only [hq, mathRound]
  · intro rest2
    exact ⟨applyDetections_detectionsArray _ _ _, applyDetections_rest_irrelevant _ _ _ _ _⟩

/-- Witness of C26: two faces in the frame, the first aged 30.6. -/
theorem log_head_matches_snapshot_witness :
    ∃ entry : LogEntry,
      (applyDetections "10:00:00"
          [⟨some [("happy", 1)], .number (.finite (153 / 5)), some "male"⟩, sampleFace]
          initialState).detectionLog.head? = some entry
        ∧ some entry.age
            = (applyDetections "10:00:00"
                [⟨some [("happy", 1)], .number (.finite (153 / 5)), some "male"⟩, sampleFace]
                initialState).detectedAge
        ∧ entry.gender = some "male" := by
  obtain ⟨entry, h1, _, _, h4, _, _, _, h8, _⟩ := log_head_matches_snapshot "10:00:00"
    ⟨some [("happy", 1)], .number (.finite (153 / 5)), some "male"⟩ [sampleFace] initialState
    [("happy", 1)] rfl
  exact ⟨entry, h1, h4, h8⟩

/-! ## Session totals -/

/-- Writing a key the object does not hold adds it last. -/
theorem objSet_absent (o : CountObj) (k : String) (v : CountVal) (h : objOwn o k = none) :
    objSet o k v = o ++ [(k, v)] := by
  induction o with
  | nil => rfl
  | cons entry o ih =>
    obtain ⟨k2, v2⟩ := entry
    by_cases hk : k2 = k
    · simp [objOwn, hk] at h
    · simp only [objOwn, if_neg hk] at h
      simp [objSet, hk, ih h]

/-- A key that a counter object of counts holds is held with a count, and
writing it replaces that count in place. -/
theorem objSet_present (l : List (String × ℕ)) (k : String) (w : CountVal)
    (h : objOwn (countsOf l) k = some w) :
    ∃ (pre : List (String × ℕ)) (c : ℕ) (post : List (String × ℕ)),
      l = pre ++ (k, c) :: post ∧ w = .number (.finite (c : ℚ))
      ∧ ∀ v, objSet (countsOf l) k v = countsOf pre ++ (k, v) :: countsOf post := by
  induction l with
  | nil => simp [countsOf, objOwn] at h
  | cons entry l ih =>
    obtain ⟨k2, c2⟩ := entry
    by_cases hk : k2 = k
    · subst hk
      simp only [countsOf, List.map_cons, objOwn, if_true, Option.some.injEq] at h
      refine ⟨[], c2, l, rfl, h.symm, ?_⟩
      intro v
      simp [countsOf, objSet]
    · simp only [countsOf, List.map_cons, objOwn, if_neg hk] at h
      obtain ⟨pre, c, post, hl, hw, hset⟩ := ih h
      refine ⟨(k2, c2) :: pre, c, post, by rw [hl]; rfl, hw, ?_⟩
      intro v
      have := hset v
      simp only [countsOf] at this
      simp [countsOf, objSet, hk, this]

/-- On a counter object of counts, for a key that names no member of
`Object.prototype`, the increment gives a counter object of counts again: one
count more in total, every count still at least 1. -/
theorem objIncrement_countsOf (l : List (String × ℕ)) (k : String)
    (hk : k ∉ objectPrototypeKeys) (hsum : (l.map Prod.snd).sum + 1 < 2 ^ 53)
    (hpos : ∀ x ∈ l, 1 ≤ x.2) :
    ∃ l2, objIncrement (countsOf l) k = countsOf l2
      ∧ (l2.map Prod.snd).sum = (l.map Prod.snd).sum + 1 ∧ ∀ x ∈ l2, 1 ≤ x.2 := by
  cases hown : objOwn (countsOf l) k with
  | none =>
    refine ⟨l ++ [(k, 1)], ?_, by simp, ?_⟩
    · have h1 := jsAdd_count_one 0 (by norm_num)
      simp only [Nat.cast_zero, zero_add] at h1
      simp only [objIncrement, objGet, hown, if_neg hk, orZeroPlusOne, h1]
      rw [objSet_absent _ _ _ hown]
      simp [countsOf]
    · intro x hx
      rcases List.mem_append.mp hx with hx | hx
      · exact hpos x hx
      · simp at hx
        rw [hx]
  | some w =>
    obtain ⟨pre, c, post, hl, hw, hset⟩ := objSet_present l k w hown
    have hc : c + 1 < 2 ^ 53 := by
      rw [hl] at hsum
      simp only [List.map_append, List.map_cons, List.sum_append, List.sum_cons] at hsum
      omega
    refine ⟨pre ++ (k, c + 1) :: post, ?_, ?_, ?_⟩
    · simp only [objIncrement, objGet, hown, hw, orZeroPlusOne, jsAdd_count_one c hc]
      rw [hset]
      simp [countsOf]
    · rw [hl]
      simp only [List.map_append, List.map_cons, List.sum_append, List.sum_cons]
      omega
    · intro x hx
      rw [hl] at hpos
      rcases List.mem_append.mp hx with hx | hx
      · exact hpos x (List.mem_append_left _ hx)
      · rcases List.mem_cons.mp hx with rfl | hx
        · simp
        · exact hpos x (List.mem_append_right _ (List.mem_cons_of_mem _ hx))

/-- The session cells after a frame whose first observation has a non-empty
map of non-negative scores without an `'N/A'` key, a finite age and a
non-empty gender: one emotion count (under a key of the map), one age sample
and one gender count more. -/
theorem applyDetections_session_step (now : String) (o : FaceObservation)
    (rest : List FaceObservation) (s : AppState) (m : Expressions) (q : ℚ) (g : String)
    (hm : o.expressions = some m) (hne : m ≠ [])
    (hscores : ∀ x ∈ m, 0 ≤ x.2 ∧ x.2 ≤ 1 ∧ x.1 ≠ "N/A")
    (hage : o.age = .number (.finite q)) (hgender : o.gender = some g) (hg : g ≠ "") :
    (∃ e ∈ m, (applyDetections now (o :: rest) s).sessionEmotionCounts
        = objIncrement s.sessionEmotionCounts e.1)
      ∧ (applyDetections now (o :: rest) s).sessionAges
          = s.sessionAges ++ [.finite ((⌊q + 1 / 2⌋ : ℤ) : ℚ)]
      ∧ (applyDetections now (o :: rest) s).sessionGenders
          = objIncrement s.sessionGenders g := by
  have hd := hm ▸ destructurePair_present m
  obtain ⟨label, e, hmem, hlabel, _, hkeys⟩ := getDominantEmotion_entry_label m hne
    (fun x hx => (hscores x hx).1)
  refine ⟨⟨e, hmem, ?_⟩, ?_, ?_⟩
  · rw [hlabel]
    exact (hkeys (fun x hx => (hscores x hx).2.2)) now o rest s hm
  · rw [applyDetections_sessionAges now o rest s _ _ hd, hage]
    rfl
  · rw [applyDetections_sessionGenders now o rest s _ _ hd, hgender]
    simp [genderTruthy, hg]

/-- The totals over a run of frames, from any state whose counter objects hold
counts that add up to the number of age samples. -/
theorem applyAll_session_totals (ticks : List (String × List FaceObservation)) (s : AppState)
    (n : ℕ) (hlen : n + ticks.length < 2 ^ 53)
    (h : ∀ t ∈ ticks, ∀ o rest, t.2 = o :: rest →
      ∃ m q g, o.expressions = some m ∧ m ≠ []
        ∧ (∀ x ∈ m, 0 ≤ x.2 ∧ x.2 ≤ 1 ∧ x.1 ≠ "N/A" ∧ x.1 ∉ objectPrototypeKeys)
        ∧ o.age = .number (.finite q) ∧ o.gender = some g ∧ g ≠ ""
        ∧ g ∉ objectPrototypeKeys)
    (h1 : ∃ counts, s.sessionEmotionCounts = countsOf counts
      ∧ (counts.map Prod.snd).sum = n ∧ ∀ x ∈ counts, 1 ≤ x.2)
    (h2 : ∃ counts, s.sessionGenders = countsOf counts
      ∧ (counts.map Prod.snd).sum = n ∧ ∀ x ∈ counts, 1 ≤ x.2)
    (h3 : s.sessionAges.length = n) :
    (∃ counts, (applyAll ticks s).sessionEmotionCounts = countsOf counts
        ∧ (counts.map Prod.snd).sum = n + ticks.countP (fun t => !t.2.isEmpty)
        ∧ ∀ x ∈ counts, 1 ≤ x.2)
      ∧ (∃ counts, (applyAll ticks s).sessionGenders = countsOf counts
        ∧ (counts.map Prod.snd).sum = n + ticks.countP (fun t => !t.2.isEmpty)
        ∧ ∀ x ∈ counts, 1 ≤ x.2)
      ∧ (applyAll ticks s).sessionAges.length = n + ticks.countP (fun t => !t.2.isEmpty) := by
  induction ticks generalizing s n with
  | nil => exact ⟨h1, h2, h3⟩
  | cons t ticks ih =>
    obtain ⟨now, frame⟩ := t
    have hrest : ∀ u ∈ ticks, ∀ o rest, u.2 = o :: rest →
        ∃ m q g, o.expressions = some m ∧ m ≠ []
          ∧ (∀ x ∈ m, 0 ≤ x.2 ∧ x.2 ≤ 1 ∧ x.1 ≠ "N/A" ∧ x.1 ∉ objectPrototypeKeys)
          ∧ o.age = .number (.finite q) ∧ o.gender = some g ∧ g ≠ ""
          ∧ g ∉ objectPrototypeKeys :=
      fun u hu => h u (List.mem_cons_of_mem _ hu)
    simp only [List.length_cons] at hlen
    cases frame with
    | nil =>
      have hstep := ih (applyDetections now [] s) n (by omega) hrest h1 h2 h3
      simpa [applyAll] using hstep
    | cons o rest =>
      obtain ⟨m, q, g, hm, hne, hscores, hage, hgender, hg, hgproto⟩ :=
        h (now, o :: rest) (List.mem_cons_self _ _) o rest rfl
      obtain ⟨⟨e, hmem, he⟩, ha, hgd⟩ :=
        applyDetections_session_step now o rest s m q g hm hne
          (fun x hx => ⟨(hscores x hx).1, (hscores x hx).2.1, (hscores x hx).2.2.1⟩)
          hage hgender hg
      obtain ⟨c1, hc1, hs1, hp1⟩ := h1
      obtain ⟨c2, hc2, hs2, hp2⟩ := h2
      obtain ⟨d1, hd1, hds1, hdp1⟩ := objIncrement_countsOf c1 e.1 (hscores e hmem).2.2.2
        (by omega) hp1
      obtain ⟨d2, hd2, hds2, hdp2⟩ := objIncrement_countsOf c2 g hgproto (by omega) hp2
      have hstep := ih (applyDetections now (o :: rest) s) (n + 1) (by omega) hrest
        ⟨d1, by rw [he, hc1, hd1], by omega, hdp1⟩
        ⟨d2, by rw [hgd, hc2, hd2], by omega, hdp2⟩
        (by rw [ha, List.length_append, h3]; rfl)
      have hcount : (((now, o :: rest) :: ticks).countP (fun t => !t.2.isEmpty))
          = ticks.countP (fun t => !t.2.isEmpty) + 1 := by
        simp [List.countP_cons]
      rw [hcount]
      simp only [applyAll, List.foldl_cons] at hstep ⊢
      obtain ⟨⟨r1, q1, q2, q3⟩, ⟨r2, q4, q5, q6⟩, r3⟩ := hstep
      exact ⟨⟨r1, q1, by omega, q3⟩, ⟨r2, q4, by omega, q6⟩, by omega⟩

/-- C24, as stated, fails: after a reset, one frame whose first observation
has an expression map, a finite age and the non-empty gender label `toString`
leaves under that key of `sessionGenders` a text, not a count: no assignment of
counts to keys gives the object, its values have no sum and none is at least
1. -/
theorem session_totals_inherited_counterexample :
    (applyAll [("10:00:00", [⟨some [("happy", 1)], .number (.finite 30), some "toString"⟩])]
        (resetSessionData initialState)).sessionGenders
      = [("toString", .text "toString" 1)]
    ∧ ¬ ∃ counts : List (String × ℕ),
        (applyAll [("10:00:00", [⟨some [("happy", 1)], .number (.finite 30), some "toString"⟩])]
          (resetSessionData initialState)).sessionGenders = countsOf counts := by
  have h : (applyAll [("10:00:00", [⟨some [("happy", 1)], .number (.finite 30), some "toString"⟩])]
      (resetSessionData initialState)).sessionGenders = [("toString", .text "toString" 1)] := by
    simp only [applyAll, List.foldl_cons, List.foldl_nil]
    rw [applyDetections_sessionGenders "10:00:00" _ [] (resetSessionData initialState) "happy" 1
      (by norm_num [getDominantEmotion, destructurePair, dominantStep])]
    decide
  refine ⟨h, ?_⟩
  rw [h]
  rintro ⟨counts, hcounts⟩
  cases counts with
  | nil => simp [countsOf] at hcounts
  | cons c counts => simp [countsOf] at hcounts

/-- C24, amended: from a reset session, after any sequence of fewer than
`2 ^ 53` applied frames of which every non-empty one has a first observation
with a non-empty expression map (scores in `[0,1]`, no key `'N/A'`), a finite
age and a non-empty gender, no key of the map and no gender naming a member of
`Object.prototype`: `sessionEmotionCounts` and `sessionGenders` hold counts,
each at least 1, and the sum of the emotion counts, the sum of the gender
counts and the length of `sessionAges` all equal the number of non-empty
frames. -/
theorem session_totals_count_frames (ticks : List (String × List FaceObservation))
    (s : AppState) (hlen : ticks.length < 2 ^ 53)
    (h : ∀ t ∈ ticks, ∀ o rest, t.2 = o :: rest →
      ∃ m q g, o.expressions = some m ∧ m ≠ []
        ∧ (∀ x ∈ m, 0 ≤ x.2 ∧ x.2 ≤ 1 ∧ x.1 ≠ "N/A" ∧ x.1 ∉ objectPrototypeKeys)
        ∧ o.age = .number (.finite q) ∧ o.gender = some g ∧ g ≠ ""
        ∧ g ∉ objectPrototypeKeys) :
    (∃ counts, (applyAll ticks (resetSessionData s)).sessionEmotionCounts = countsOf counts
        ∧ (counts.map Prod.snd).sum = ticks.countP (fun t => !t.2.isEmpty)
        ∧ ∀ x ∈ counts, 1 ≤ x.2)
      ∧ (∃ counts, (applyAll ticks (resetSessionData s)).sessionGenders = countsOf counts
        ∧ (counts.map Prod.snd).sum = ticks.countP (fun t => !t.2.isEmpty)
        ∧ ∀ x ∈ counts, 1 ≤ x.2)
      ∧ (applyAll ticks (resetSessionData s)).sessionAges.length
          = ticks.countP (fun t => !t.2.isEmpty) := by
  have H := applyAll_session_totals ticks (resetSessionData s) 0 (by omega) h
    ⟨[], rfl, rfl, by intro x hx; exact absurd hx (List.not_mem_nil x)⟩
    ⟨[], rfl, rfl, by intro x hx; exact absurd hx (List.not_mem_nil x)⟩
    rfl
  simpa using H

/-- Witness of the amended C24: a face, an empty frame and the same face
again, after a reset: two non-empty frames, two age samples, and emotion
counts that add up to 2. -/
theorem session_totals_count_frames_witness :
    (applyAll [("10:00:00", [sampleFace]), ("10:00:01", []), ("10:00:02", [sampleFace])]
        (resetSessionData initialState)).sessionAges.length = 2
      ∧ ∃ counts, (applyAll
          [("10:00:00", [sampleFace]), ("10:00:01", []), ("10:00:02", [sampleFace])]
          (resetSessionData initialState)).sessionEmotionCounts = countsOf counts
        ∧ (counts.map Prod.snd).sum = 2 := by
  have H := session_totals_count_frames
    [("10:00:00", [sampleFace]), ("10:00:01", []), ("10:00:02", [sampleFace])] initialState
    (by simp)
    (by
      intro t ht o rest hframe
      simp only [List.mem_cons, List.mem_singleton, List.not_mem_nil, or_false] at ht
      rcases ht with rfl | rfl | rfl
      · simp only [List.cons.injEq] at hframe
        obtain ⟨rfl, _⟩ := hframe
        refine ⟨[("happy", 1)], 30, "male", rfl, by simp, ?_, rfl, rfl, by decide, by decide⟩
        intro x hx
        simp at hx
        subst hx
        refine ⟨by norm_num, by norm_num, by decide, by decide⟩
      · simp at hframe
      · simp only [List.cons.injEq] at hframe
        obtain ⟨rfl, _⟩ := hframe
        refine ⟨[("happy", 1)], 30, "male", rfl, by simp, ?_, rfl, rfl, by decide, by decide⟩
        intro x hx
        simp at hx
        subst hx
        refine ⟨by norm_num, by norm_num, by decide, by decide⟩)
  obtain ⟨counts, hc, hs, _⟩ := H.1
  exact ⟨H.2.2, counts, hc, hs⟩

end Gredu
